import Mathlib

/-!
# mergedbs.c : a shallow embedding

`mergedbs.c` replicates the tables and indexes of a source SQLite file into a
destination file through the B-tree layer.  The embedding below follows the C
source function by function.

* Memory is explicit: descriptors (`MDTab`), copied names and cursors live at
  addresses (`Nat`, `0` is `NULL`) in the stores `World.tabs`, `World.strs`,
  `World.curs`; `sqlite3_malloc` hands out fresh addresses.
* The storage engine (SQLite) is not part of the source.  Its result codes are
  read from an oracle (`Engine.rc`, one entry per fallible engine call, in call
  order), so every theorem quantifies over every possible pattern of engine
  successes and failures.
* Every engine call is recorded in `World.log`; the log also records the
  return of `md_createTable` and `md_cprows` and the entry of `md_cprels`, so
  that statements about what the program attempted are statements about the
  log.
* Loops over pointer structures and cursors take `fuel`; `none` means the
  fuel ran out.
-/

namespace MergeDbs

/-! ## Definitions -/

/-! ### Result codes and flags (engine headers) -/

abbrev SQLITE_OK : Int := 0

abbrev SQLITE_ERROR : Int := 1

abbrev SQLITE_ROW : Int := 100

abbrev SQLITE_DONE : Int := 101

/-- Cursor flag passed for the destination cursor (btree.h). -/
abbrev BTREE_WRCSR : Int := 4

/-! ### Data model -/

/-- The two storage contexts (`sqlite3 *`) of one merge. -/
inductive Db where
  | srcdb
  | destdb
  deriving DecidableEq, Repr

/-- The field `Btree.inTrans`. -/
inductive TransState where
  | TRANS_NONE
  | TRANS_READ
  | TRANS_WRITE
  deriving DecidableEq, Repr

/-- The struct `MDHandle`: context, root page, cursor address (`0` = `NULL`). -/
structure MDHandle where
  db : Db
  rootpage : Int
  cursor : Nat
  deriving DecidableEq, Repr

/-- The struct `MDTab`.  `relname` is the address of the copied name, `next`
the address of the next descriptor (`0` = `NULL`). -/
structure MDTab where
  reltype : String
  relname : Nat
  src : MDHandle
  dest : MDHandle
  next : Nat
  deriving DecidableEq, Repr

instance : Inhabited MDTab := ⟨⟨"", 0, ⟨Db.srcdb, 0, 0⟩, ⟨Db.srcdb, 0, 0⟩, 0⟩⟩

/-- The fields of the engine's `CellInfo` that `md_fillPayload` reads.
`pPayload` is the byte sequence the pointer designates.  The field widths are
declared by the engine headers, which are not part of this source; lengths are
natural numbers here. -/
structure CellInfo where
  nKey : Int
  pPayload : List Nat
  nPayload : Nat
  deriving DecidableEq, Repr

instance : Inhabited CellInfo := ⟨⟨0, [], 0⟩⟩

/-- The fields of the engine's `BtreePayload` that `md_fillPayload` writes;
`none` is a `NULL` pointer.  The remaining fields stay zero after `memset`. -/
structure BtreePayload where
  pKey : Option (List Nat)
  nKey : Int
  pData : Option (List Nat)
  nData : Int
  deriving DecidableEq, Repr

/-- The fields of the engine's `BtCursor` that the program or the engine model
uses.  `pKeyInfo` is an address (`0` = `NULL`).  `rest` holds the entries from
the current position to the end of the relation; the cursor is at end-of-file
when `rest` is empty. -/
structure BtCursor where
  db : Db
  root : Int
  wrFlag : Int
  pKeyInfo : Nat
  rest : List CellInfo
  info : CellInfo
  deriving DecidableEq, Repr

instance : Inhabited BtCursor := ⟨⟨Db.srcdb, 0, 0, 0, [], default⟩⟩

/-- One row of a catalog scan: the columns `name`, `rootpage`, `sql`. -/
structure CatRow where
  name : String
  rootpage : Int
  sql : String
  deriving DecidableEq, Repr

/-- Which handle of a descriptor (`&tab->src` or `&tab->dest`). -/
inductive Side where
  | srcHandle
  | destHandle
  deriving DecidableEq, Repr

/-- What the program did, in order: the engine calls with their arguments and
result codes, plus the entry of `md_cprels` and the returns of
`md_createTable` and `md_cprows`. -/
inductive Event where
  | open_v2 (db : Db) (rc : Int)
  | close_v2 (db : Db)
  | errstr
  | prepare (db : Db) (rc : Int)
  | step (db : Db) (rc : Int)
  | finalize (db : Db)
  | execSql (db : Db) (sql : String) (rc : Int)
  | malloc (p : Nat)
  | free (p : Nat)
  | mutex_enter (db : Db)
  | mutex_leave (db : Db)
  | beginTrans (db : Db) (wrflag : Int) (rc : Int)
  | commit (db : Db) (rc : Int)
  | rollback (db : Db) (rc : Int)
  | cursor (db : Db) (root : Int) (wrFlag : Int) (keyInfo : Nat) (p : Nat) (rc : Int)
  | closeCursor (p : Nat)
  | first (p : Nat) (rc : Int)
  | last (p : Nat) (rc : Int)
  | insert (p : Nat) (x : BtreePayload) (rc : Int)
  | next (p : Nat) (rc : Int)
  | md_createTable (tab : Nat) (rc : Int)
  | md_cprows (tab : Nat) (rc : Int)
  | md_cprels (tablist : Nat)
  deriving DecidableEq, Repr

/-- The storage engine as seen by one run.
* `rc k` is the result code of the `k`-th fallible engine call of the run,
  when that call is not a step of a lookup statement.
* `step k` is the result of `sqlite3_step` when the `k`-th fallible engine call
  is the step of a lookup statement, `int64 k` the integer column it yields.
* `scan reltype` is the catalog scan of the source for one relation kind: the
  rows it yields and then the first result of `sqlite3_step` that is not
  `SQLITE_ROW` (`SQLITE_DONE`, or an error code).
* `rows db root` is the row sequence a read cursor on that relation yields.
* `keyInfo db name` is the result of `sqlite3KeyInfoOfIndex` for that index. -/
structure Engine where
  rc : Nat → Int
  step : Nat → Int
  int64 : Nat → Int
  scan : String → List CatRow × Int
  rows : Db → Int → List CellInfo
  keyInfo : Db → String → Nat

/-- The state of the process and of the two storage contexts. -/
structure World where
  tick : Nat
  log : List Event
  brk : Nat
  tabs : Nat → MDTab
  strs : Nat → String
  curs : Nat → BtCursor
  inTrans : Db → TransState
  mutex : Db → Int
  content : Db → Int → List BtreePayload

/-! ### Stores -/

/-- Pointwise store update. -/
def upd {α β : Type} [DecidableEq α] (f : α → β) (a : α) (v : β) : α → β :=
  fun x => if x = a then v else f x

/-- The handle of a descriptor on one side. -/
def MDTab.handle (t : MDTab) : Side → MDHandle
  | Side.srcHandle => t.src
  | Side.destHandle => t.dest

/-- Assignment to `handle->cursor` on one side of a descriptor. -/
def MDTab.setCursor (t : MDTab) (side : Side) (p : Nat) : MDTab :=
  match side with
  | Side.srcHandle => { t with src := { t.src with cursor := p } }
  | Side.destHandle => { t with dest := { t.dest with cursor := p } }

/-! ### Engine model -/

/-- Append one event to the log. -/
def World.emit (w : World) (e : Event) : World :=
  { w with log := w.log ++ [e] }

/-- A fallible engine call: read its result code from the oracle, log it. -/
def World.call (env : Engine) (w : World) (mk : Int → Event) : Int × World :=
  (env.rc w.tick, { w with tick := w.tick + 1, log := w.log ++ [mk (env.rc w.tick)] })

/-- The allocator `sqlite3_malloc` (also behind `sqlite3DbStrDup`): a fresh
non-null address.  Allocation failure is not modelled. -/
def sqlite3_malloc (w : World) : Nat × World :=
  (w.brk + 1, { w with brk := w.brk + 1, log := w.log ++ [Event.malloc (w.brk + 1)] })

/-- The engine call `sqlite3_free`. -/
def sqlite3_free (w : World) (p : Nat) : World :=
  w.emit (Event.free p)

/-- Modelled from the spec: Transaction Engine, `lock(context)`. -/
def sqlite3_mutex_enter (w : World) (db : Db) : World :=
  { w with mutex := upd w.mutex db (w.mutex db + 1), log := w.log ++ [Event.mutex_enter db] }

/-- Modelled from the spec: Transaction Engine, `unlock(context)`. -/
def sqlite3_mutex_leave (w : World) (db : Db) : World :=
  { w with mutex := upd w.mutex db (w.mutex db - 1), log := w.log ++ [Event.mutex_leave db] }

/-- Modelled from the spec: Transaction Engine, `begin(context, mode)`.  On
success the context holds a read (`wrflag = 0`) or write transaction. -/
def sqlite3BtreeBeginTrans (env : Engine) (w : World) (db : Db) (wrflag : Int) : Int × World :=
  let r := w.call env (Event.beginTrans db wrflag)
  let st := if wrflag = 0 then TransState.TRANS_READ else TransState.TRANS_WRITE
  (r.1, { r.2 with inTrans := if r.1 = SQLITE_OK then upd w.inTrans db st else w.inTrans })

/-- Modelled from the spec: Transaction Engine, `commit(context)`. -/
def sqlite3BtreeCommit (env : Engine) (w : World) (db : Db) : Int × World :=
  let r := w.call env (Event.commit db)
  (r.1, { r.2 with inTrans := if r.1 = SQLITE_OK then upd w.inTrans db TransState.TRANS_NONE
                              else w.inTrans })

/-- Modelled from the spec: Transaction Engine, `rollback(context)`. -/
def sqlite3BtreeRollback (env : Engine) (w : World) (db : Db) : Int × World :=
  let r := w.call env (Event.rollback db)
  (r.1, { r.2 with inTrans := if r.1 = SQLITE_OK then upd w.inTrans db TransState.TRANS_NONE
                              else w.inTrans })

/-- The engine call `sqlite3BtreeCursorZero`. -/
def sqlite3BtreeCursorZero (w : World) (p : Nat) : World :=
  { w with curs := upd w.curs p default }

/-- Modelled from the spec: Cursor Engine, `open_cursor(context, location_id,
writable, collation_descriptor?)`. -/
def sqlite3BtreeCursor (env : Engine) (w : World) (db : Db) (root : Int) (wrFlag : Int)
    (keyInfo : Nat) (p : Nat) : Int × World :=
  let r := w.call env (Event.cursor db root wrFlag keyInfo p)
  (r.1, { r.2 with curs := if r.1 = SQLITE_OK
                           then upd w.curs p ⟨db, root, wrFlag, keyInfo, [], default⟩
                           else w.curs })

/-- Modelled from the spec: Cursor Engine, `cursor_close(cursor)`. -/
def sqlite3BtreeCloseCursor (w : World) (p : Nat) : World :=
  w.emit (Event.closeCursor p)

/-- Modelled from the spec: Cursor Engine, `cursor_first(cursor)`: on success
the cursor stands on the first row of its relation. -/
def sqlite3BtreeFirst (env : Engine) (w : World) (p : Nat) : Int × World :=
  let r := w.call env (Event.first p)
  let c : BtCursor := { w.curs p with rest := env.rows (w.curs p).db (w.curs p).root }
  (r.1, { r.2 with curs := if r.1 = SQLITE_OK then upd w.curs p c else w.curs })

/-- The engine call `sqlite3BtreeEof`: no current row. -/
def sqlite3BtreeEof (w : World) (p : Nat) : Bool :=
  (w.curs p).rest.isEmpty

/-- Modelled from the spec: Cursor Engine, positioning the write cursor at the
logical end of its relation. -/
def sqlite3BtreeLast (env : Engine) (w : World) (p : Nat) : Int × World :=
  w.call env (Event.last p)

/-- The engine call `getCellInfo`: fill `cursor->info` from the current row
(left as it is when there is none). -/
def getCellInfo (w : World) (p : Nat) : World :=
  { w with curs := upd w.curs p { w.curs p with info := (w.curs p).rest.headD (w.curs p).info } }

/-- Modelled from the spec: Cursor Engine, `cursor_insert_append(cursor,
payload)` (the call passes `BTREE_APPEND | BTREE_SAVEPOSITION` and seek result
`-1`): on success the payload becomes the last entry of the relation. -/
def sqlite3BtreeInsert (env : Engine) (w : World) (p : Nat) (x : BtreePayload) : Int × World :=
  let r := w.call env (Event.insert p x)
  let db := (w.curs p).db
  let root := (w.curs p).root
  (r.1, { r.2 with content := if r.1 = SQLITE_OK
                              then upd w.content db (upd (w.content db) root (w.content db root ++ [x]))
                              else w.content })

/-- Modelled from the spec: Cursor Engine, `cursor_next(cursor)`: on success
the cursor moves one row forward. -/
def sqlite3BtreeNext (env : Engine) (w : World) (p : Nat) : Int × World :=
  let r := w.call env (Event.next p)
  (r.1, { r.2 with curs := if r.1 = SQLITE_OK
                           then upd w.curs p { w.curs p with rest := (w.curs p).rest.tail }
                           else w.curs })

/-- The C function `md_getKeyInfo`: it finds the index `zName` in the schema of
`db` and asks the engine for its key info; what the engine answers is
`Engine.keyInfo`. -/
def md_getKeyInfo (env : Engine) (db : Db) (zName : String) : Nat :=
  env.keyInfo db zName

/-! ### The program -/

/-- The C function `md_fillPayload`. -/
def md_fillPayload (cellinfo : CellInfo) (isindex : Bool) : BtreePayload :=
  let payload : BtreePayload := ⟨none, 0, none, 0⟩
  if isindex then
    { payload with nKey := cellinfo.nPayload, pKey := some cellinfo.pPayload }
  else
    { payload with nKey := cellinfo.nKey, nData := cellinfo.nPayload,
                   pData := some cellinfo.pPayload }

/-- The C function `md_closeCursor`, applied to `&tab->src.cursor` or
`&tab->dest.cursor`. -/
def md_closeCursor (w : World) (tab : Nat) (side : Side) : World :=
  let cursor := ((w.tabs tab).handle side).cursor
  if cursor ≠ 0 then
    let w1 := sqlite3BtreeCloseCursor w cursor
    let w2 := sqlite3_free w1 cursor
    { w2 with tabs := upd w2.tabs tab ((w2.tabs tab).setCursor side 0) }
  else w

/-- The C function `md_closeCursors`. -/
def md_closeCursors (w : World) (tab : Nat) : World :=
  md_closeCursor (md_closeCursor w tab Side.srcHandle) tab Side.destHandle

/-- The C function `md_openCursor`, applied to `&tab->src` or `&tab->dest`. -/
def md_openCursor (env : Engine) (w : World) (reltype : String) (relname : Nat)
    (flag : Int) (tab : Nat) (side : Side) : Int × World :=
  let db := ((w.tabs tab).handle side).db
  let a := sqlite3_malloc w
  let w1 : World := { a.2 with tabs := upd a.2.tabs tab ((a.2.tabs tab).setCursor side a.1) }
  let w2 := sqlite3BtreeCursorZero w1 ((w1.tabs tab).handle side).cursor
  sqlite3BtreeCursor env w2 db ((w2.tabs tab).handle side).rootpage flag
    (if reltype = "index" then md_getKeyInfo env db (w2.strs relname) else 0)
    ((w2.tabs tab).handle side).cursor

/-- The C function `md_openCursors`. -/
def md_openCursors (env : Engine) (w : World) (tab : Nat) : Int × World :=
  let reltype := (w.tabs tab).reltype
  let relname := (w.tabs tab).relname
  let r := md_openCursor env w reltype relname 0 tab Side.srcHandle
  let r2 := if r.1 = SQLITE_OK then md_openCursor env r.2 reltype relname BTREE_WRCSR tab Side.destHandle
            else r
  if r2.1 ≠ SQLITE_OK then (r2.1, md_closeCursors r2.2 tab) else r2

/-- One pass through the body of the `while` loop of `md_cprows`: the value of
`rc` after it and the world.  A non-OK result is a `break`. -/
def cprowsIter (env : Engine) (w : World) (src dest : Nat) : Int × World :=
  let r1 := sqlite3BtreeLast env w dest
  if r1.1 ≠ SQLITE_OK then r1
  else
    let w2 := getCellInfo r1.2 src
    let payload := md_fillPayload (w2.curs src).info (decide ((w2.curs src).pKeyInfo ≠ 0))
    let r3 := sqlite3BtreeInsert env w2 dest payload
    if r3.1 ≠ SQLITE_OK then r3
    else sqlite3BtreeNext env r3.2 src

/-- The `while ( ! sqlite3BtreeEof(src) )` loop of `md_cprows`; `rc` is the
value of the variable on entry to the loop test. -/
def cprowsLoop (env : Engine) : Nat → World → Nat → Nat → Int → Option (Int × World)
  | 0, _, _, _, _ => none
  | fuel + 1, w, src, dest, rc =>
    if sqlite3BtreeEof w src then some (rc, w)
    else
      let r := cprowsIter env w src dest
      if r.1 ≠ SQLITE_OK then some r
      else cprowsLoop env fuel r.2 src dest r.1

/-- The body of the C function `md_cprows` up to the label `cleanup`. -/
def cprowsBody (env : Engine) (fuel : Nat) (w : World) (tab : Nat) : Option (Int × World) :=
  let r := md_openCursors env w tab
  if r.1 ≠ SQLITE_OK then some r
  else
    let src := (r.2.tabs tab).src.cursor
    let dest := (r.2.tabs tab).dest.cursor
    let r1 := sqlite3BtreeFirst env r.2 src
    if r1.1 ≠ SQLITE_OK then some r1
    else cprowsLoop env fuel r1.2 src dest r1.1

/-- The C function `md_cprows`; its return is logged. -/
def md_cprows (env : Engine) (fuel : Nat) (w : World) (tab : Nat) : Option (Int × World) :=
  match cprowsBody env fuel w tab with
  | none => none
  | some r => some (r.1, (md_closeCursors r.2 tab).emit (Event.md_cprows tab r.1))

/-- The C function `md_tabCons`: a zeroed descriptor with a private copy of the
name.  Returns the address of the descriptor. -/
def md_tabCons (w : World) (src dest : Db) (reltype : String) (relname : String)
    (src_rootpage : Int) : Nat × World :=
  let ret := sqlite3_malloc w
  let name := sqlite3_malloc ret.2
  let w2 : World := { name.2 with strs := upd name.2.strs name.1 relname }
  (ret.1, { w2 with tabs := upd w2.tabs ret.1
                      ⟨reltype, name.1, ⟨src, src_rootpage, 0⟩, ⟨dest, 0, 0⟩, 0⟩ })

/-- The `while (iter->next)` loop of `md_insertTab`: the last node reached
from `iter`. -/
def insertWalk (tabs : Nat → MDTab) : Nat → Nat → Option Nat
  | 0, _ => none
  | fuel + 1, iter =>
    if (tabs iter).next ≠ 0 then insertWalk tabs fuel (tabs iter).next else some iter

/-- The C function `md_insertTab`; returns the new value of `*head`. -/
def md_insertTab (fuel : Nat) (w : World) (head newelement : Nat) : Option (World × Nat) :=
  if head = 0 then some (w, newelement)
  else
    match insertWalk w.tabs fuel head with
    | none => none
    | some iter =>
      some ({ w with tabs := upd w.tabs iter { w.tabs iter with next := newelement } }, head)

/-- The `while (ele)` loop of `md_freeTabs`. -/
def freeTabsLoop : Nat → World → Nat → Option World
  | 0, _, _ => none
  | fuel + 1, w, ele =>
    if ele = 0 then some w
    else
      let temp := (w.tabs ele).next
      let w1 := sqlite3_free w (w.tabs ele).relname
      let w2 := sqlite3_free w1 ele
      freeTabsLoop fuel w2 temp

/-- The C function `md_freeTabs`; returns the new value of `*head` (`NULL`). -/
def md_freeTabs (fuel : Nat) (w : World) (head : Nat) : Option (World × Nat) :=
  match freeTabsLoop fuel w head with
  | none => none
  | some w1 => some (w1, 0)

/-- Modelled from the spec: Statement Executor, `execute(context,
definition_text)`. -/
def execSql (env : Engine) (w : World) (db : Db) (sql : String) : Int × World :=
  w.call env (Event.execSql db sql)

/-- The engine call `sqlite3_prepare_v2`; the statement is non-null exactly
when the result is `SQLITE_OK`. -/
def sqlite3_prepare_v2 (env : Engine) (w : World) (db : Db) : Int × World :=
  w.call env (Event.prepare db)

/-- The engine call `sqlite3_step` on a lookup statement. -/
def sqlite3_step (env : Engine) (w : World) (db : Db) : Int × World :=
  (env.step w.tick,
   { w with tick := w.tick + 1, log := w.log ++ [Event.step db (env.step w.tick)] })

/-- The engine call `sqlite3_finalize`. -/
def sqlite3_finalize (w : World) (db : Db) : World :=
  w.emit (Event.finalize db)

/-- The body of the C function `md_createTable`. -/
def createTableBody (env : Engine) (w : World) (creation_sql : String) (tab : Nat) :
    Int × World :=
  let db := (w.tabs tab).dest.db
  let r := execSql env w db creation_sql
  if r.1 ≠ SQLITE_OK then r
  else
    let rootpage_q := sqlite3_malloc r.2
    let p := sqlite3_prepare_v2 env rootpage_q.2 db
    if p.1 ≠ SQLITE_OK then (p.1, sqlite3_free p.2 rootpage_q.1)
    else
      let s := sqlite3_step env p.2 db
      if s.1 = SQLITE_ROW then
        let t := s.2.tabs tab
        let w3 : World :=
          { s.2 with tabs := upd s.2.tabs tab
                       { t with dest := { t.dest with rootpage := env.int64 p.2.tick } } }
        (p.1, sqlite3_free (sqlite3_finalize w3 db) rootpage_q.1)
      else
        (SQLITE_ERROR, sqlite3_free (sqlite3_finalize s.2 db) rootpage_q.1)

/-- The C function `md_createTable`; its return is logged. -/
def md_createTable (env : Engine) (w : World) (creation_sql : String) (tab : Nat) :
    Int × World :=
  let r := createTableBody env w creation_sql tab
  (r.1, r.2.emit (Event.md_createTable tab r.1))

/-- The `while (sqlite3_step(stmt) == SQLITE_ROW)` loop of `md_cpdefs` over the
rows the scan still has to yield; `fin` is the result of the step after the
last row, `rc` the value of the variable on entry.  Returns `rc`, the world
and `*tablist`. -/
def cpdefsLoop (env : Engine) (fuel : Nat) (src dest : Db) (reltype : String) (fin : Int) :
    List CatRow → World → Nat → Int → Option (Int × World × Nat)
  | [], w, tablist, rc => some (rc, w.emit (Event.step src fin), tablist)
  | row :: rest, w, tablist, _ =>
    let w1 := w.emit (Event.step src SQLITE_ROW)
    let tab := md_tabCons w1 src dest reltype row.name row.rootpage
    let r := md_createTable env tab.2 row.sql tab.1
    if r.1 ≠ SQLITE_OK then some (r.1, r.2, tablist)
    else
      match md_insertTab fuel r.2 tablist tab.1 with
      | none => none
      | some i => cpdefsLoop env fuel src dest reltype fin rest i.1 i.2 r.1

/-- The C function `md_cpdefs`.  Returns `rc`, the world and `*tablist`. -/
def md_cpdefs (env : Engine) (fuel : Nat) (w : World) (src dest : Db) (reltype : String)
    (tablist : Nat) : Option (Int × World × Nat) :=
  let p := sqlite3_prepare_v2 env w src
  if p.1 ≠ SQLITE_OK then some (p.1, p.2, tablist)
  else
    match cpdefsLoop env fuel src dest reltype (env.scan reltype).2 (env.scan reltype).1
            p.2 tablist p.1 with
    | none => none
    | some r => some (r.1, sqlite3_finalize r.2.1 src, r.2.2)

/-- The C function `md_beginTrans`. -/
def md_beginTrans (env : Engine) (w : World) (tab : Nat) : Int × World :=
  let src := (w.tabs tab).src.db
  let dest := (w.tabs tab).dest.db
  if w.inTrans src ≠ TransState.TRANS_NONE then (SQLITE_ERROR, w)
  else if w.inTrans dest ≠ TransState.TRANS_NONE then (SQLITE_ERROR, w)
  else
    let w1 := sqlite3_mutex_enter w src
    let r := sqlite3BtreeBeginTrans env w1 src 0
    if r.1 ≠ SQLITE_OK then (r.1, sqlite3_mutex_leave r.2 src)
    else
      let w2 := sqlite3_mutex_enter r.2 dest
      let r2 := sqlite3BtreeBeginTrans env w2 dest 2
      if r2.1 ≠ SQLITE_OK then
        let w3 := sqlite3_mutex_leave r2.2 src
        let w4 := sqlite3_mutex_leave w3 dest
        (r2.1, (sqlite3BtreeCommit env w4 src).2)
      else (SQLITE_OK, r2.2)

/-- The C function `md_endTrans`. -/
def md_endTrans (env : Engine) (w : World) (tab : Nat) (commit : Int) : Int × World :=
  let src := (w.tabs tab).src.db
  let dest := (w.tabs tab).dest.db
  let w1 := sqlite3_mutex_leave w src
  let w2 := sqlite3_mutex_leave w1 dest
  let c := sqlite3BtreeCommit env w2 src
  if commit ≠ 0 then
    let r := sqlite3BtreeCommit env c.2 dest
    if r.1 ≠ SQLITE_OK then (r.1, (sqlite3BtreeRollback env r.2 dest).2)
    else r
  else sqlite3BtreeRollback env c.2 dest

/-- The `while (tab)` loop of `md_cprels`; `rowFuel` is the fuel handed to each
`md_cprows`, `rc` the value of the variable on entry. -/
def cprelsLoop (env : Engine) (rowFuel : Nat) : Nat → World → Nat → Int → Option (Int × World)
  | 0, _, _, _ => none
  | fuel + 1, w, tab, rc =>
    if tab = 0 then some (rc, w)
    else
      match md_cprows env rowFuel w tab with
      | none => none
      | some r =>
        if r.1 ≠ SQLITE_OK then some r
        else cprelsLoop env rowFuel fuel r.2 ((r.2.tabs tab).next) r.1

/-- The C function `md_cprels`; its entry is logged. -/
def md_cprels (env : Engine) (fuel : Nat) (w : World) (tablist : Nat) : Option (Int × World) :=
  let w0 := w.emit (Event.md_cprels tablist)
  let r := md_beginTrans env w0 tablist
  if r.1 ≠ SQLITE_OK then some r
  else
    match cprelsLoop env fuel fuel r.2 tablist r.1 with
    | none => none
    | some l =>
      if l.1 = SQLITE_OK then some (md_endTrans env l.2 tablist 1)
      else some (l.1, (md_endTrans env l.2 tablist 0).2)

/-- The engine call `sqlite3_open_v2`. -/
def sqlite3_open_v2 (env : Engine) (w : World) (db : Db) : Int × World :=
  w.call env (Event.open_v2 db)

/-- The engine call `sqlite3_close_v2`; harmless on `NULL` (`none`). -/
def sqlite3_close_v2 (w : World) : Option Db → World
  | none => w
  | some db => w.emit (Event.close_v2 db)

/-- The code of `md_mergedbs` from the label `cleanup` on.  `errstr` tells
whether the caller passed a buffer; `srcdb`, `destdb`, `tablist` are the local
variables. -/
def mergeCleanup (fuel : Nat) (w : World) (rc : Int) (errstr : Bool)
    (srcdb destdb : Option Db) (tablist : Nat) : Option (Int × World) :=
  let w1 := if rc ≠ SQLITE_OK ∧ errstr = true then w.emit Event.errstr else w
  let w2 := sqlite3_close_v2 w1 srcdb
  let w3 := sqlite3_close_v2 w2 destdb
  match md_freeTabs fuel w3 tablist with
  | none => none
  | some f => some (rc, f.1)

/-- The C function `md_mergedbs`.  The two paths only select the contexts
`Db.srcdb` and `Db.destdb`; `errstr` tells whether a buffer was passed. -/
def md_mergedbs (env : Engine) (fuel : Nat) (w : World) (errstr : Bool) :
    Option (Int × World) :=
  let o1 := sqlite3_open_v2 env w Db.srcdb
  if o1.1 ≠ SQLITE_OK then mergeCleanup fuel o1.2 o1.1 errstr (some Db.srcdb) none 0
  else
    let o2 := sqlite3_open_v2 env o1.2 Db.destdb
    if o2.1 ≠ SQLITE_OK then mergeCleanup fuel o2.2 o2.1 errstr (some Db.srcdb) (some Db.destdb) 0
    else
      match md_cpdefs env fuel o2.2 Db.srcdb Db.destdb "table" 0 with
      | none => none
      | some t =>
        if t.1 ≠ SQLITE_OK then
          mergeCleanup fuel t.2.1 t.1 errstr (some Db.srcdb) (some Db.destdb) t.2.2
        else
          match md_cpdefs env fuel t.2.1 Db.srcdb Db.destdb "index" t.2.2 with
          | none => none
          | some i =>
            if i.1 ≠ SQLITE_OK then
              mergeCleanup fuel i.2.1 i.1 errstr (some Db.srcdb) (some Db.destdb) i.2.2
            else if i.2.2 ≠ 0 then
              match md_cprels env fuel i.2.1 i.2.2 with
              | none => none
              | some c => mergeCleanup fuel c.2 c.1 errstr (some Db.srcdb) (some Db.destdb) i.2.2
            else mergeCleanup fuel i.2.1 i.1 errstr (some Db.srcdb) (some Db.destdb) i.2.2

/-! ### Vocabulary of the statements: traces -/

/-- The events `md_endTrans` adds to the log. -/
def endTransEvents (env : Engine) (w : World) (tab : Nat) (commit : Int) : List Event :=
  [Event.mutex_leave (w.tabs tab).src.db, Event.mutex_leave (w.tabs tab).dest.db,
   Event.commit (w.tabs tab).src.db (env.rc w.tick)] ++
  (if commit ≠ 0 then
    Event.commit (w.tabs tab).dest.db (env.rc (w.tick + 1)) ::
      (if env.rc (w.tick + 1) ≠ SQLITE_OK then
        [Event.rollback (w.tabs tab).dest.db (env.rc (w.tick + 2))] else [])
   else [Event.rollback (w.tabs tab).dest.db (env.rc (w.tick + 1))])

/-- The events a successful `md_beginTrans` adds to the log. -/
def beginTransEvents (w : World) (tab : Nat) : List Event :=
  [Event.mutex_enter (w.tabs tab).src.db, Event.beginTrans (w.tabs tab).src.db 0 SQLITE_OK,
   Event.mutex_enter (w.tabs tab).dest.db, Event.beginTrans (w.tabs tab).dest.db 2 SQLITE_OK]

/-- Events of the cursor layer: what `md_cprows` may do besides returning. -/
def Event.isCursorLevel : Event → Bool
  | Event.malloc _ => true
  | Event.free _ => true
  | Event.cursor _ _ _ _ _ _ => true
  | Event.closeCursor _ => true
  | Event.first _ _ => true
  | Event.last _ _ => true
  | Event.insert _ _ _ => true
  | Event.next _ _ => true
  | _ => false

/-- A descriptor with both cursor fields cleared. -/
def MDTab.shape (t : MDTab) : MDTab :=
  { t with src := { t.src with cursor := 0 }, dest := { t.dest with cursor := 0 } }

/-- From `w` to `w'` only cursor-level events were logged and no descriptor
changed except in its cursor fields. -/
structure CursorStep (w w' : World) : Prop where
  log : ∃ evs, w'.log = w.log ++ evs ∧ ∀ e ∈ evs, Event.isCursorLevel e = true
  tabs : ∀ x, (w'.tabs x).shape = (w.tabs x).shape

/-- Events of cursor movement and insertion: what the copy loop may do. -/
def Event.isMove : Event → Bool
  | Event.first _ _ => true
  | Event.last _ _ => true
  | Event.insert _ _ _ => true
  | Event.next _ _ => true
  | _ => false

/-- From `w` to `w'` only movement and insertion events were logged; the
descriptors and the allocator are untouched. -/
structure MoveStep (w w' : World) : Prop where
  log : ∃ evs, w'.log = w.log ++ evs ∧ ∀ e ∈ evs, Event.isMove e = true
  tabs : w'.tabs = w.tabs
  brk : w'.brk = w.brk
  strs : w'.strs = w.strs

/-- The rows the read cursor of descriptor `tab` yields. -/
def srcRows (env : Engine) (w : World) (tab : Nat) : List CellInfo :=
  env.rows (w.tabs tab).src.db (w.tabs tab).src.rootpage

/-- The chain of descriptors starting at address `p` visits exactly the
addresses `L`, in order, and ends in `NULL`. -/
def IsList (tabs : Nat → MDTab) : Nat → List Nat → Prop
  | p, [] => p = 0
  | p, a :: rest => p = a ∧ a ≠ 0 ∧ IsList tabs (tabs a).next rest

instance IsList.decidable (tabs : Nat → MDTab) : ∀ (L : List Nat) (p : Nat),
    Decidable (IsList tabs p L)
  | [], p => inferInstanceAs (Decidable (p = 0))
  | a :: rest, p =>
    have := IsList.decidable tabs rest (tabs a).next
    inferInstanceAs (Decidable (p = a ∧ a ≠ 0 ∧ IsList tabs (tabs a).next rest))

/-- The return of `md_cprows` an event records: descriptor and result. -/
def retOf : Event → Option (Nat × Int)
  | Event.md_cprows t rc => some (t, rc)
  | _ => none

/-- The returns of `md_cprows` recorded in a list of events, in order. -/
def rets (evs : List Event) : List (Nat × Int) :=
  evs.filterMap retOf

/-- Events of the copy loop: the cursor layer and the returns of `md_cprows`. -/
def Event.isCopy (e : Event) : Bool :=
  e.isCursorLevel || (match e with
    | Event.md_cprows _ _ => true
    | _ => false)

/-- The outcome of the copy loop over the list `L`: either every descriptor was
copied with `SQLITE_OK`, or the descriptors before some `t` were, `md_cprows`
failed on `t` with the loop's result code, and nothing after `t` was tried. -/
def CopyRets (L : List Nat) (rc : Int) (rs : List (Nat × Int)) : Prop :=
  (rc = SQLITE_OK ∧ rs = L.map (fun a => (a, SQLITE_OK))) ∨
  (rc ≠ SQLITE_OK ∧ ∃ pre t post, L = pre ++ t :: post ∧
    rs = pre.map (fun a => (a, SQLITE_OK)) ++ [(t, rc)])

/-- A chain of `md_cprows` runs: `CopyChain env fuel w rs w'` says that running
`md_cprows` on the descriptors of `rs` one after the other, starting in `w`,
returns the result codes of `rs` and ends in `w'`. -/
def CopyChain (env : Engine) (fuel : Nat) : World → List (Nat × Int) → World → Prop
  | w, [], w' => w' = w
  | w, r :: rest, w' =>
    ∃ w1, md_cprows env fuel w r.1 = some (r.2, w1) ∧ CopyChain env fuel w1 rest w'

/-- The events of `md_endTrans` on contexts `S` (source) and `D` (destination):
`c0` is the result of the source commit, `c1` the result of the destination
commit (`commit = true`) or rollback (`commit = false`), `c2` the result of the
rollback that follows a failed commit. -/
def finishEvents (S D : Db) (c0 : Int) (commit : Bool) (c1 c2 : Int) : List Event :=
  [Event.mutex_leave S, Event.mutex_leave D, Event.commit S c0] ++
  (if commit then
    Event.commit D c1 :: (if c1 ≠ SQLITE_OK then [Event.rollback D c2] else [])
   else [Event.rollback D c1])

/-- Commit and rollback attempts on context `D`. -/
def Event.isFinal (D : Db) : Event → Bool
  | Event.commit d _ => decide (d = D)
  | Event.rollback d _ => decide (d = D)
  | _ => false

/-- The commit and rollback attempts on context `D` in a list of events, in
order. -/
def finals (D : Db) (evs : List Event) : List Event :=
  evs.filter (Event.isFinal D)

/-- The events of the copy loop over the rows `R` when every call succeeds. -/
def moveEvents (src dest : Nat) (isindex : Bool) : List CellInfo → List Event
  | [] => []
  | c :: R =>
    Event.last dest SQLITE_OK :: Event.insert dest (md_fillPayload c isindex) SQLITE_OK ::
      Event.next src SQLITE_OK :: moveEvents src dest isindex R

/-- The key info `md_openCursor` hands to the source cursor of descriptor `tab`
(`0` = `NULL`): looked up for an index, none for a table. -/
def srcKeyInfo (env : Engine) (w : World) (tab : Nat) : Nat :=
  if (w.tabs tab).reltype = "index"
    then md_getKeyInfo env (w.tabs tab).src.db (w.strs (w.tabs tab).relname) else 0

/-- The insertion an event records: cursor, payload, result. -/
def insertOf : Event → Option (Nat × BtreePayload × Int)
  | Event.insert p x rc => some (p, x, rc)
  | _ => none

/-- The insertions recorded in a list of events, in order. -/
def inserts (evs : List Event) : List (Nat × BtreePayload × Int) :=
  evs.filterMap insertOf

/-- The cursor an event opens (a call of `sqlite3BtreeCursor`). -/
def openedOf : Event → Option Nat
  | Event.cursor _ _ _ _ p _ => some p
  | _ => none

/-- The cursor an event closes (a call of `sqlite3BtreeCloseCursor`). -/
def closedOf : Event → Option Nat
  | Event.closeCursor p => some p
  | _ => none

/-- The cursors handed to `sqlite3BtreeCursor` in a list of events, in order. -/
def opened (evs : List Event) : List Nat := evs.filterMap openedOf

/-- The cursors handed to `sqlite3BtreeCloseCursor` in a list of events, in
order. -/
def closed (evs : List Event) : List Nat := evs.filterMap closedOf

/-- Events of the statement layer: what `md_createTable` and the catalog scan
may do. -/
def Event.isStmt : Event → Bool
  | Event.prepare _ _ => true
  | Event.step _ _ => true
  | Event.finalize _ => true
  | Event.execSql _ _ _ => true
  | Event.malloc _ => true
  | Event.free _ => true
  | _ => false

/-- Events of the definition phase: the statement layer and the returns of
`md_createTable`. -/
def Event.isDefLevel (e : Event) : Bool :=
  e.isStmt || (match e with
    | Event.md_createTable _ _ => true
    | _ => false)

/-- The return of `md_createTable` an event records: descriptor and result. -/
def cretOf : Event → Option (Nat × Int)
  | Event.md_createTable t rc => some (t, rc)
  | _ => none

/-- The returns of `md_createTable` recorded in a list of events, in order. -/
def crets (evs : List Event) : List (Nat × Int) :=
  evs.filterMap cretOf

/-- A descriptor with the destination root page cleared. -/
def MDTab.noRoot (t : MDTab) : MDTab :=
  { t with dest := { t.dest with rootpage := 0 } }

/-- What a descriptor says about its relation: kind, name, source context,
source root page, destination context. -/
def descOf (w : World) (a : Nat) : String × String × Db × Int × Db :=
  ((w.tabs a).reltype, w.strs (w.tabs a).relname, (w.tabs a).src.db,
   (w.tabs a).src.rootpage, (w.tabs a).dest.db)

/-- The descriptor a catalog row gives rise to. -/
def descOfRow (src dest : Db) (reltype : String) (r : CatRow) :
    String × String × Db × Int × Db :=
  (reltype, r.name, src, r.rootpage, dest)

/-- The list `L` starts at `head`, and its descriptors and their names were
handed out by the allocator. -/
structure ListInv (w : World) (head : Nat) (L : List Nat) : Prop where
  list : IsList w.tabs head L
  fresh : ∀ a ∈ L, a ≤ w.brk
  names : ∀ a ∈ L, (w.tabs a).relname ≤ w.brk

/-- The trace of a scan-and-replicate pass with result `rc`: definition-level
events only; and either every `md_createTable` returned `SQLITE_OK`, or the
pass stopped right after the first one that did not, whose result is `rc`. -/
def DefTrace (rc : Int) (tail : List Event) (evs : List Event) : Prop :=
  (∀ e ∈ evs, Event.isDefLevel e = true) ∧
  ((∀ r ∈ crets evs, r.2 = SQLITE_OK) ∨
   (rc ≠ SQLITE_OK ∧ ∃ pre t, evs = pre ++ Event.md_createTable t rc :: tail ∧
     ∀ r ∈ crets pre, r.2 = SQLITE_OK))

/-- Events of the cleanup at the end of `md_mergedbs` and of `md_cpdefs`. -/
def Event.isCleanup : Event → Bool
  | Event.finalize _ => true
  | Event.errstr => true
  | Event.close_v2 _ => true
  | Event.free _ => true
  | _ => false

/-- The `free` calls of `md_freeTabs` over the list `L`: for each descriptor its
name, then the descriptor. -/
def freeEvents (tabs : Nat → MDTab) : List Nat → List Event
  | [] => []
  | a :: L => Event.free (tabs a).relname :: Event.free a :: freeEvents tabs L

/-- Events of the transaction layer, and the entry of `md_cprels`. -/
def Event.isTrans : Event → Bool
  | Event.md_cprels _ => true
  | Event.mutex_enter _ => true
  | Event.mutex_leave _ => true
  | Event.beginTrans _ _ _ => true
  | Event.commit _ _ => true
  | Event.rollback _ _ => true
  | _ => false

/-- Events a call of `md_cprels` may log. -/
def Event.isCopyRun (e : Event) : Bool := e.isCopy || e.isTrans

/-- Events before the copy phase: opening the contexts and the definition
phase. -/
def Event.isSetup (e : Event) : Bool :=
  e.isDefLevel || (match e with
    | Event.open_v2 _ _ => true
    | _ => false)

/-- Events that only the copy phase produces: the entry of `md_cprels`, mutex
and transaction calls, cursor calls, and the returns of `md_cprows`. -/
def Event.isCopyPhase : Event → Bool
  | Event.md_cprels _ => true
  | Event.mutex_enter _ => true
  | Event.mutex_leave _ => true
  | Event.beginTrans _ _ _ => true
  | Event.commit _ _ => true
  | Event.rollback _ _ => true
  | Event.cursor _ _ _ _ _ _ => true
  | Event.closeCursor _ => true
  | Event.first _ _ => true
  | Event.last _ _ => true
  | Event.insert _ _ _ => true
  | Event.next _ _ => true
  | Event.md_cprows _ _ => true
  | _ => false

/-- The two kinds of run of `md_mergedbs` with result `rc` and events `evs`.
Either some `md_createTable` failed: then its result is `rc`, every earlier
`md_createTable` returned `SQLITE_OK`, only setup events precede it and only
cleanup events follow it.  Or every `md_createTable` returned `SQLITE_OK`:
then `rc` is `SQLITE_OK` only if `md_cprels` was never entered or the
destination commit succeeded. -/
def MergeOutcome (rc : Int) (evs : List Event) : Prop :=
  (rc ≠ SQLITE_OK ∧ ∃ pre t post, evs = pre ++ Event.md_createTable t rc :: post ∧
    (∀ r ∈ crets pre, r.2 = SQLITE_OK) ∧ (∀ x ∈ pre, Event.isSetup x = true) ∧
    (∀ x ∈ post, Event.isCleanup x = true)) ∨
  ((∀ r ∈ crets evs, r.2 = SQLITE_OK) ∧
    (rc = SQLITE_OK → (∀ t, Event.md_cprels t ∉ evs) ∨
      Event.commit Db.destdb SQLITE_OK ∈ evs))

/-! ### Concrete engines and worlds -/

/-- A world with nothing allocated, no transaction, no lock held. -/
def World.init : World :=
  ⟨0, [], 0, fun _ => default, fun _ => "", fun _ => default,
   fun _ => TransState.TRANS_NONE, fun _ => 0, fun _ _ => []⟩

/-- An engine whose every call succeeds and whose source is empty. -/
def Engine.quiet : Engine :=
  ⟨fun _ => SQLITE_OK, fun _ => SQLITE_ROW, fun _ => 0, fun _ => ([], SQLITE_DONE),
   fun _ _ => [], fun _ _ => 0⟩

/-- A world holding one descriptor, at address 1, for the table `t` with root
page 2 in the source and 3 in the destination. -/
def oneTabWorld : World :=
  { World.init with
    brk := 2
    tabs := upd World.init.tabs 1 ⟨"table", 2, ⟨Db.srcdb, 2, 0⟩, ⟨Db.destdb, 3, 0⟩, 0⟩
    strs := upd World.init.strs 2 "t" }

/-- An engine on which the destination commit of `md_cprels` over
`oneTabWorld` fails with code 5: that commit is the engine call number 6. -/
def commitFails : Engine :=
  { Engine.quiet with rc := fun k => if k = 6 then 5 else SQLITE_OK }

/-- An engine whose source relation with root page 2 holds two rows and whose
every call succeeds. -/
def copyEngine : Engine :=
  { Engine.quiet with
    rows := fun db root =>
      if db = Db.srcdb ∧ root = 2 then [⟨1, [7, 8], 2⟩, ⟨2, [9], 1⟩] else [] }

/-- A world holding two descriptors, at addresses 1 and 3, linked in that
order: the table `t` and the index `i`. -/
def twoTabWorld : World :=
  { World.init with
    brk := 4
    tabs := upd (upd World.init.tabs 1 ⟨"table", 2, ⟨Db.srcdb, 2, 0⟩, ⟨Db.destdb, 3, 0⟩, 3⟩)
      3 ⟨"index", 4, ⟨Db.srcdb, 5, 0⟩, ⟨Db.destdb, 6, 0⟩, 0⟩
    strs := upd (upd World.init.strs 2 "t") 4 "i" }

/-- An engine on which, in `md_cprels` over `twoTabWorld`, opening the source
cursor of the second descriptor fails with code 7: that is the engine call
number 5. -/
def secondCopyFails : Engine :=
  { Engine.quiet with rc := fun k => if k = 5 then 7 else SQLITE_OK }

/-- An engine whose source holds one table `t`, and on which the creation
statement in the destination fails with `SQLITE_ERROR` (the destination
already has a relation `t`): that is the engine call number 3. -/
def tableExists : Engine :=
  { Engine.quiet with
    scan := fun s => if s = "table" then ([⟨"t", 2, "create table t(a)"⟩], SQLITE_DONE)
                     else ([], SQLITE_DONE)
    rc := fun k => if k = 3 then SQLITE_ERROR else SQLITE_OK }

/-- An engine whose source holds the table `t` (two rows) and the index `i` (one
row), and whose every call succeeds. -/
def smallSource : Engine :=
  { Engine.quiet with
    scan := fun s =>
      if s = "table" then ([⟨"t", 2, "create table t(a)"⟩], SQLITE_DONE)
      else if s = "index" then ([⟨"i", 3, "create index i on t(a)"⟩], SQLITE_DONE)
      else ([], SQLITE_DONE)
    rows := fun db root =>
      if db = Db.srcdb ∧ root = 2 then [⟨1, [7, 8], 2⟩, ⟨2, [9], 1⟩]
      else if db = Db.srcdb ∧ root = 3 then [⟨2, [7, 8], 2⟩] else [] }

/-- A copy of `oneTabWorld` in which the destination already has a write
transaction. -/
def busyWorld : World :=
  { oneTabWorld with
    inTrans := fun d => if d = Db.destdb then TransState.TRANS_WRITE
                        else TransState.TRANS_NONE }

/-- An engine whose catalog scan fails on its first step with code 5
(`SQLITE_BUSY`). -/
def scanBreaks : Engine :=
  { Engine.quiet with scan := fun _ => ([], 5) }

/-- An engine whose catalog scan yields the table `t` and then fails with code
11 (`SQLITE_CORRUPT`). -/
def scanBreaksLate : Engine :=
  { Engine.quiet with scan := fun _ => ([⟨"t", 2, "create table t(a)"⟩], 11) }

/-- The key info `md_openCursor` hands to the destination cursor of descriptor
`tab` (`0` = `NULL`). -/
def destKeyInfo (env : Engine) (w : World) (tab : Nat) : Nat :=
  if (w.tabs tab).reltype = "index"
    then md_getKeyInfo env (w.tabs tab).dest.db (w.strs (w.tabs tab).relname) else 0

/-- The events of a call of `md_cprows` on descriptor `tab` in which every
engine call succeeds: open both cursors, go to the first source row, copy the
rows, close both cursors, return. -/
def copyEvents (env : Engine) (w : World) (tab : Nat) : List Event :=
  [Event.malloc (w.brk + 1),
   Event.cursor (w.tabs tab).src.db (w.tabs tab).src.rootpage 0 (srcKeyInfo env w tab)
     (w.brk + 1) SQLITE_OK,
   Event.malloc (w.brk + 2),
   Event.cursor (w.tabs tab).dest.db (w.tabs tab).dest.rootpage BTREE_WRCSR
     (destKeyInfo env w tab) (w.brk + 2) SQLITE_OK,
   Event.first (w.brk + 1) SQLITE_OK] ++
  moveEvents (w.brk + 1) (w.brk + 2) (decide (srcKeyInfo env w tab ≠ 0)) (srcRows env w tab) ++
  [Event.closeCursor (w.brk + 1), Event.free (w.brk + 1),
   Event.closeCursor (w.brk + 2), Event.free (w.brk + 2),
   Event.md_cprows tab SQLITE_OK]

/-! ## Theorems -/

@[simp] theorem upd_same {α β : Type} [DecidableEq α] (f : α → β) (a : α) (v : β) :
    upd f a v a = v := by simp [upd]

theorem upd_other {α β : Type} [DecidableEq α] (f : α → β) (a b : α) (v : β) (h : b ≠ a) :
    upd f a v b = f b := by simp [upd, h]

theorem md_beginTrans_busy (env : Engine) (w : World) (tab : Nat)
    (h : w.inTrans (w.tabs tab).src.db ≠ TransState.TRANS_NONE ∨
         w.inTrans (w.tabs tab).dest.db ≠ TransState.TRANS_NONE) :
    md_beginTrans env w tab = (SQLITE_ERROR, w) := by
  unfold md_beginTrans
  by_cases h1 : w.inTrans (w.tabs tab).src.db = TransState.TRANS_NONE
  · have h2 : w.inTrans (w.tabs tab).dest.db ≠ TransState.TRANS_NONE := by
      cases h with
      | inl h => exact absurd h1 h
      | inr h => exact h
    simp [h1, h2]
  · simp [h1]

theorem md_endTrans_log (env : Engine) (w : World) (tab : Nat) (commit : Int) :
    (md_endTrans env w tab commit).2.log = w.log ++ endTransEvents env w tab commit := by
  unfold md_endTrans endTransEvents
  by_cases hc : commit = 0
  · by_cases h1 : env.rc (w.tick + 1) = 0 <;>
    by_cases h0 : env.rc w.tick = 0 <;>
    simp [hc, h0, h1, sqlite3BtreeCommit, sqlite3BtreeRollback, sqlite3_mutex_leave, World.call]
  · by_cases h1 : env.rc (w.tick + 1) = 0 <;>
    by_cases h0 : env.rc w.tick = 0 <;>
    by_cases h2 : env.rc (w.tick + 2) = 0 <;>
    simp [hc, h0, h1, h2, sqlite3BtreeCommit, sqlite3BtreeRollback, sqlite3_mutex_leave, World.call]

theorem md_endTrans_rc (env : Engine) (w : World) (tab : Nat) (commit : Int) :
    (md_endTrans env w tab commit).1 = env.rc (w.tick + 1) := by
  unfold md_endTrans
  by_cases hc : commit = 0
  · by_cases h1 : env.rc (w.tick + 1) = 0 <;>
    by_cases h0 : env.rc w.tick = 0 <;>
    simp [hc, h0, h1, sqlite3BtreeCommit, sqlite3BtreeRollback, sqlite3_mutex_leave, World.call]
  · by_cases h1 : env.rc (w.tick + 1) = 0 <;>
    by_cases h0 : env.rc w.tick = 0 <;>
    simp [hc, h0, h1, sqlite3BtreeCommit, sqlite3BtreeRollback, sqlite3_mutex_leave, World.call]

theorem md_endTrans_tabs (env : Engine) (w : World) (tab : Nat) (commit : Int) :
    (md_endTrans env w tab commit).2.tabs = w.tabs := by
  unfold md_endTrans
  by_cases hc : commit = 0
  · simp [hc, sqlite3BtreeCommit, sqlite3BtreeRollback, sqlite3_mutex_leave, World.call]
  · by_cases h1 : env.rc (w.tick + 1) = 0 <;>
    simp [hc, h1, sqlite3BtreeCommit, sqlite3BtreeRollback, sqlite3_mutex_leave, World.call]

theorem md_beginTrans_ok (env : Engine) (w : World) (tab : Nat)
    (h : (md_beginTrans env w tab).1 = SQLITE_OK) :
    (md_beginTrans env w tab).2.log = w.log ++ beginTransEvents w tab ∧
    (md_beginTrans env w tab).2.tabs = w.tabs ∧
    (md_beginTrans env w tab).2.tick = w.tick + 2 := by
  unfold md_beginTrans at h ⊢
  by_cases h1 : w.inTrans (w.tabs tab).src.db = TransState.TRANS_NONE
  · by_cases h2 : w.inTrans (w.tabs tab).dest.db = TransState.TRANS_NONE
    · by_cases h3 : env.rc w.tick = 0
      · by_cases h4 : env.rc (w.tick + 1) = 0
        · simp [h1, h2, h3, h4, beginTransEvents, sqlite3BtreeBeginTrans, sqlite3_mutex_enter, World.call]
        · simp [h1, h2, h3, h4, sqlite3BtreeBeginTrans, sqlite3_mutex_enter, World.call] at h
      · simp [h1, h2, h3, sqlite3BtreeBeginTrans, sqlite3_mutex_enter, World.call] at h
    · simp [h1, h2] at h
  · simp [h1] at h

theorem md_beginTrans_emit (env : Engine) (w : World) (tab : Nat) (e : Event) :
    (md_beginTrans env (w.emit e) tab).1 = (md_beginTrans env w tab).1 := by
  unfold md_beginTrans
  by_cases h1 : w.inTrans (w.tabs tab).src.db = TransState.TRANS_NONE <;>
  by_cases h2 : w.inTrans (w.tabs tab).dest.db = TransState.TRANS_NONE <;>
  by_cases h3 : env.rc w.tick = 0 <;>
  by_cases h4 : env.rc (w.tick + 1) = 0 <;>
  simp [h1, h2, h3, h4, World.emit, sqlite3BtreeBeginTrans, sqlite3_mutex_enter, World.call]

@[simp] theorem shape_setCursor (t : MDTab) (side : Side) (p : Nat) :
    (t.setCursor side p).shape = t.shape := by
  cases side <;> rfl

theorem CursorStep.same (w : World) : CursorStep w w :=
  ⟨⟨[], by simp, by simp⟩, fun _ => rfl⟩

theorem CursorStep.andThen {a b c : World} (h1 : CursorStep a b) (h2 : CursorStep b c) :
    CursorStep a c := by
  obtain ⟨⟨e1, hl1, hp1⟩, ht1⟩ := h1
  obtain ⟨⟨e2, hl2, hp2⟩, ht2⟩ := h2
  refine ⟨⟨e1 ++ e2, by rw [hl2, hl1, List.append_assoc], ?_⟩, fun x => (ht2 x).trans (ht1 x)⟩
  intro e he
  rcases List.mem_append.mp he with h | h
  · exact hp1 e h
  · exact hp2 e h

theorem shape_upd_setCursor (tabs : Nat → MDTab) (tab : Nat) (side : Side) (p x : Nat) :
    (upd tabs tab ((tabs tab).setCursor side p) x).shape = (tabs x).shape := by
  by_cases h : x = tab
  · subst h; simp
  · simp [upd_other _ _ _ _ h]

theorem md_closeCursor_step (w : World) (tab : Nat) (side : Side) :
    CursorStep w (md_closeCursor w tab side) := by
  unfold md_closeCursor
  by_cases h : ((w.tabs tab).handle side).cursor = 0
  · simp [h, CursorStep.same]
  · refine ⟨⟨[Event.closeCursor ((w.tabs tab).handle side).cursor,
              Event.free ((w.tabs tab).handle side).cursor], ?_, ?_⟩, ?_⟩
    · simp [h, sqlite3_free, sqlite3BtreeCloseCursor, World.emit]
    · simp [Event.isCursorLevel]
    · intro x
      simp [h, sqlite3_free, sqlite3BtreeCloseCursor, World.emit, shape_upd_setCursor]

theorem md_closeCursors_step (w : World) (tab : Nat) :
    CursorStep w (md_closeCursors w tab) :=
  (md_closeCursor_step w tab Side.srcHandle).andThen (md_closeCursor_step _ tab Side.destHandle)

theorem CursorStep.of_log {w w' : World} (evs : List Event) (hl : w'.log = w.log ++ evs)
    (hp : ∀ e ∈ evs, Event.isCursorLevel e = true) (ht : w'.tabs = w.tabs) : CursorStep w w' :=
  ⟨⟨evs, hl, hp⟩, fun x => by rw [ht]⟩

theorem sqlite3_malloc_step (w : World) : CursorStep w (sqlite3_malloc w).2 :=
  CursorStep.of_log [Event.malloc (w.brk + 1)] rfl (by simp [Event.isCursorLevel]) rfl

theorem sqlite3BtreeCursor_step (env : Engine) (w : World) (db : Db) (root wrFlag : Int)
    (keyInfo p : Nat) : CursorStep w (sqlite3BtreeCursor env w db root wrFlag keyInfo p).2 :=
  CursorStep.of_log [Event.cursor db root wrFlag keyInfo p (env.rc w.tick)] rfl
    (by simp [Event.isCursorLevel]) rfl

theorem setCursor_step (w : World) (tab : Nat) (side : Side) (p : Nat) :
    CursorStep w { w with tabs := upd w.tabs tab ((w.tabs tab).setCursor side p) } :=
  ⟨⟨[], by simp, by simp⟩, fun x => shape_upd_setCursor w.tabs tab side p x⟩

theorem sqlite3BtreeCursorZero_step (w : World) (p : Nat) :
    CursorStep w (sqlite3BtreeCursorZero w p) :=
  CursorStep.of_log [] (by simp [sqlite3BtreeCursorZero]) (by simp) rfl

theorem md_openCursor_step (env : Engine) (w : World) (reltype : String) (relname : Nat)
    (flag : Int) (tab : Nat) (side : Side) :
    CursorStep w (md_openCursor env w reltype relname flag tab side).2 :=
  (((sqlite3_malloc_step w).andThen (setCursor_step _ tab side _)).andThen
    (sqlite3BtreeCursorZero_step _ _)).andThen (sqlite3BtreeCursor_step env _ _ _ _ _ _)

theorem md_openCursors_step (env : Engine) (w : World) (tab : Nat) :
    CursorStep w (md_openCursors env w tab).2 := by
  unfold md_openCursors
  have h1 := md_openCursor_step env w (w.tabs tab).reltype (w.tabs tab).relname 0 tab Side.srcHandle
  have h2 := md_openCursor_step env
    (md_openCursor env w (w.tabs tab).reltype (w.tabs tab).relname 0 tab Side.srcHandle).2
    (w.tabs tab).reltype (w.tabs tab).relname BTREE_WRCSR tab Side.destHandle
  by_cases c1 : (md_openCursor env w (w.tabs tab).reltype (w.tabs tab).relname 0 tab Side.srcHandle).1 = 0
  · by_cases c2 : (md_openCursor env
        (md_openCursor env w (w.tabs tab).reltype (w.tabs tab).relname 0 tab Side.srcHandle).2
        (w.tabs tab).reltype (w.tabs tab).relname BTREE_WRCSR tab Side.destHandle).1 = 0
    · simp [c1, c2]; exact h1.andThen h2
    · simp [c1, c2]; exact (h1.andThen h2).andThen (md_closeCursors_step _ _)
  · simp [c1]; exact h1.andThen (md_closeCursors_step _ _)

theorem Event.isMove_cursorLevel (e : Event) (h : e.isMove = true) : e.isCursorLevel = true := by
  cases e <;> simp_all [Event.isMove, Event.isCursorLevel]

theorem MoveStep.still (w : World) : MoveStep w w :=
  ⟨⟨[], by simp, by simp⟩, rfl, rfl, rfl⟩

theorem MoveStep.followedBy {a b c : World} (h1 : MoveStep a b) (h2 : MoveStep b c) :
    MoveStep a c := by
  obtain ⟨⟨e1, hl1, hp1⟩, ht1, hb1, hs1⟩ := h1
  obtain ⟨⟨e2, hl2, hp2⟩, ht2, hb2, hs2⟩ := h2
  refine ⟨⟨e1 ++ e2, by rw [hl2, hl1, List.append_assoc], ?_⟩, ht2.trans ht1, hb2.trans hb1,
    hs2.trans hs1⟩
  intro e he
  rcases List.mem_append.mp he with h | h
  · exact hp1 e h
  · exact hp2 e h

theorem MoveStep.cursorStep {w w' : World} (h : MoveStep w w') : CursorStep w w' := by
  obtain ⟨⟨evs, hl, hp⟩, ht, _, _⟩ := h
  exact ⟨⟨evs, hl, fun e he => Event.isMove_cursorLevel e (hp e he)⟩, fun x => by rw [ht]⟩

theorem sqlite3BtreeFirst_move (env : Engine) (w : World) (p : Nat) :
    MoveStep w (sqlite3BtreeFirst env w p).2 :=
  ⟨⟨[Event.first p (env.rc w.tick)], rfl, by simp [Event.isMove]⟩, rfl, rfl, rfl⟩

theorem sqlite3BtreeLast_move (env : Engine) (w : World) (p : Nat) :
    MoveStep w (sqlite3BtreeLast env w p).2 :=
  ⟨⟨[Event.last p (env.rc w.tick)], rfl, by simp [Event.isMove]⟩, rfl, rfl, rfl⟩

theorem sqlite3BtreeInsert_move (env : Engine) (w : World) (p : Nat) (x : BtreePayload) :
    MoveStep w (sqlite3BtreeInsert env w p x).2 :=
  ⟨⟨[Event.insert p x (env.rc w.tick)], rfl, by simp [Event.isMove]⟩, rfl, rfl, rfl⟩

theorem sqlite3BtreeNext_move (env : Engine) (w : World) (p : Nat) :
    MoveStep w (sqlite3BtreeNext env w p).2 :=
  ⟨⟨[Event.next p (env.rc w.tick)], rfl, by simp [Event.isMove]⟩, rfl, rfl, rfl⟩

theorem getCellInfo_move (w : World) (p : Nat) : MoveStep w (getCellInfo w p) :=
  ⟨⟨[], by simp [getCellInfo], by simp⟩, rfl, rfl, rfl⟩

theorem cprowsIter_move (env : Engine) (w : World) (src dest : Nat) :
    MoveStep w (cprowsIter env w src dest).2 := by
  unfold cprowsIter
  have h1 := sqlite3BtreeLast_move env w dest
  by_cases c1 : (sqlite3BtreeLast env w dest).1 = 0
  · simp only [c1, ne_eq, not_true_eq_false, if_false]
    have h2 := h1.followedBy (getCellInfo_move _ src)
    split
    · exact h2.followedBy (sqlite3BtreeInsert_move env _ _ _)
    · exact (h2.followedBy (sqlite3BtreeInsert_move env _ _ _)).followedBy (sqlite3BtreeNext_move env _ _)
  · simp only [c1, ne_eq, not_false_eq_true, if_true]
    exact h1

theorem cprowsIter_rest (env : Engine) (w : World) (src dest : Nat)
    (h : (cprowsIter env w src dest).1 = SQLITE_OK) :
    ((cprowsIter env w src dest).2.curs src).rest = (w.curs src).rest.tail := by
  unfold cprowsIter at h ⊢
  by_cases c1 : (sqlite3BtreeLast env w dest).1 = 0
  · simp only [c1, ne_eq, not_true_eq_false, if_false] at h ⊢
    split at h
    · rename_i c3; exact absurd h c3
    · rename_i c3
      simp only [c3, if_false]
      simp [sqlite3BtreeNext, sqlite3BtreeInsert, sqlite3BtreeLast, getCellInfo, World.call] at h ⊢
      simp [h]
  · simp [c1] at h

/-- The copy loop returns when the fuel exceeds the number of rows left. -/
theorem cprowsLoop_move (env : Engine) (src dest : Nat) :
    ∀ (fuel : Nat) (w : World) (rc : Int), (w.curs src).rest.length < fuel →
      ∃ rc' w', cprowsLoop env fuel w src dest rc = some (rc', w') ∧ MoveStep w w' := by
  intro fuel
  induction fuel with
  | zero => intro w rc h; exact absurd h (Nat.not_lt_zero _)
  | succ n ih =>
    intro w rc hlen
    rw [cprowsLoop]
    by_cases heof : sqlite3BtreeEof w src = true
    · exact ⟨rc, w, by simp [heof], MoveStep.still w⟩
    · simp only [heof, if_false]
      by_cases c : (cprowsIter env w src dest).1 = 0
      · simp only [c, ne_eq, not_true_eq_false, if_false]
        have hrest := cprowsIter_rest env w src dest c
        have hne : (w.curs src).rest ≠ [] := by
          intro h0; apply heof; simp [sqlite3BtreeEof, h0]
        have hlen2 : ((cprowsIter env w src dest).2.curs src).rest.length < n := by
          rw [hrest, List.length_tail]
          have := List.length_pos.mpr hne
          omega
        obtain ⟨rc', w', hr, hs⟩ := ih (cprowsIter env w src dest).2 0 hlen2
        exact ⟨rc', w', hr, (cprowsIter_move env w src dest).followedBy hs⟩
      · simp only [c, ne_eq, not_false_eq_true, if_true]
        exact ⟨_, _, rfl, cprowsIter_move env w src dest⟩

/-- What a successful `md_openCursors` leaves behind. -/
theorem md_openCursors_ok (env : Engine) (w : World) (tab : Nat)
    (h : (md_openCursors env w tab).1 = SQLITE_OK) :
    env.rc w.tick = SQLITE_OK ∧ env.rc (w.tick + 1) = SQLITE_OK ∧
    ((md_openCursors env w tab).2.tabs tab).src.cursor = w.brk + 1 ∧
    ((md_openCursors env w tab).2.tabs tab).dest.cursor = w.brk + 2 ∧
    (md_openCursors env w tab).2.curs (w.brk + 1) =
      ⟨(w.tabs tab).src.db, (w.tabs tab).src.rootpage, 0,
       if (w.tabs tab).reltype = "index"
         then md_getKeyInfo env (w.tabs tab).src.db (w.strs (w.tabs tab).relname) else 0,
       [], default⟩ ∧
    (md_openCursors env w tab).2.curs (w.brk + 2) =
      ⟨(w.tabs tab).dest.db, (w.tabs tab).dest.rootpage, BTREE_WRCSR,
       if (w.tabs tab).reltype = "index"
         then md_getKeyInfo env (w.tabs tab).dest.db (w.strs (w.tabs tab).relname) else 0,
       [], default⟩ ∧
    (md_openCursors env w tab).2.tick = w.tick + 2 ∧
    (md_openCursors env w tab).2.content = w.content ∧
    (md_openCursors env w tab).2.brk = w.brk + 2 ∧
    (md_openCursors env w tab).2.log = w.log ++
      [Event.malloc (w.brk + 1),
       Event.cursor (w.tabs tab).src.db (w.tabs tab).src.rootpage 0
         (if (w.tabs tab).reltype = "index"
           then md_getKeyInfo env (w.tabs tab).src.db (w.strs (w.tabs tab).relname) else 0)
         (w.brk + 1) SQLITE_OK,
       Event.malloc (w.brk + 2),
       Event.cursor (w.tabs tab).dest.db (w.tabs tab).dest.rootpage BTREE_WRCSR
         (if (w.tabs tab).reltype = "index"
           then md_getKeyInfo env (w.tabs tab).dest.db (w.strs (w.tabs tab).relname) else 0)
         (w.brk + 2) SQLITE_OK] := by
  by_cases c0 : env.rc w.tick = 0
  · by_cases c1 : env.rc (w.tick + 1) = 0
    · simp [md_openCursors, md_openCursor, sqlite3BtreeCursor, sqlite3BtreeCursorZero,
        sqlite3_malloc, World.call, MDTab.handle, MDTab.setCursor, c0, c1, upd]
    · simp [md_openCursors, md_openCursor, sqlite3BtreeCursor, sqlite3BtreeCursorZero,
        sqlite3_malloc, World.call, MDTab.handle, MDTab.setCursor, c0, c1] at h
  · simp [md_openCursors, md_openCursor, sqlite3BtreeCursor, sqlite3BtreeCursorZero,
      sqlite3_malloc, World.call, MDTab.handle, MDTab.setCursor, c0] at h

theorem sqlite3BtreeFirst_rest (env : Engine) (w : World) (p : Nat)
    (h : (sqlite3BtreeFirst env w p).1 = SQLITE_OK) :
    ((sqlite3BtreeFirst env w p).2.curs p).rest = env.rows (w.curs p).db (w.curs p).root := by
  simp [sqlite3BtreeFirst, World.call] at h ⊢
  simp [h]

/-- The function `md_cprows` returns when the fuel exceeds the number of source
rows; up to its return it only acts on the cursor layer. -/
theorem md_cprows_run (env : Engine) (fuel : Nat) (w : World) (tab : Nat)
    (hfuel : (srcRows env w tab).length < fuel) :
    ∃ rc mid, md_cprows env fuel w tab = some (rc, mid.emit (Event.md_cprows tab rc)) ∧
      CursorStep w mid := by
  unfold md_cprows cprowsBody
  have hopen := md_openCursors_step env w tab
  by_cases c0 : (md_openCursors env w tab).1 = 0
  · obtain ⟨_, _, hsrc, _, hcur, _⟩ := md_openCursors_ok env w tab c0
    have hfirst := (sqlite3BtreeFirst_move env (md_openCursors env w tab).2
      ((md_openCursors env w tab).2.tabs tab).src.cursor).cursorStep
    by_cases c1 : (sqlite3BtreeFirst env (md_openCursors env w tab).2
        ((md_openCursors env w tab).2.tabs tab).src.cursor).1 = 0
    · have hrest := sqlite3BtreeFirst_rest env _ _ c1
      rw [hsrc, hcur] at hrest
      have hlen : (((sqlite3BtreeFirst env (md_openCursors env w tab).2
          ((md_openCursors env w tab).2.tabs tab).src.cursor).2.curs
            ((md_openCursors env w tab).2.tabs tab).src.cursor).rest).length < fuel := by
        rw [hsrc, hrest]; exact hfuel
      obtain ⟨rc', w', hl, hm⟩ := cprowsLoop_move env _
        ((md_openCursors env w tab).2.tabs tab).dest.cursor fuel _ 0 hlen
      simp only [c0, c1, ne_eq, not_true_eq_false, if_false, hl]
      exact ⟨rc', md_closeCursors w' tab, rfl,
        ((hopen.andThen hfirst).andThen hm.cursorStep).andThen (md_closeCursors_step _ _)⟩
    · simp only [c0, c1, ne_eq, not_true_eq_false, not_false_eq_true, if_false, if_true]
      exact ⟨_, _, rfl, (hopen.andThen hfirst).andThen (md_closeCursors_step _ _)⟩
  · simp only [c0, ne_eq, not_false_eq_true, if_true]
    exact ⟨_, _, rfl, hopen.andThen (md_closeCursors_step _ _)⟩

theorem shape_next {t t' : MDTab} (h : t'.shape = t.shape) : t'.next = t.next := by
  show t'.shape.next = t.shape.next
  rw [h]

theorem shape_src {t t' : MDTab} (h : t'.shape = t.shape) :
    t'.src.db = t.src.db ∧ t'.src.rootpage = t.src.rootpage := by
  constructor
  · show t'.shape.src.db = t.shape.src.db
    rw [h]
  · show t'.shape.src.rootpage = t.shape.src.rootpage
    rw [h]

theorem shape_dest {t t' : MDTab} (h : t'.shape = t.shape) :
    t'.dest.db = t.dest.db ∧ t'.dest.rootpage = t.dest.rootpage := by
  constructor
  · show t'.shape.dest.db = t.shape.dest.db
    rw [h]
  · show t'.shape.dest.rootpage = t.shape.dest.rootpage
    rw [h]

theorem IsList.congr {tabs tabs' : Nat → MDTab} (h : ∀ x, (tabs' x).next = (tabs x).next) :
    ∀ (L : List Nat) (p : Nat), IsList tabs p L → IsList tabs' p L := by
  intro L
  induction L with
  | nil => intro p hp; exact hp
  | cons a rest ih =>
    intro p hp
    obtain ⟨h1, h2, h3⟩ := hp
    exact ⟨h1, h2, by rw [h a]; exact ih _ h3⟩

theorem rets_append (a b : List Event) : rets (a ++ b) = rets a ++ rets b := by
  simp [rets, List.filterMap_append]

theorem rets_cursorLevel (evs : List Event) (h : ∀ e ∈ evs, Event.isCursorLevel e = true) :
    rets evs = [] := by
  unfold rets
  rw [List.filterMap_eq_nil_iff]
  intro e he
  have := h e he
  cases e <;> first | rfl | (simp [Event.isCursorLevel] at this)

theorem endTransEvents_eq (env : Engine) (w : World) (tab : Nat) (commit : Int) :
    endTransEvents env w tab commit =
      finishEvents (w.tabs tab).src.db (w.tabs tab).dest.db (env.rc w.tick)
        (decide (commit ≠ 0)) (env.rc (w.tick + 1)) (env.rc (w.tick + 2)) := by
  unfold endTransEvents finishEvents
  by_cases h : commit = 0 <;> simp [h]

theorem finals_copy (D : Db) (evs : List Event) (h : ∀ e ∈ evs, Event.isCopy e = true) :
    finals D evs = [] := by
  unfold finals
  rw [List.filter_eq_nil_iff]
  intro e he
  have := h e he
  cases e <;> first | (simp [Event.isCopy, Event.isCursorLevel] at this; done) | (simp [Event.isFinal])

theorem finals_run (S D : Db) (hSD : S ≠ D) (w : World) (tablist : Nat) (evs : List Event)
    (h : ∀ e ∈ evs, Event.isCopy e = true) (c0 c1 c2 : Int) (b : Bool) :
    finals D ((Event.md_cprels tablist :: beginTransEvents w tablist) ++ evs ++
        finishEvents S D c0 b c1 c2) =
      if b then Event.commit D c1 :: (if c1 ≠ SQLITE_OK then [Event.rollback D c2] else [])
      else [Event.rollback D c1] := by
  have h1 : finals D (Event.md_cprels tablist :: beginTransEvents w tablist) = [] := by
    simp [finals, beginTransEvents, Event.isFinal]
  have h2 := finals_copy D evs h
  have h3 : finals D (finishEvents S D c0 b c1 c2) =
      if b then Event.commit D c1 :: (if c1 ≠ SQLITE_OK then [Event.rollback D c2] else [])
      else [Event.rollback D c1] := by
    cases b <;> by_cases hc : c1 = 0 <;>
      simp [finals, finishEvents, Event.isFinal, hSD, hc, List.filter_cons]
  unfold finals at h1 h2 h3 ⊢
  rw [List.filter_append, List.filter_append, h1, h2, h3]
  simp

theorem mem_finals (D : Db) (evs : List Event) (e : Event) :
    e ∈ finals D evs ↔ e ∈ evs ∧ Event.isFinal D e = true := by
  simp [finals]

theorem cprowsIter_ok (env : Engine) (w : World) (src dest : Nat) (hsd : src ≠ dest)
    (c : CellInfo) (R : List CellInfo) (hrest : (w.curs src).rest = c :: R)
    (h0 : env.rc w.tick = SQLITE_OK) (h1 : env.rc (w.tick + 1) = SQLITE_OK)
    (h2 : env.rc (w.tick + 2) = SQLITE_OK) :
    (cprowsIter env w src dest).1 = SQLITE_OK ∧
    (cprowsIter env w src dest).2.log = w.log ++
      [Event.last dest SQLITE_OK,
       Event.insert dest (md_fillPayload c (decide ((w.curs src).pKeyInfo ≠ 0))) SQLITE_OK,
       Event.next src SQLITE_OK] ∧
    (cprowsIter env w src dest).2.tick = w.tick + 3 ∧
    ((cprowsIter env w src dest).2.curs src).rest = R ∧
    ((cprowsIter env w src dest).2.curs src).pKeyInfo = (w.curs src).pKeyInfo ∧
    (cprowsIter env w src dest).2.curs dest = w.curs dest ∧
    (cprowsIter env w src dest).2.content (w.curs dest).db (w.curs dest).root =
      w.content (w.curs dest).db (w.curs dest).root ++
        [md_fillPayload c (decide ((w.curs src).pKeyInfo ≠ 0))] := by
  have hds : dest ≠ src := fun h => hsd h.symm
  simp [cprowsIter, sqlite3BtreeNext, sqlite3BtreeInsert, sqlite3BtreeLast, getCellInfo,
    World.call, h0, h1, h2, hrest, upd, hds]

theorem cprowsLoop_ok (env : Engine) (src dest : Nat) (hsd : src ≠ dest) :
    ∀ (R : List CellInfo) (fuel : Nat) (w : World), (w.curs src).rest = R → R.length < fuel →
      (∀ k, w.tick ≤ k → k < w.tick + 3 * R.length → env.rc k = SQLITE_OK) →
      ∃ w', cprowsLoop env fuel w src dest SQLITE_OK = some (SQLITE_OK, w') ∧
        w'.log = w.log ++ moveEvents src dest (decide ((w.curs src).pKeyInfo ≠ 0)) R ∧
        w'.content (w.curs dest).db (w.curs dest).root =
          w.content (w.curs dest).db (w.curs dest).root ++
            R.map (fun c => md_fillPayload c (decide ((w.curs src).pKeyInfo ≠ 0))) ∧
        w'.tabs = w.tabs := by
  intro R
  induction R with
  | nil =>
    intro fuel w hrest hlen _
    cases fuel with
    | zero => exact absurd hlen (Nat.not_lt_zero _)
    | succ n =>
      exact ⟨w, by simp [cprowsLoop, sqlite3BtreeEof, hrest], by simp [moveEvents], by simp, rfl⟩
  | cons c R ih =>
    intro fuel w hrest hlen hok
    cases fuel with
    | zero => exact absurd hlen (Nat.not_lt_zero _)
    | succ n =>
      have h0 : env.rc w.tick = SQLITE_OK := hok _ (le_refl _) (by simp)
      have h1 : env.rc (w.tick + 1) = SQLITE_OK := hok _ (by omega) (by simp; omega)
      have h2 : env.rc (w.tick + 2) = SQLITE_OK := hok _ (by omega) (by simp; omega)
      obtain ⟨i1, ilog, itick, irest, iki, idest, icont⟩ :=
        cprowsIter_ok env w src dest hsd c R hrest h0 h1 h2
      have hm := cprowsIter_move env w src dest
      obtain ⟨w', hl, hlog, hcont, htabs⟩ := ih n (cprowsIter env w src dest).2 irest
        (by simpa using hlen)
        (by intro k hk1 hk2; rw [itick] at hk1 hk2
            exact hok k (by omega) (by simp [Nat.mul_add] at hk2 ⊢; omega))
      refine ⟨w', ?_, ?_, ?_, ?_⟩
      · rw [cprowsLoop]
        simp [sqlite3BtreeEof, hrest, i1, hl]
      · rw [hlog, ilog, iki]; simp [moveEvents]
      · rw [idest] at hcont
        rw [hcont, icont, iki]; simp
      · rw [htabs, hm.tabs]

theorem inserts_moveEvents (src dest : Nat) (isindex : Bool) (R : List CellInfo) :
    inserts (moveEvents src dest isindex R) =
      R.map (fun c => (dest, md_fillPayload c isindex, SQLITE_OK)) := by
  induction R with
  | nil => rfl
  | cons c R ih =>
    simp only [inserts] at ih
    simp [inserts, moveEvents, insertOf, List.filterMap_cons, ih]

theorem md_openCursors_rc (env : Engine) (w : World) (tab : Nat)
    (h0 : env.rc w.tick = SQLITE_OK) (h1 : env.rc (w.tick + 1) = SQLITE_OK) :
    (md_openCursors env w tab).1 = SQLITE_OK := by
  simp [md_openCursors, md_openCursor, sqlite3BtreeCursor, sqlite3BtreeCursorZero,
    sqlite3_malloc, World.call, h0, h1]

theorem sqlite3BtreeFirst_ok (env : Engine) (w : World) (p q : Nat) (hq : q ≠ p)
    (h0 : env.rc w.tick = SQLITE_OK) :
    (sqlite3BtreeFirst env w p).1 = SQLITE_OK ∧
    (sqlite3BtreeFirst env w p).2.log = w.log ++ [Event.first p SQLITE_OK] ∧
    (sqlite3BtreeFirst env w p).2.tick = w.tick + 1 ∧
    ((sqlite3BtreeFirst env w p).2.curs p).rest = env.rows (w.curs p).db (w.curs p).root ∧
    ((sqlite3BtreeFirst env w p).2.curs p).pKeyInfo = (w.curs p).pKeyInfo ∧
    (sqlite3BtreeFirst env w p).2.curs q = w.curs q ∧
    (sqlite3BtreeFirst env w p).2.content = w.content ∧
    (sqlite3BtreeFirst env w p).2.tabs = w.tabs := by
  simp [sqlite3BtreeFirst, World.call, h0, upd, hq]

theorem md_closeCursors_content (w : World) (tab : Nat) :
    (md_closeCursors w tab).content = w.content := by
  unfold md_closeCursors md_closeCursor
  by_cases h1 : ((w.tabs tab).handle Side.srcHandle).cursor = 0
  · simp only [h1, ne_eq, not_true_eq_false, if_false]
    split <;> rfl
  · simp only [h1, ne_eq, not_false_eq_true, if_true]
    split <;> rfl

theorem md_closeCursors_log (w : World) (tab p q : Nat)
    (hs : (w.tabs tab).src.cursor = p) (hd : (w.tabs tab).dest.cursor = q)
    (hp : p ≠ 0) (hq : q ≠ 0) :
    (md_closeCursors w tab).log = w.log ++
      [Event.closeCursor p, Event.free p, Event.closeCursor q, Event.free q] := by
  simp [md_closeCursors, md_closeCursor, MDTab.handle, MDTab.setCursor, hs, hd, hp, hq,
    sqlite3_free, sqlite3BtreeCloseCursor, World.emit]

theorem opened_move (evs : List Event) (h : ∀ e ∈ evs, Event.isMove e = true) :
    opened evs = [] := by
  unfold opened
  rw [List.filterMap_eq_nil_iff]
  intro e he
  have := h e he
  cases e <;> first | rfl | (simp [Event.isMove] at this)

theorem closed_move (evs : List Event) (h : ∀ e ∈ evs, Event.isMove e = true) :
    closed evs = [] := by
  unfold closed
  rw [List.filterMap_eq_nil_iff]
  intro e he
  have := h e he
  cases e <;> first | rfl | (simp [Event.isMove] at this)

theorem md_closeCursors_null (w : World) (tab : Nat) :
    ((md_closeCursors w tab).tabs tab).src.cursor = 0 ∧
    ((md_closeCursors w tab).tabs tab).dest.cursor = 0 := by
  by_cases h1 : (w.tabs tab).src.cursor = 0 <;> by_cases h2 : (w.tabs tab).dest.cursor = 0 <;>
    simp [md_closeCursors, md_closeCursor, MDTab.handle, MDTab.setCursor, h1, h2,
      sqlite3_free, sqlite3BtreeCloseCursor, World.emit]

theorem md_closeCursors_of_null (w : World) (tab : Nat)
    (h1 : (w.tabs tab).src.cursor = 0) (h2 : (w.tabs tab).dest.cursor = 0) :
    md_closeCursors w tab = w := by
  simp [md_closeCursors, md_closeCursor, MDTab.handle, h1, h2]

theorem IsList.unique {tabs : Nat → MDTab} :
    ∀ (L1 L2 : List Nat) (p : Nat), IsList tabs p L1 → IsList tabs p L2 → L1 = L2 := by
  intro L1
  induction L1 with
  | nil =>
    intro L2 p h1 h2
    cases L2 with
    | nil => rfl
    | cons b L2 =>
      have hp : p = 0 := h1
      obtain ⟨hb, hb0, _⟩ := h2
      exact absurd (hb ▸ hp) hb0
  | cons a L1 ih =>
    intro L2 p h1 h2
    obtain ⟨ha, ha0, h1'⟩ := h1
    cases L2 with
    | nil =>
      have hp : p = 0 := h2
      exact absurd (ha ▸ hp) ha0
    | cons b L2 =>
      obtain ⟨hb, _, h2'⟩ := h2
      have hab : a = b := ha.symm.trans hb
      subst hab
      rw [ih L2 _ h1' h2']

theorem IsList.suffix {tabs : Nat → MDTab} :
    ∀ (pre : List Nat) (a : Nat) (post : List Nat) (p : Nat),
      IsList tabs p (pre ++ a :: post) → IsList tabs a (a :: post) := by
  intro pre
  induction pre with
  | nil =>
    intro a post p h
    obtain ⟨_, h0, h'⟩ := h
    exact ⟨rfl, h0, h'⟩
  | cons b pre ih =>
    intro a post p h
    obtain ⟨_, _, h'⟩ := h
    exact ih a post _ h'

theorem IsList.nodup {tabs : Nat → MDTab} :
    ∀ (L : List Nat) (p : Nat), IsList tabs p L → L.Nodup := by
  intro L
  induction L with
  | nil => intro p _; exact List.nodup_nil
  | cons a rest ih =>
    intro p h
    obtain ⟨hp, h0, h'⟩ := h
    refine List.nodup_cons.mpr ⟨?_, ih _ h'⟩
    intro hmem
    obtain ⟨pre, post, hsplit⟩ := List.append_of_mem hmem
    have hs : IsList tabs a (a :: post) := IsList.suffix pre a post _ (hsplit ▸ h')
    have hfull : IsList tabs a (a :: rest) := ⟨rfl, h0, h'⟩
    have heq := IsList.unique _ _ _ hs hfull
    have hlen := congrArg List.length heq
    rw [hsplit] at hlen
    simp at hlen
    omega

theorem insertWalk_last (tabs : Nat → MDTab) :
    ∀ (L : List Nat) (a p fuel : Nat), IsList tabs p (a :: L) → L.length < fuel →
      insertWalk tabs fuel p = some ((a :: L).getLast (List.cons_ne_nil _ _)) := by
  intro L
  induction L with
  | nil =>
    intro a p fuel h hlen
    obtain ⟨hp, _, hn⟩ := h
    have hn0 : (tabs a).next = 0 := hn
    cases fuel with
    | zero => exact absurd hlen (Nat.not_lt_zero _)
    | succ n => subst hp; simp [insertWalk, hn0]
  | cons b L ih =>
    intro a p fuel h hlen
    obtain ⟨hp, _, hn⟩ := h
    have hb : (tabs a).next = b := hn.1
    have hb0 : b ≠ 0 := hn.2.1
    cases fuel with
    | zero => exact absurd hlen (Nat.not_lt_zero _)
    | succ n =>
      subst hp
      rw [insertWalk]
      simp only [hb, ne_eq, hb0, not_false_eq_true, if_true]
      rw [ih b b n (hb ▸ hn) (by simpa using hlen)]
      simp [List.getLast_cons]

theorem IsList.append_last (tabs : Nat → MDTab) (e : Nat) (he0 : e ≠ 0)
    (hen : (tabs e).next = 0) :
    ∀ (L : List Nat) (a p : Nat), IsList tabs p (a :: L) → e ∉ a :: L →
      IsList (upd tabs ((a :: L).getLast (List.cons_ne_nil _ _))
        { tabs ((a :: L).getLast (List.cons_ne_nil _ _)) with next := e }) p
        ((a :: L) ++ [e]) := by
  intro L
  induction L with
  | nil =>
    intro a p h he
    obtain ⟨hp, ha0, _⟩ := h
    have hea : e ≠ a := fun h => he (by simp [h])
    refine ⟨hp, ha0, ?_⟩
    simp only [List.getLast_singleton, upd_same]
    exact ⟨rfl, he0, by rw [upd_other _ _ _ _ hea]; exact hen⟩
  | cons b L ih =>
    intro a p h he
    have hnd := IsList.nodup _ _ h
    obtain ⟨hp, ha0, hn⟩ := h
    have hlast : (a :: b :: L).getLast (List.cons_ne_nil _ _) =
        (b :: L).getLast (List.cons_ne_nil _ _) := by simp [List.getLast_cons]
    have hmem : (b :: L).getLast (List.cons_ne_nil _ _) ∈ b :: L := List.getLast_mem _
    have hane : a ≠ (b :: L).getLast (List.cons_ne_nil _ _) := by
      intro h
      exact (List.nodup_cons.mp hnd).1 (h ▸ hmem)
    have heb : e ∉ b :: L := fun h => he (List.mem_cons_of_mem _ h)
    refine ⟨hp, ha0, ?_⟩
    simp only [hlast]
    rw [upd_other _ _ _ _ hane]
    exact ih b _ hn heb

/-- What `md_insertTab` does to a list `L` starting at `head`: it returns when
the fuel covers the list, the list becomes `L` followed by `newelement`, and
nothing but the link of the former last descriptor is written. -/
theorem md_insertTab_spec (fuel : Nat) (w : World) (head newelement : Nat) (L : List Nat)
    (hL : IsList w.tabs head L) (he0 : newelement ≠ 0) (heL : newelement ∉ L)
    (hen : (w.tabs newelement).next = 0) (hfuel : L.length ≤ fuel) :
    ∃ w' head', md_insertTab fuel w head newelement = some (w', head') ∧
      IsList w'.tabs head' (L ++ [newelement]) ∧
      (∀ x, { w'.tabs x with next := 0 } = { w.tabs x with next := 0 }) ∧
      w' = { w with tabs := w'.tabs } := by
  cases L with
  | nil =>
    have h0 : head = 0 := hL
    refine ⟨w, newelement, by simp [md_insertTab, h0], ⟨rfl, he0, hen⟩, fun _ => rfl, rfl⟩
  | cons a L =>
    have hne : head ≠ 0 := by
      obtain ⟨hp, ha0, _⟩ := hL
      exact hp ▸ ha0
    have hwalk := insertWalk_last w.tabs L a head fuel hL (by simpa using hfuel)
    let last := (a :: L).getLast (List.cons_ne_nil _ _)
    let t : MDTab := { w.tabs last with next := newelement }
    refine ⟨{ w with tabs := upd w.tabs last t }, head,
      by simp only [md_insertTab, hne, if_false, hwalk, last, t], ?_, ?_, rfl⟩
    · exact IsList.append_last w.tabs newelement he0 hen L a head hL heL
    · intro x
      by_cases hx : x = (a :: L).getLast (List.cons_ne_nil _ _)
      · subst hx; simp
      · simp [upd_other _ _ _ _ hx]

theorem crets_append (a b : List Event) : crets (a ++ b) = crets a ++ crets b := by
  simp [crets, List.filterMap_append]

theorem crets_stmt (evs : List Event) (h : ∀ e ∈ evs, Event.isStmt e = true) :
    crets evs = [] := by
  unfold crets
  rw [List.filterMap_eq_nil_iff]
  intro e he
  have := h e he
  cases e <;> first | rfl | (simp [Event.isStmt] at this)

theorem Event.isStmt_defLevel (e : Event) (h : e.isStmt = true) : e.isDefLevel = true := by
  simp [Event.isDefLevel, h]

/-- What `md_createTable` does: statement-level events followed by its return,
and no write to memory other than the destination root page of `tab`. -/
theorem md_createTable_frame (env : Engine) (w : World) (sql : String) (tab : Nat) :
    (∃ body, (md_createTable env w sql tab).2.log =
        w.log ++ body ++ [Event.md_createTable tab (md_createTable env w sql tab).1] ∧
      ∀ e ∈ body, Event.isStmt e = true) ∧
    (∀ x, x ≠ tab → (md_createTable env w sql tab).2.tabs x = w.tabs x) ∧
    ((md_createTable env w sql tab).2.tabs tab).noRoot = (w.tabs tab).noRoot ∧
    (md_createTable env w sql tab).2.strs = w.strs ∧
    w.brk ≤ (md_createTable env w sql tab).2.brk ∧
    (md_createTable env w sql tab).2.inTrans = w.inTrans := by
  by_cases c0 : env.rc w.tick = 0
  · by_cases c1 : env.rc (w.tick + 1) = 0
    · by_cases c2 : env.step (w.tick + 2) = 100
      · refine ⟨⟨[Event.execSql (w.tabs tab).dest.db sql 0, Event.malloc (w.brk + 1),
            Event.prepare (w.tabs tab).dest.db 0, Event.step (w.tabs tab).dest.db 100,
            Event.finalize (w.tabs tab).dest.db, Event.free (w.brk + 1)], ?_, ?_⟩, ?_, ?_, ?_, ?_, ?_⟩
        · simp [md_createTable, createTableBody, execSql, sqlite3_prepare_v2, sqlite3_step,
            sqlite3_finalize, sqlite3_free, sqlite3_malloc, World.call, World.emit, c0, c1, c2]
        · simp [Event.isStmt]
        · intro x hx
          simp [md_createTable, createTableBody, execSql, sqlite3_prepare_v2, sqlite3_step,
            sqlite3_finalize, sqlite3_free, sqlite3_malloc, World.call, World.emit, c0, c1, c2,
            upd_other _ _ _ _ hx]
        · simp [md_createTable, createTableBody, execSql, sqlite3_prepare_v2, sqlite3_step,
            sqlite3_finalize, sqlite3_free, sqlite3_malloc, World.call, World.emit, c0, c1, c2,
            MDTab.noRoot]
        · simp [md_createTable, createTableBody, execSql, sqlite3_prepare_v2, sqlite3_step,
            sqlite3_finalize, sqlite3_free, sqlite3_malloc, World.call, World.emit, c0, c1, c2]
        · simp [md_createTable, createTableBody, execSql, sqlite3_prepare_v2, sqlite3_step,
            sqlite3_finalize, sqlite3_free, sqlite3_malloc, World.call, World.emit, c0, c1, c2]
        · simp [md_createTable, createTableBody, execSql, sqlite3_prepare_v2, sqlite3_step,
            sqlite3_finalize, sqlite3_free, sqlite3_malloc, World.call, World.emit, c0, c1, c2]
      · refine ⟨⟨[Event.execSql (w.tabs tab).dest.db sql 0, Event.malloc (w.brk + 1),
            Event.prepare (w.tabs tab).dest.db 0,
            Event.step (w.tabs tab).dest.db (env.step (w.tick + 2)),
            Event.finalize (w.tabs tab).dest.db, Event.free (w.brk + 1)], ?_, ?_⟩, ?_, ?_, ?_, ?_, ?_⟩
        · simp [md_createTable, createTableBody, execSql, sqlite3_prepare_v2, sqlite3_step,
            sqlite3_finalize, sqlite3_free, sqlite3_malloc, World.call, World.emit, c0, c1, c2]
        · simp [Event.isStmt]
        · intro x _
          simp [md_createTable, createTableBody, execSql, sqlite3_prepare_v2, sqlite3_step,
            sqlite3_finalize, sqlite3_free, sqlite3_malloc, World.call, World.emit, c0, c1, c2]
        · simp [md_createTable, createTableBody, execSql, sqlite3_prepare_v2, sqlite3_step,
            sqlite3_finalize, sqlite3_free, sqlite3_malloc, World.call, World.emit, c0, c1, c2]
        · simp [md_createTable, createTableBody, execSql, sqlite3_prepare_v2, sqlite3_step,
            sqlite3_finalize, sqlite3_free, sqlite3_malloc, World.call, World.emit, c0, c1, c2]
        · simp [md_createTable, createTableBody, execSql, sqlite3_prepare_v2, sqlite3_step,
            sqlite3_finalize, sqlite3_free, sqlite3_malloc, World.call, World.emit, c0, c1, c2]
        · simp [md_createTable, createTableBody, execSql, sqlite3_prepare_v2, sqlite3_step,
            sqlite3_finalize, sqlite3_free, sqlite3_malloc, World.call, World.emit, c0, c1, c2]
    · refine ⟨⟨[Event.execSql (w.tabs tab).dest.db sql 0, Event.malloc (w.brk + 1),
          Event.prepare (w.tabs tab).dest.db (env.rc (w.tick + 1)), Event.free (w.brk + 1)],
          ?_, ?_⟩, ?_, ?_, ?_, ?_, ?_⟩
      · simp [md_createTable, createTableBody, execSql, sqlite3_prepare_v2, sqlite3_step,
          sqlite3_finalize, sqlite3_free, sqlite3_malloc, World.call, World.emit, c0, c1]
      · simp [Event.isStmt]
      · intro x _
        simp [md_createTable, createTableBody, execSql, sqlite3_prepare_v2, sqlite3_step,
          sqlite3_finalize, sqlite3_free, sqlite3_malloc, World.call, World.emit, c0, c1]
      · simp [md_createTable, createTableBody, execSql, sqlite3_prepare_v2, sqlite3_step,
          sqlite3_finalize, sqlite3_free, sqlite3_malloc, World.call, World.emit, c0, c1]
      · simp [md_createTable, createTableBody, execSql, sqlite3_prepare_v2, sqlite3_step,
          sqlite3_finalize, sqlite3_free, sqlite3_malloc, World.call, World.emit, c0, c1]
      · simp [md_createTable, createTableBody, execSql, sqlite3_prepare_v2, sqlite3_step,
          sqlite3_finalize, sqlite3_free, sqlite3_malloc, World.call, World.emit, c0, c1]
      · simp [md_createTable, createTableBody, execSql, sqlite3_prepare_v2, sqlite3_step,
          sqlite3_finalize, sqlite3_free, sqlite3_malloc, World.call, World.emit, c0, c1]
  · refine ⟨⟨[Event.execSql (w.tabs tab).dest.db sql (env.rc w.tick)], ?_, ?_⟩, ?_, ?_, ?_, ?_, ?_⟩
    · simp [md_createTable, createTableBody, execSql, World.call, World.emit, c0]
    · simp [Event.isStmt]
    · intro x _
      simp [md_createTable, createTableBody, execSql, World.call, World.emit, c0]
    · simp [md_createTable, createTableBody, execSql, World.call, World.emit, c0]
    · simp [md_createTable, createTableBody, execSql, World.call, World.emit, c0]
    · simp [md_createTable, createTableBody, execSql, World.call, World.emit, c0]
    · simp [md_createTable, createTableBody, execSql, World.call, World.emit, c0]

theorem IsList.congr_on {tabs tabs' : Nat → MDTab} :
    ∀ (L : List Nat) (p : Nat), (∀ x ∈ L, (tabs' x).next = (tabs x).next) →
      IsList tabs p L → IsList tabs' p L := by
  intro L
  induction L with
  | nil => intro p _ hp; exact hp
  | cons a rest ih =>
    intro p h hp
    obtain ⟨h1, h2, h3⟩ := hp
    refine ⟨h1, h2, ?_⟩
    rw [h a (List.mem_cons_self _ _)]
    exact ih _ (fun x hx => h x (List.mem_cons_of_mem _ hx)) h3

theorem nextFrame_fields {t t' : MDTab}
    (h : ({ t' with next := 0 } : MDTab) = { t with next := 0 }) :
    t'.reltype = t.reltype ∧ t'.relname = t.relname ∧ t'.src = t.src ∧ t'.dest = t.dest := by
  obtain ⟨a, b, c, d, e⟩ := t
  obtain ⟨a', b', c', d', e'⟩ := t'
  simp only [MDTab.mk.injEq] at h
  exact ⟨h.1, h.2.1, h.2.2.1, h.2.2.2.1⟩

theorem descOf_eq (w w' : World) (a : Nat)
    (h1 : (w'.tabs a).reltype = (w.tabs a).reltype)
    (h2 : (w'.tabs a).relname = (w.tabs a).relname)
    (h3 : (w'.tabs a).src = (w.tabs a).src)
    (h4 : (w'.tabs a).dest.db = (w.tabs a).dest.db)
    (h5 : w'.strs (w.tabs a).relname = w.strs (w.tabs a).relname) :
    descOf w' a = descOf w a := by
  simp [descOf, h1, h2, h3, h4, h5]

/-- The result of `md_createTable`: the code of the creation statement when it
fails, else the code of preparing the root-page lookup when that fails, else
`SQLITE_OK` when the lookup finds a row and `SQLITE_ERROR` when it does not. -/
theorem md_createTable_rc (env : Engine) (w : World) (sql : String) (tab : Nat) :
    (md_createTable env w sql tab).1 =
      if env.rc w.tick ≠ SQLITE_OK then env.rc w.tick
      else if env.rc (w.tick + 1) ≠ SQLITE_OK then env.rc (w.tick + 1)
      else if env.step (w.tick + 2) = SQLITE_ROW then SQLITE_OK else SQLITE_ERROR := by
  by_cases c0 : env.rc w.tick = 0
  · by_cases c1 : env.rc (w.tick + 1) = 0
    · by_cases c2 : env.step (w.tick + 2) = 100
      · simp [md_createTable, createTableBody, execSql, sqlite3_prepare_v2, sqlite3_step,
          sqlite3_finalize, sqlite3_free, sqlite3_malloc, World.call, World.emit, c0, c1, c2]
      · simp [md_createTable, createTableBody, execSql, sqlite3_prepare_v2, sqlite3_step,
          sqlite3_finalize, sqlite3_free, sqlite3_malloc, World.call, World.emit, c0, c1, c2]
    · simp [md_createTable, createTableBody, execSql, sqlite3_prepare_v2, sqlite3_step,
        sqlite3_finalize, sqlite3_free, sqlite3_malloc, World.call, World.emit, c0, c1]
  · simp [md_createTable, createTableBody, execSql, World.call, World.emit, c0]

theorem cpdefsLoop_run (env : Engine) (fuel : Nat) (src dest : Db) (reltype : String)
    (fin : Int) :
    ∀ (rows : List CatRow) (w : World) (tl : Nat) (L : List Nat),
      ListInv w tl L → L.length + rows.length ≤ fuel →
      ∃ rc w' tl' evs new,
        cpdefsLoop env fuel src dest reltype fin rows w tl SQLITE_OK = some (rc, w', tl') ∧
        w'.log = w.log ++ evs ∧ ListInv w' tl' (L ++ new) ∧
        (∀ a ∈ L, descOf w' a = descOf w a) ∧
        new.map (descOf w') = (rows.take new.length).map (descOfRow src dest reltype) ∧
        DefTrace rc [] evs ∧ (rc = SQLITE_OK → new.length = rows.length) ∧
        w'.inTrans = w.inTrans ∧
        ((rc = SQLITE_OK ∧ crets evs = new.map (fun a => (a, SQLITE_OK))) ∨
         (rc ≠ SQLITE_OK ∧ new.length < rows.length ∧
           ∃ t, crets evs = new.map (fun a => (a, SQLITE_OK)) ++ [(t, rc)])) ∧
        ((∀ k, env.rc k = SQLITE_OK) → (∀ k, env.step k = SQLITE_ROW) → rc = SQLITE_OK) := by
  intro rows
  induction rows with
  | nil =>
    intro w tl L hinv _
    refine ⟨0, w.emit (Event.step src fin), tl, [Event.step src fin], [], rfl, rfl, ?_, ?_,
      rfl, ?_, fun _ => rfl, rfl, Or.inl ⟨rfl, by simp [crets, cretOf]⟩, fun _ _ => rfl⟩
    · rw [List.append_nil]; exact ⟨hinv.list, hinv.fresh, hinv.names⟩
    · intro a _; rfl
    · exact ⟨by simp [Event.isDefLevel, Event.isStmt], Or.inl (by simp [crets, cretOf])⟩
  | cons row rest ih =>
    intro w tl L hinv hfuel
    obtain ⟨hlist, hfresh, hnames⟩ := hinv
    -- the world after the step and `md_tabCons`
    obtain ⟨w2, hw2⟩ : ∃ w2, w2 = (md_tabCons (w.emit (Event.step src SQLITE_ROW)) src dest
      reltype row.name row.rootpage).2 := ⟨_, rfl⟩
    have htab : (md_tabCons (w.emit (Event.step src SQLITE_ROW)) src dest reltype
      row.name row.rootpage).1 = w.brk + 1 := rfl
    have hw2log : w2.log = w.log ++
        [Event.step src SQLITE_ROW, Event.malloc (w.brk + 1), Event.malloc (w.brk + 2)] := by
      simp [hw2, md_tabCons, sqlite3_malloc, World.emit]
    have hw2tabs : w2.tabs = upd w.tabs (w.brk + 1)
        ⟨reltype, w.brk + 2, ⟨src, row.rootpage, 0⟩, ⟨dest, 0, 0⟩, 0⟩ := by rw [hw2]; rfl
    have hw2strs : w2.strs = upd w.strs (w.brk + 2) row.name := by rw [hw2]; rfl
    have hw2brk : w2.brk = w.brk + 2 := by rw [hw2]; rfl
    obtain ⟨⟨body, hclog, hbody⟩, hcother, hcself, hcstrs, hcbrk, hcin⟩ :=
      md_createTable_frame env w2 row.sql (w.brk + 1)
    have hw2in : w2.inTrans = w.inTrans := by rw [hw2]; rfl
    have hw2tick : w2.tick = w.tick := by rw [hw2]; rfl
    have htL : w.brk + 1 ∉ L := fun h => absurd (hfresh _ h) (by omega)
    have hkeep : ∀ a ∈ L, (md_createTable env w2 row.sql (w.brk + 1)).2.tabs a = w.tabs a := by
      intro a ha
      have hne : a ≠ w.brk + 1 := fun h => htL (h ▸ ha)
      rw [hcother a hne, hw2tabs, upd_other _ _ _ _ hne]
    have hlist3 : IsList (md_createTable env w2 row.sql (w.brk + 1)).2.tabs tl L :=
      IsList.congr_on L tl (fun x hx => by rw [hkeep x hx]) hlist
    have hself : ((md_createTable env w2 row.sql (w.brk + 1)).2.tabs (w.brk + 1)).reltype
          = reltype ∧
        ((md_createTable env w2 row.sql (w.brk + 1)).2.tabs (w.brk + 1)).relname = w.brk + 2 ∧
        ((md_createTable env w2 row.sql (w.brk + 1)).2.tabs (w.brk + 1)).src
          = ⟨src, row.rootpage, 0⟩ ∧
        ((md_createTable env w2 row.sql (w.brk + 1)).2.tabs (w.brk + 1)).dest.db = dest ∧
        ((md_createTable env w2 row.sql (w.brk + 1)).2.tabs (w.brk + 1)).next = 0 := by
      rw [hw2tabs, upd_same] at hcself
      generalize (md_createTable env w2 row.sql (w.brk + 1)).2.tabs (w.brk + 1) = t at hcself ⊢
      obtain ⟨a, b, c, d, e⟩ := t
      obtain ⟨d1, d2, d3⟩ := d
      simp only [MDTab.noRoot, MDTab.mk.injEq, MDHandle.mk.injEq] at hcself
      obtain ⟨h1, h2, h3, ⟨h4, _, h5⟩, h6⟩ := hcself
      exact ⟨h1, h2, h3, h4, h6⟩
    have hstrsL : ∀ a ∈ L, (md_createTable env w2 row.sql (w.brk + 1)).2.strs
        (w.tabs a).relname = w.strs (w.tabs a).relname := by
      intro a ha
      have hne : (w.tabs a).relname ≠ w.brk + 2 := by
        have := hnames a ha; omega
      rw [hcstrs, hw2strs, upd_other _ _ _ _ hne]
    have hstmts : ∀ e ∈ [Event.step src SQLITE_ROW, Event.malloc (w.brk + 1),
        Event.malloc (w.brk + 2)] ++ body, Event.isStmt e = true := by
      intro e he
      rcases List.mem_append.mp he with h | h
      · simp at h
        rcases h with rfl | rfl | rfl <;> rfl
      · exact hbody e h
    rw [cpdefsLoop]
    simp only [htab, ← hw2]
    by_cases c : (md_createTable env w2 row.sql (w.brk + 1)).1 = 0
    · obtain ⟨w4, tl4, hins, hlist4, hframe4, hw4⟩ :=
        md_insertTab_spec fuel (md_createTable env w2 row.sql (w.brk + 1)).2 tl (w.brk + 1) L
          hlist3 (by omega) htL hself.2.2.2.2 (by omega)
      have hw4log : w4.log = (md_createTable env w2 row.sql (w.brk + 1)).2.log := by
        rw [hw4]
      have hw4strs : w4.strs = (md_createTable env w2 row.sql (w.brk + 1)).2.strs := by
        rw [hw4]
      have hw4brk : w4.brk = (md_createTable env w2 row.sql (w.brk + 1)).2.brk := by
        rw [hw4]
      have hf4 := fun x => nextFrame_fields (hframe4 x)
      have hinv4 : ListInv w4 tl4 (L ++ [w.brk + 1]) := by
        refine ⟨hlist4, ?_, ?_⟩
        · intro a ha
          rcases List.mem_append.mp ha with h | h
          · have := hfresh a h; omega
          · simp at h; omega
        · intro a ha
          rw [(hf4 a).2.1]
          rcases List.mem_append.mp ha with h | h
          · rw [hkeep a h]; have := hnames a h; omega
          · simp at h; subst h; rw [hself.2.1]; omega
      have hw4in : w4.inTrans = (md_createTable env w2 row.sql (w.brk + 1)).2.inTrans := by
        rw [hw4]
      obtain ⟨rc, w', tl', evs', new', hrun, hlog', hinv', hdesc', hnew', htrace', hlen', hin',
          hcr', hall'⟩ :=
        ih w4 tl4 (L ++ [w.brk + 1]) hinv4 (by simp at hfuel ⊢; omega)
      have hdL : ∀ a ∈ L, descOf w4 a = descOf w a := by
        intro a ha
        exact descOf_eq w w4 a (by rw [(hf4 a).1, hkeep a ha]) (by rw [(hf4 a).2.1, hkeep a ha])
          (by rw [(hf4 a).2.2.1, hkeep a ha]) (by rw [(hf4 a).2.2.2, hkeep a ha])
          (by rw [hw4strs]; exact hstrsL a ha)
      have hdt : descOf w4 (w.brk + 1) = descOfRow src dest reltype row := by
        simp only [descOf, descOfRow, (hf4 (w.brk + 1)).1, (hf4 (w.brk + 1)).2.1,
          (hf4 (w.brk + 1)).2.2.1, (hf4 (w.brk + 1)).2.2.2, hself.1, hself.2.1, hself.2.2.1,
          hself.2.2.2.1, hw4strs, hcstrs, hw2strs, upd_same]
      simp only [c, ne_eq, not_true_eq_false, if_false, hins]
      refine ⟨rc, w', tl', ([Event.step src SQLITE_ROW, Event.malloc (w.brk + 1),
        Event.malloc (w.brk + 2)] ++ body) ++
        Event.md_createTable (w.brk + 1) SQLITE_OK :: evs', (w.brk + 1) :: new',
        hrun, ?_, ?_, ?_, ?_, ?_, ?_, ?_, ?_, hall'⟩
      · rw [hlog', hw4log, hclog, hw2log, c]; simp
      · have : L ++ (w.brk + 1) :: new' = (L ++ [w.brk + 1]) ++ new' := by simp
        rw [this]; exact hinv'
      · intro a ha
        rw [hdesc' a (List.mem_append_left _ ha)]
        exact hdL a ha
      · simp only [List.map_cons, List.length_cons, List.take_succ_cons]
        rw [hnew', hdesc' _ (List.mem_append_right _ (List.mem_singleton_self _)), hdt]
      · obtain ⟨hall, hcases⟩ := htrace'
        refine ⟨?_, ?_⟩
        · intro e he
          rcases List.mem_append.mp he with h | h
          · exact Event.isStmt_defLevel e (hstmts e h)
          · rcases List.mem_cons.mp h with h | h
            · subst h; simp [Event.isDefLevel]
            · exact hall e h
        · rcases hcases with hok | ⟨hne, pre, t, hevs, hpre⟩
          · left
            intro r hr
            rw [crets_append, crets_stmt _ hstmts] at hr
            simp only [crets, List.filterMap_cons, cretOf, List.nil_append,
              List.mem_cons] at hr
            rcases hr with rfl | hr
            · rfl
            · exact hok r hr
          · right
            refine ⟨hne, ([Event.step src SQLITE_ROW, Event.malloc (w.brk + 1),
              Event.malloc (w.brk + 2)] ++ body) ++
              Event.md_createTable (w.brk + 1) SQLITE_OK :: pre, t, by rw [hevs]; simp, ?_⟩
            intro r hr
            rw [crets_append, crets_stmt _ hstmts] at hr
            simp only [crets, List.filterMap_cons, cretOf, List.nil_append,
              List.mem_cons] at hr
            rcases hr with rfl | hr
            · rfl
            · exact hpre r hr
      · intro h
        simp [hlen' h]
      · rw [hin', hw4in, hcin, hw2in]
      · have hcrets : crets (([Event.step src SQLITE_ROW, Event.malloc (w.brk + 1),
            Event.malloc (w.brk + 2)] ++ body) ++
            Event.md_createTable (w.brk + 1) SQLITE_OK :: evs') =
            (w.brk + 1, SQLITE_OK) :: crets evs' := by
          rw [crets_append, crets_stmt _ hstmts]
          simp [crets, cretOf]
        rw [hcrets]
        rcases hcr' with ⟨h1, h2⟩ | ⟨h1, h2, t, h3⟩
        · left
          exact ⟨h1, by rw [h2]; rfl⟩
        · right
          exact ⟨h1, by simpa using h2, t, by rw [h3]; rfl⟩
    · simp only [c, ne_eq, not_false_eq_true, if_true]
      refine ⟨_, _, tl, ([Event.step src SQLITE_ROW, Event.malloc (w.brk + 1),
        Event.malloc (w.brk + 2)] ++ body) ++
        [Event.md_createTable (w.brk + 1) (md_createTable env w2 row.sql (w.brk + 1)).1], [],
        rfl, ?_, ?_, ?_, rfl, ?_, fun h => absurd h c, ?_, ?_, ?_⟩
      · rw [hclog, hw2log]; simp
      · rw [List.append_nil]
        refine ⟨hlist3, fun a ha => by have := hfresh a ha; omega, fun a ha => ?_⟩
        rw [hkeep a ha]
        have := hnames a ha
        omega
      · intro a ha
        exact descOf_eq w _ a (by rw [hkeep a ha]) (by rw [hkeep a ha]) (by rw [hkeep a ha])
          (by rw [hkeep a ha]) (hstrsL a ha)
      · refine ⟨?_, Or.inr ⟨c, _, _, rfl, ?_⟩⟩
        · intro e he
          rcases List.mem_append.mp he with h | h
          · exact Event.isStmt_defLevel e (hstmts e h)
          · simp at h; subst h; simp [Event.isDefLevel]
        · rw [crets_stmt _ hstmts]; simp
      · rw [hcin, hw2in]
      · right
        refine ⟨c, by simp, w.brk + 1, ?_⟩
        rw [crets_append, crets_stmt _ hstmts]
        simp [crets, cretOf]
      · intro hrc hstep
        rw [md_createTable_rc]
        simp [hrc, hstep]

theorem DefTrace.mono {rc : Int} {tail evs : List Event} (h : DefTrace rc [] evs)
    (pre : List Event) (hpre : ∀ e ∈ pre, Event.isStmt e = true)
    (htail : ∀ e ∈ tail, Event.isStmt e = true) :
    DefTrace rc tail (pre ++ evs ++ tail) := by
  obtain ⟨hall, hcases⟩ := h
  refine ⟨?_, ?_⟩
  · intro e he
    rcases List.mem_append.mp he with h | h
    · rcases List.mem_append.mp h with h | h
      · exact Event.isStmt_defLevel e (hpre e h)
      · exact hall e h
    · exact Event.isStmt_defLevel e (htail e h)
  · rcases hcases with hok | ⟨hne, p, t, hevs, hp⟩
    · left
      intro r hr
      rw [crets_append, crets_append, crets_stmt _ hpre, crets_stmt _ htail] at hr
      simp only [List.nil_append, List.append_nil] at hr
      exact hok r hr
    · right
      refine ⟨hne, pre ++ p, t, by rw [hevs]; simp, ?_⟩
      intro r hr
      rw [crets_append, crets_stmt _ hpre] at hr
      exact hp r hr

/-- The shape of every run of `md_cpdefs` on a list `L`. -/
theorem md_cpdefs_run (env : Engine) (fuel : Nat) (w : World) (src dest : Db)
    (reltype : String) (tl : Nat) (L : List Nat) (hinv : ListInv w tl L)
    (hfuel : L.length + (env.scan reltype).1.length ≤ fuel) :
    ∃ rc w' tl' evs new,
      md_cpdefs env fuel w src dest reltype tl = some (rc, w', tl') ∧
      w'.log = w.log ++ evs ∧ ListInv w' tl' (L ++ new) ∧
      (∀ a ∈ L, descOf w' a = descOf w a) ∧
      new.map (descOf w') =
        ((env.scan reltype).1.take new.length).map (descOfRow src dest reltype) ∧
      DefTrace rc [Event.finalize src] evs ∧
      (rc = SQLITE_OK → new.length = (env.scan reltype).1.length) ∧
      w'.inTrans = w.inTrans ∧
      ((rc = SQLITE_OK ∧ crets evs = new.map (fun a => (a, SQLITE_OK))) ∨
       (rc ≠ SQLITE_OK ∧ new.length < (env.scan reltype).1.length ∧
         ∃ t, crets evs = new.map (fun a => (a, SQLITE_OK)) ++ [(t, rc)]) ∨
       (rc ≠ SQLITE_OK ∧ rc = env.rc w.tick ∧ new = [] ∧ crets evs = [])) ∧
      ((∀ k, env.rc k = SQLITE_OK) → (∀ k, env.step k = SQLITE_ROW) → rc = SQLITE_OK) := by
  unfold md_cpdefs
  by_cases c : env.rc w.tick = 0
  · have hinv1 : ListInv (sqlite3_prepare_v2 env w src).2 tl L :=
      ⟨hinv.list, hinv.fresh, hinv.names⟩
    obtain ⟨rc, w', tl', evs, new, hrun, hlog, hinv', hdesc, hnew, htrace, hlen, hin, hcr,
        hall⟩ :=
      cpdefsLoop_run env fuel src dest reltype (env.scan reltype).2 (env.scan reltype).1
        (sqlite3_prepare_v2 env w src).2 tl L hinv1 hfuel
    have hp1 : (sqlite3_prepare_v2 env w src).1 = 0 := c
    simp only [hp1, ne_eq, not_true_eq_false, if_false, hrun]
    refine ⟨rc, sqlite3_finalize w' src, tl',
      [Event.prepare src SQLITE_OK] ++ evs ++ [Event.finalize src], new, rfl, ?_,
      ⟨hinv'.list, hinv'.fresh, hinv'.names⟩, ?_, hnew, ?_, hlen, ?_, ?_, hall⟩
    · show w'.log ++ [Event.finalize src] = _
      rw [hlog]
      simp [sqlite3_prepare_v2, World.call, c]
    · intro a ha
      exact hdesc a ha
    · exact htrace.mono _ (by simp [Event.isStmt]) (by simp [Event.isStmt])
    · show w'.inTrans = w.inTrans
      rw [hin]
      simp [sqlite3_prepare_v2, World.call]
    · have hcrets : crets ([Event.prepare src SQLITE_OK] ++ evs ++ [Event.finalize src]) =
          crets evs := by
        rw [crets_append, crets_append]
        simp [crets, cretOf]
      rw [hcrets]
      rcases hcr with h | h
      · exact Or.inl h
      · exact Or.inr (Or.inl h)
  · have hp1 : (sqlite3_prepare_v2 env w src).1 ≠ 0 := c
    simp only [ne_eq, hp1, not_false_eq_true, if_true]
    refine ⟨_, _, tl, [Event.prepare src (env.rc w.tick)], [], rfl, rfl, ?_, fun _ _ => rfl,
      rfl, ⟨by simp [Event.isDefLevel, Event.isStmt], Or.inl (by simp [crets, cretOf])⟩,
      fun h => absurd h hp1, by simp [sqlite3_prepare_v2, World.call],
      Or.inr (Or.inr ⟨hp1, rfl, rfl, by simp [crets, cretOf]⟩),
      fun hrc _ => absurd (hrc w.tick) c⟩
    rw [List.append_nil]
    exact ⟨hinv.list, hinv.fresh, hinv.names⟩

theorem freeEvents_cleanup (tabs : Nat → MDTab) (L : List Nat) :
    ∀ e ∈ freeEvents tabs L, Event.isCleanup e = true := by
  induction L with
  | nil => intro e he; simp [freeEvents] at he
  | cons a L ih =>
    intro e he
    simp only [freeEvents, List.mem_cons] at he
    rcases he with rfl | rfl | h
    · rfl
    · rfl
    · exact ih e h

theorem freeTabsLoop_run :
    ∀ (L : List Nat) (fuel : Nat) (w : World) (head : Nat), IsList w.tabs head L →
      L.length < fuel →
      ∃ w', freeTabsLoop fuel w head = some w' ∧ w'.log = w.log ++ freeEvents w.tabs L := by
  intro L
  induction L with
  | nil =>
    intro fuel w head h hlen
    have h0 : head = 0 := h
    cases fuel with
    | zero => exact absurd hlen (Nat.not_lt_zero _)
    | succ n => exact ⟨w, by simp [freeTabsLoop, h0], by simp [freeEvents]⟩
  | cons a L ih =>
    intro fuel w head h hlen
    obtain ⟨h1, h2, h3⟩ := h
    subst h1
    cases fuel with
    | zero => exact absurd hlen (Nat.not_lt_zero _)
    | succ n =>
      obtain ⟨w', hr, hlog⟩ := ih n
        (sqlite3_free (sqlite3_free w (w.tabs head).relname) head) (w.tabs head).next h3
        (by simpa using hlen)
      refine ⟨w', by rw [freeTabsLoop]; simp only [h2, if_false]; exact hr, ?_⟩
      rw [hlog]
      simp [freeEvents, sqlite3_free, World.emit]

/-- The tail of `md_mergedbs` returns `rc` after cleanup events only. -/
theorem mergeCleanup_run (fuel : Nat) (w : World) (rc : Int) (errstr : Bool)
    (srcdb destdb : Option Db) (tl : Nat) (L : List Nat) (hL : IsList w.tabs tl L)
    (hlen : L.length < fuel) :
    ∃ w' evs, mergeCleanup fuel w rc errstr srcdb destdb tl = some (rc, w') ∧
      w'.log = w.log ++ evs ∧ ∀ e ∈ evs, Event.isCleanup e = true := by
  unfold mergeCleanup md_freeTabs
  have hrun : ∀ (b : World), b.tabs = w.tabs → ∀ pre, b.log = w.log ++ pre →
      (∀ e ∈ pre, Event.isCleanup e = true) →
      ∃ w' evs, (match (match freeTabsLoop fuel b tl with
          | none => none
          | some w1 => some (w1, 0)) with
        | none => none
        | some f => some (rc, f.1)) = some (rc, w') ∧
      w'.log = w.log ++ evs ∧ ∀ e ∈ evs, Event.isCleanup e = true := by
    intro b hb pre hpre hc
    obtain ⟨w', hr, hlog⟩ := freeTabsLoop_run L fuel b tl (by rw [hb]; exact hL) hlen
    refine ⟨w', pre ++ freeEvents b.tabs L, by simp [hr], by rw [hlog, hpre]; simp, ?_⟩
    intro e he
    rcases List.mem_append.mp he with h | h
    · exact hc e h
    · exact freeEvents_cleanup _ _ e h
  have hclose : ∀ (b : World) (d : Option Db), ∃ evs, (sqlite3_close_v2 b d).log = b.log ++ evs ∧
      (∀ e ∈ evs, Event.isCleanup e = true) ∧ (sqlite3_close_v2 b d).tabs = b.tabs := by
    intro b d
    cases d with
    | none => exact ⟨[], by simp [sqlite3_close_v2], by simp, rfl⟩
    | some db => exact ⟨[Event.close_v2 db], rfl, by simp [Event.isCleanup], rfl⟩
  have herr : ∃ evs, (if rc ≠ SQLITE_OK ∧ errstr = true then w.emit Event.errstr else w).log
        = w.log ++ evs ∧ (∀ e ∈ evs, Event.isCleanup e = true) ∧
      (if rc ≠ SQLITE_OK ∧ errstr = true then w.emit Event.errstr else w).tabs = w.tabs := by
    split
    · exact ⟨[Event.errstr], rfl, by simp [Event.isCleanup], rfl⟩
    · exact ⟨[], by simp, by simp, rfl⟩
  obtain ⟨e1, hl1, hc1, ht1⟩ := herr
  obtain ⟨e2, hl2, hc2, ht2⟩ := hclose
    (if rc ≠ SQLITE_OK ∧ errstr = true then w.emit Event.errstr else w) srcdb
  obtain ⟨e3, hl3, hc3, ht3⟩ := hclose (sqlite3_close_v2
    (if rc ≠ SQLITE_OK ∧ errstr = true then w.emit Event.errstr else w) srcdb) destdb
  refine hrun _ (by rw [ht3, ht2, ht1]) (e1 ++ e2 ++ e3) (by rw [hl3, hl2, hl1]; simp) ?_
  intro e he
  rcases List.mem_append.mp he with h | h
  · rcases List.mem_append.mp h with h | h
    · exact hc1 e h
    · exact hc2 e h
  · exact hc3 e h

theorem Event.isSetup_not_copyPhase (e : Event) (h : e.isSetup = true) :
    e.isCopyPhase = false := by
  cases e <;> first | rfl | (simp [Event.isSetup, Event.isDefLevel, Event.isStmt] at h)

theorem Event.isCleanup_not_copyPhase (e : Event) (h : e.isCleanup = true) :
    e.isCopyPhase = false := by
  cases e <;> first | rfl | (simp [Event.isCleanup] at h)

theorem Event.isDefLevel_setup (e : Event) (h : e.isDefLevel = true) : e.isSetup = true := by
  simp [Event.isSetup, h]

theorem crets_copyRun (evs : List Event) (h : ∀ e ∈ evs, Event.isCopyRun e = true) :
    crets evs = [] := by
  unfold crets
  rw [List.filterMap_eq_nil_iff]
  intro e he
  have := h e he
  cases e <;> first | rfl |
    (simp [Event.isCopyRun, Event.isCopy, Event.isCursorLevel, Event.isTrans] at this)

theorem crets_cleanup (evs : List Event) (h : ∀ e ∈ evs, Event.isCleanup e = true) :
    crets evs = [] := by
  unfold crets
  rw [List.filterMap_eq_nil_iff]
  intro e he
  have := h e he
  cases e <;> first | rfl | (simp [Event.isCleanup] at this)

/-- When opening both cursors and every cursor operation succeed, `md_cprows`
returns `SQLITE_OK`. -/
theorem md_cprows_ok (env : Engine) (fuel : Nat) (w : World) (tab : Nat)
    (hok : ∀ k, w.tick ≤ k → k < w.tick + 3 + 3 * (srcRows env w tab).length →
      env.rc k = SQLITE_OK)
    (hfuel : (srcRows env w tab).length < fuel) :
    ∃ w', md_cprows env fuel w tab = some (SQLITE_OK, w') := by
  have h0 : env.rc w.tick = SQLITE_OK := hok _ (le_refl _) (by omega)
  have h1 : env.rc (w.tick + 1) = SQLITE_OK := hok _ (by omega) (by omega)
  have h2 : env.rc (w.tick + 2) = SQLITE_OK := hok _ (by omega) (by omega)
  have c0 := md_openCursors_rc env w tab h0 h1
  obtain ⟨_, _, osrc, odest, ocs, _, otick, _, _, _⟩ := md_openCursors_ok env w tab c0
  have hne : w.brk + 2 ≠ w.brk + 1 := by omega
  obtain ⟨f1, _, ftick, frest, _, _, _, _⟩ :=
    sqlite3BtreeFirst_ok env (md_openCursors env w tab).2 (w.brk + 1) (w.brk + 2) hne
      (by rw [otick]; exact h2)
  rw [ocs] at frest
  obtain ⟨w3, hloop, _⟩ :=
    cprowsLoop_ok env (w.brk + 1) (w.brk + 2) (by omega) (srcRows env w tab) fuel
      (sqlite3BtreeFirst env (md_openCursors env w tab).2 (w.brk + 1)).2 frest hfuel
      (by intro k hk1 hk2; rw [ftick, otick] at hk1 hk2; exact hok k (by omega) (by omega))
  have hbody : cprowsBody env fuel w tab = some (SQLITE_OK, w3) := by
    unfold cprowsBody
    simp only [c0, ne_eq, not_true_eq_false, if_false, osrc, odest, f1, hloop]
  refine ⟨(md_closeCursors w3 tab).emit (Event.md_cprows tab SQLITE_OK), ?_⟩
  unfold md_cprows
  rw [hbody]

theorem cprelsLoop_run (env : Engine) (rowFuel : Nat) :
    ∀ (L : List Nat) (fuel : Nat) (w : World) (tab : Nat),
      IsList w.tabs tab L → L.length < fuel →
      (∀ a ∈ L, (srcRows env w a).length < rowFuel) →
      ∃ rc w' evs, cprelsLoop env rowFuel fuel w tab SQLITE_OK = some (rc, w') ∧
        w'.log = w.log ++ evs ∧ (∀ e ∈ evs, Event.isCopy e = true) ∧
        (∀ x, (w'.tabs x).shape = (w.tabs x).shape) ∧
        CopyRets L rc (rets evs) ∧
        CopyChain env rowFuel w (rets evs) w' ∧
        ((∀ k, env.rc k = SQLITE_OK) → rc = SQLITE_OK) := by
  intro L
  induction L with
  | nil =>
    intro fuel w tab hL hlen _
    cases fuel with
    | zero => exact absurd hlen (Nat.not_lt_zero _)
    | succ n =>
      have h0 : tab = 0 := hL
      refine ⟨0, w, [], by simp [cprelsLoop, h0], by simp, by simp, fun _ => rfl, ?_, ?_,
        fun _ => rfl⟩
      · exact Or.inl ⟨rfl, rfl⟩
      · simp [rets, CopyChain]
  | cons a rest ih =>
    intro fuel w tab hL hlen hrows
    obtain ⟨h1, h2, h3⟩ := hL
    subst h1
    cases fuel with
    | zero => exact absurd hlen (Nat.not_lt_zero _)
    | succ n =>
      obtain ⟨rc, mid, hrun, ⟨evs1, hlog1, hp1⟩, hshape⟩ :=
        md_cprows_run env rowFuel w tab (hrows tab (List.mem_cons_self _ _))
      rw [cprelsLoop]
      simp only [h2, if_false, hrun]
      by_cases c : rc = 0
      · subst c
        simp only [ne_eq, not_true_eq_false, if_false]
        have hshape' : ∀ x, ((mid.emit (Event.md_cprows tab 0)).tabs x).shape = (w.tabs x).shape :=
          hshape
        have hL' : IsList (mid.emit (Event.md_cprows tab 0)).tabs
            ((mid.emit (Event.md_cprows tab 0)).tabs tab).next rest := by
          rw [shape_next (hshape' tab)]
          exact IsList.congr (fun x => shape_next (hshape' x)) rest _ h3
        have hrows' : ∀ x ∈ rest,
            (srcRows env (mid.emit (Event.md_cprows tab 0)) x).length < rowFuel := by
          intro x hx
          have := hrows x (List.mem_cons_of_mem _ hx)
          unfold srcRows at this ⊢
          rw [(shape_src (hshape' x)).1, (shape_src (hshape' x)).2]
          exact this
        obtain ⟨rc2, w2, evs2, hr2, hlog2, hp2, hsh2, hcr, hchain2, hall2⟩ :=
          ih n (mid.emit (Event.md_cprows tab 0)) _ hL' (by simpa using hlen) hrows'
        have hrets : rets (evs1 ++ Event.md_cprows tab 0 :: evs2) = (tab, 0) :: rets evs2 := by
          rw [rets_append, rets_cursorLevel evs1 hp1]
          simp [rets, retOf]
        refine ⟨rc2, w2, evs1 ++ Event.md_cprows tab 0 :: evs2, hr2, ?_, ?_, ?_, ?_, ?_, hall2⟩
        · rw [hlog2]; simp [World.emit, hlog1]
        · intro e he
          rcases List.mem_append.mp he with h | h
          · simp [Event.isCopy, hp1 e h]
          · rcases List.mem_cons.mp h with h | h
            · subst h; simp [Event.isCopy]
            · exact hp2 e h
        · intro x; rw [hsh2 x]; exact hshape' x
        · rw [hrets]
          rcases hcr with ⟨hc, hrs⟩ | ⟨hc, pre, t, post, hLr, hrs⟩
          · left
            refine ⟨hc, ?_⟩
            rw [hrs]; rfl
          · right
            refine ⟨hc, tab :: pre, t, post, by simp [hLr], ?_⟩
            rw [hrs]; rfl
        · rw [hrets]
          exact ⟨mid.emit (Event.md_cprows tab 0), hrun, hchain2⟩
      · simp only [ne_eq, c, not_false_eq_true, if_true]
        have hrets : rets (evs1 ++ [Event.md_cprows tab rc]) = [(tab, rc)] := by
          rw [rets_append, rets_cursorLevel evs1 hp1]
          simp [rets, retOf]
        refine ⟨rc, _, evs1 ++ [Event.md_cprows tab rc], rfl, ?_, ?_, hshape, ?_, ?_, ?_⟩
        · simp [World.emit, hlog1]
        · intro e he
          rcases List.mem_append.mp he with h | h
          · simp [Event.isCopy, hp1 e h]
          · simp at h; subst h; simp [Event.isCopy]
        · rw [hrets]
          right
          exact ⟨c, [], tab, rest, rfl, rfl⟩
        · rw [hrets]
          exact ⟨mid.emit (Event.md_cprows tab rc), hrun, rfl⟩
        · intro hall
          obtain ⟨w'', hs⟩ := md_cprows_ok env rowFuel w tab (fun k _ _ => hall k)
            (hrows tab (List.mem_cons_self _ _))
          rw [hrun] at hs
          have := congrArg (fun o => o.map Prod.fst) hs
          simpa using this

/-- The shape of every run of `md_cprels` that gets past `md_beginTrans`. -/
theorem md_cprels_run (env : Engine) (fuel : Nat) (w : World) (tablist : Nat) (L : List Nat)
    (hL : IsList w.tabs tablist L)
    (hbegin : (md_beginTrans env w tablist).1 = SQLITE_OK)
    (hlen : L.length < fuel)
    (hrows : ∀ a ∈ L, (srcRows env w a).length < fuel) :
    ∃ rcl evs c0 c1 c2 w',
      md_cprels env fuel w tablist = some (if rcl = SQLITE_OK then c1 else rcl, w') ∧
      w'.log = w.log ++ (Event.md_cprels tablist :: beginTransEvents w tablist) ++ evs ++
        finishEvents (w.tabs tablist).src.db (w.tabs tablist).dest.db c0
          (decide (rcl = SQLITE_OK)) c1 c2 ∧
      (∀ e ∈ evs, Event.isCopy e = true) ∧ CopyRets L rcl (rets evs) ∧
      (∀ x, (w'.tabs x).shape = (w.tabs x).shape) ∧
      (∃ wl, CopyChain env fuel (md_beginTrans env (w.emit (Event.md_cprels tablist)) tablist).2
          (rets evs) wl ∧
        w' = (md_endTrans env wl tablist (if rcl = SQLITE_OK then 1 else 0)).2 ∧
        c0 = env.rc wl.tick ∧ c1 = env.rc (wl.tick + 1) ∧ c2 = env.rc (wl.tick + 2)) ∧
      ((∀ k, env.rc k = SQLITE_OK) → rcl = SQLITE_OK) := by
  have hb0 : (md_beginTrans env (w.emit (Event.md_cprels tablist)) tablist).1 = SQLITE_OK := by
    rw [md_beginTrans_emit]; exact hbegin
  obtain ⟨hblog, hbtabs, _⟩ := md_beginTrans_ok env (w.emit (Event.md_cprels tablist)) tablist hb0
  have htabs : (md_beginTrans env (w.emit (Event.md_cprels tablist)) tablist).2.tabs = w.tabs :=
    hbtabs
  obtain ⟨rcl, wl, evs, hloop, hllog, hp, hshape, hcr, hchain, hall⟩ :=
    cprelsLoop_run env fuel L fuel
      (md_beginTrans env (w.emit (Event.md_cprels tablist)) tablist).2 tablist
      (by rw [htabs]; exact hL) hlen
      (by intro a ha; unfold srcRows; rw [htabs]; exact hrows a ha)
  have hS : (wl.tabs tablist).src.db = (w.tabs tablist).src.db := by
    rw [(shape_src (hshape tablist)).1, htabs]
  have hD : (wl.tabs tablist).dest.db = (w.tabs tablist).dest.db := by
    rw [(shape_dest (hshape tablist)).1, htabs]
  have hlog0 : wl.log = w.log ++ (Event.md_cprels tablist :: beginTransEvents w tablist) ++ evs := by
    rw [hllog, hblog]
    simp [World.emit, beginTransEvents]
  refine ⟨rcl, evs, env.rc wl.tick, env.rc (wl.tick + 1), env.rc (wl.tick + 2),
    (md_endTrans env wl tablist (if rcl = SQLITE_OK then 1 else 0)).2, ?_, ?_, hp, hcr, ?_,
    ⟨wl, hchain, rfl, rfl, rfl, rfl⟩, hall⟩
  · unfold md_cprels
    simp only [hb0, ne_eq, not_true_eq_false, if_false, hloop]
    by_cases c : rcl = 0
    · simp only [c, if_true]
      rw [← md_endTrans_rc env wl tablist 1]
    · simp only [c, if_false]
  · rw [md_endTrans_log, endTransEvents_eq, hS, hD, hlog0]
    by_cases c : rcl = 0 <;> simp [c]
  · intro x
    rw [md_endTrans_tabs, hshape x, htabs]

/-- With no transaction open on either context and both requests granted,
`md_beginTrans` returns `SQLITE_OK`. -/
theorem md_beginTrans_granted (env : Engine) (w : World) (tab : Nat)
    (hS : w.inTrans (w.tabs tab).src.db = TransState.TRANS_NONE)
    (hD : w.inTrans (w.tabs tab).dest.db = TransState.TRANS_NONE)
    (h0 : env.rc w.tick = SQLITE_OK) (h1 : env.rc (w.tick + 1) = SQLITE_OK) :
    (md_beginTrans env w tab).1 = SQLITE_OK := by
  have h0' : env.rc w.tick = 0 := h0
  have h1' : env.rc (w.tick + 1) = 0 := h1
  simp [md_beginTrans, hS, hD, h0', h1', sqlite3BtreeBeginTrans, sqlite3_mutex_enter, World.call]

theorem md_beginTrans_step (env : Engine) (w : World) (tab : Nat) :
    ∃ evs, (md_beginTrans env w tab).2.log = w.log ++ evs ∧
      (∀ e ∈ evs, Event.isTrans e = true) ∧ (md_beginTrans env w tab).2.tabs = w.tabs := by
  unfold md_beginTrans
  by_cases h1 : w.inTrans (w.tabs tab).src.db = TransState.TRANS_NONE
  · by_cases h2 : w.inTrans (w.tabs tab).dest.db = TransState.TRANS_NONE
    · by_cases h3 : env.rc w.tick = 0
      · by_cases h4 : env.rc (w.tick + 1) = 0
        · exact ⟨[Event.mutex_enter (w.tabs tab).src.db,
            Event.beginTrans (w.tabs tab).src.db 0 0, Event.mutex_enter (w.tabs tab).dest.db,
            Event.beginTrans (w.tabs tab).dest.db 2 0],
            by simp [h1, h2, h3, h4, sqlite3BtreeBeginTrans, sqlite3_mutex_enter, World.call],
            by simp [Event.isTrans],
            by simp [h1, h2, h3, h4, sqlite3BtreeBeginTrans, sqlite3_mutex_enter, World.call]⟩
        · exact ⟨[Event.mutex_enter (w.tabs tab).src.db,
            Event.beginTrans (w.tabs tab).src.db 0 0, Event.mutex_enter (w.tabs tab).dest.db,
            Event.beginTrans (w.tabs tab).dest.db 2 (env.rc (w.tick + 1)),
            Event.mutex_leave (w.tabs tab).src.db, Event.mutex_leave (w.tabs tab).dest.db,
            Event.commit (w.tabs tab).src.db (env.rc (w.tick + 2))],
            by simp [h1, h2, h3, h4, sqlite3BtreeBeginTrans, sqlite3_mutex_enter,
              sqlite3_mutex_leave, sqlite3BtreeCommit, World.call],
            by simp [Event.isTrans],
            by simp [h1, h2, h3, h4, sqlite3BtreeBeginTrans, sqlite3_mutex_enter,
              sqlite3_mutex_leave, sqlite3BtreeCommit, World.call]⟩
      · exact ⟨[Event.mutex_enter (w.tabs tab).src.db,
          Event.beginTrans (w.tabs tab).src.db 0 (env.rc w.tick),
          Event.mutex_leave (w.tabs tab).src.db],
          by simp [h1, h2, h3, sqlite3BtreeBeginTrans, sqlite3_mutex_enter,
            sqlite3_mutex_leave, World.call],
          by simp [Event.isTrans],
          by simp [h1, h2, h3, sqlite3BtreeBeginTrans, sqlite3_mutex_enter,
            sqlite3_mutex_leave, World.call]⟩
    · exact ⟨[], by simp [h1, h2], by simp, by simp [h1, h2]⟩
  · exact ⟨[], by simp [h1], by simp, by simp [h1]⟩

theorem finishEvents_trans (S D : Db) (c0 : Int) (b : Bool) (c1 c2 : Int) :
    ∀ e ∈ finishEvents S D c0 b c1 c2, Event.isCopyRun e = true := by
  intro e he
  simp only [finishEvents, List.mem_append, List.mem_cons, List.mem_singleton,
    List.not_mem_nil, or_false] at he
  rcases he with (rfl | rfl | rfl) | h
  · rfl
  · rfl
  · rfl
  · cases b
    · simp at h; subst h; rfl
    · by_cases hc1 : c1 = 0
      · simp [hc1] at h; subst h; rfl
      · simp [hc1] at h
        rcases h with rfl | rfl <;> rfl

theorem beginTransEvents_trans (w : World) (tab : Nat) :
    ∀ e ∈ beginTransEvents w tab, Event.isCopyRun e = true := by
  intro e he
  simp [beginTransEvents] at he
  rcases he with rfl | rfl | rfl | rfl <;> rfl

/-- Every call of `md_cprels` on a list returns; it logs its entry and then only
copy-phase events; it returns `SQLITE_OK` only after a successful commit of the
destination. -/
theorem md_cprels_total (env : Engine) (fuel : Nat) (w : World) (tablist : Nat) (L : List Nat)
    (hL : IsList w.tabs tablist L) (hlen : L.length < fuel)
    (hrows : ∀ a ∈ L, (srcRows env w a).length < fuel) :
    ∃ rc w' evs, md_cprels env fuel w tablist = some (rc, w') ∧ w'.log = w.log ++ evs ∧
      (∀ e ∈ evs, Event.isCopyRun e = true) ∧
      (∀ x, (w'.tabs x).shape = (w.tabs x).shape) ∧
      Event.md_cprels tablist ∈ evs ∧
      (rc = SQLITE_OK → Event.commit (w.tabs tablist).dest.db SQLITE_OK ∈ evs) := by
  by_cases hb : (md_beginTrans env w tablist).1 = SQLITE_OK
  · obtain ⟨rcl, evs, c0, c1, c2, w', hrun, hlog, hp, _, hshape, _⟩ :=
      md_cprels_run env fuel w tablist L hL hb hlen hrows
    refine ⟨_, w', _, hrun, by rw [hlog, List.append_assoc, List.append_assoc], ?_, hshape,
      by simp, ?_⟩
    · intro e he
      simp only [List.mem_append, List.mem_cons] at he
      rcases he with (rfl | h) | h | h
      · rfl
      · exact beginTransEvents_trans w tablist e h
      · simp [Event.isCopyRun, hp e h]
      · exact finishEvents_trans _ _ _ _ _ _ e h
    · intro hrc
      by_cases hc : rcl = 0
      · simp [hc] at hrc
        simp [finishEvents, hc, hrc]
      · simp [hc] at hrc
  · have hb0 : (md_beginTrans env (w.emit (Event.md_cprels tablist)) tablist).1 ≠ SQLITE_OK := by
      rw [md_beginTrans_emit]; exact hb
    obtain ⟨evs, hlog, hp, ht⟩ := md_beginTrans_step env (w.emit (Event.md_cprels tablist)) tablist
    refine ⟨(md_beginTrans env (w.emit (Event.md_cprels tablist)) tablist).1,
      (md_beginTrans env (w.emit (Event.md_cprels tablist)) tablist).2,
      Event.md_cprels tablist :: evs,
      by unfold md_cprels; simp only [ne_eq, hb0, not_false_eq_true, if_true], ?_, ?_, ?_,
      by simp, fun h => absurd h hb0⟩
    · rw [hlog]; simp [World.emit]
    · intro e he
      rcases List.mem_cons.mp he with h | h
      · subst h; rfl
      · simp [Event.isCopyRun, hp e h]
    · intro x; rw [ht]; rfl

theorem DefTrace.okRets {rc : Int} {tail evs : List Event} (h : DefTrace rc tail evs)
    (hrc : rc = SQLITE_OK) : ∀ r ∈ crets evs, r.2 = SQLITE_OK := by
  rcases h.2 with hok | ⟨hne, _⟩
  · exact hok
  · exact absurd hrc hne

/-- A run that ends in cleanup after a failed definition pass. -/
theorem MergeOutcome.of_failed_defs (rc : Int) (pre evsD post : List Event)
    (hpre : ∀ x ∈ pre, Event.isSetup x = true) (hpre0 : ∀ r ∈ crets pre, r.2 = SQLITE_OK)
    (htrace : DefTrace rc [Event.finalize Db.srcdb] evsD) (hrc : rc ≠ SQLITE_OK)
    (hpost : ∀ x ∈ post, Event.isCleanup x = true) :
    MergeOutcome rc (pre ++ evsD ++ post) := by
  obtain ⟨hall, hcases⟩ := htrace
  rcases hcases with hok | ⟨_, p, t, hevs, hp⟩
  · right
    refine ⟨?_, fun h => absurd h hrc⟩
    intro r hr
    rw [crets_append, crets_append, crets_cleanup _ hpost, List.append_nil] at hr
    rcases List.mem_append.mp hr with h | h
    · exact hpre0 r h
    · exact hok r h
  · left
    refine ⟨hrc, pre ++ p, t, Event.finalize Db.srcdb :: post, by rw [hevs]; simp, ?_, ?_, ?_⟩
    · intro r hr
      rw [crets_append] at hr
      rcases List.mem_append.mp hr with h | h
      · exact hpre0 r h
      · exact hp r h
    · intro x hx
      rcases List.mem_append.mp hx with h | h
      · exact hpre x h
      · exact Event.isDefLevel_setup x (hall x (by rw [hevs]; exact List.mem_append_left _ h))
    · intro x hx
      rcases List.mem_cons.mp hx with h | h
      · subst h; rfl
      · exact hpost x h

theorem not_mem_of_setup_cleanup (evs : List Event)
    (h : ∀ x ∈ evs, Event.isSetup x = true ∨ Event.isCleanup x = true) (t : Nat) :
    Event.md_cprels t ∉ evs := by
  intro hmem
  rcases h _ hmem with h | h
  · simp [Event.isSetup, Event.isDefLevel, Event.isStmt] at h
  · simp [Event.isCleanup] at h

theorem descOf_mem_rows (w : World) (new : List Nat) (rows : List CatRow)
    (f : CatRow → String × String × Db × Int × Db)
    (h : new.map (descOf w) = (rows.take new.length).map f) :
    ∀ a ∈ new, ∃ r ∈ rows, descOf w a = f r := by
  intro a ha
  have : descOf w a ∈ (rows.take new.length).map f := by
    rw [← h]; exact List.mem_map_of_mem _ ha
  obtain ⟨r, hr, hfr⟩ := List.mem_map.mp this
  exact ⟨r, List.mem_of_mem_take hr, hfr.symm⟩

/-- Every run of `md_mergedbs` returns when the fuel exceeds the number of
catalog rows and the number of rows of every scanned relation, and it is of one
of the two kinds of `MergeOutcome`. -/
theorem md_mergedbs_run (env : Engine) (fuel : Nat) (w : World) (errstr : Bool)
    (hscan : (env.scan "table").1.length + (env.scan "index").1.length < fuel)
    (hrows : ∀ r ∈ (env.scan "table").1 ++ (env.scan "index").1,
      (env.rows Db.srcdb r.rootpage).length < fuel) :
    ∃ rc w' evs, md_mergedbs env fuel w errstr = some (rc, w') ∧ w'.log = w.log ++ evs ∧
      MergeOutcome rc evs := by
  unfold md_mergedbs
  have hf0 : 0 < fuel := by omega
  have hquiet : ∀ (rc : Int) (evs : List Event), rc ≠ SQLITE_OK → crets evs = [] →
      MergeOutcome rc evs := by
    intro rc evs hrc hc
    exact Or.inr ⟨by rw [hc]; simp, fun h => absurd h hrc⟩
  by_cases o1 : env.rc w.tick = 0
  · have ho1 : (sqlite3_open_v2 env w Db.srcdb).1 = 0 := o1
    by_cases o2 : env.rc (w.tick + 1) = 0
    · have ho2 : (sqlite3_open_v2 env (sqlite3_open_v2 env w Db.srcdb).2 Db.destdb).1 = 0 := o2
      have hlog2 : (sqlite3_open_v2 env (sqlite3_open_v2 env w Db.srcdb).2 Db.destdb).2.log =
          w.log ++ [Event.open_v2 Db.srcdb 0, Event.open_v2 Db.destdb 0] := by
        simp [sqlite3_open_v2, World.call, o1, o2]
      have hopens : ∀ x ∈ [Event.open_v2 Db.srcdb 0, Event.open_v2 Db.destdb 0],
          Event.isSetup x = true := by
        intro x hx; simp at hx; rcases hx with rfl | rfl <;> rfl
      have hopens0 : ∀ r ∈ crets [Event.open_v2 Db.srcdb 0, Event.open_v2 Db.destdb 0],
          r.2 = SQLITE_OK := by simp [crets, cretOf]
      obtain ⟨rcT, wT, tlT, evsT, newT, hT, hlogT, hinvT, _, hnewT, htraceT, hlenT, _⟩ :=
        md_cpdefs_run env fuel (sqlite3_open_v2 env (sqlite3_open_v2 env w Db.srcdb).2 Db.destdb).2
          Db.srcdb Db.destdb "table" 0 [] ⟨rfl, by simp, by simp⟩ (by simp; omega)
      rw [List.nil_append] at hinvT
      have hnewTlen : newT.length ≤ (env.scan "table").1.length := by
        have := congrArg List.length hnewT
        simp at this
        omega
      simp only [ho1, ho2, ne_eq, not_true_eq_false, if_false, hT]
      by_cases cT : rcT = 0
      · obtain ⟨rcI, wI, tlI, evsI, newI, hI, hlogI, hinvI, hdescI, hnewI, htraceI, hlenI, _⟩ :=
          md_cpdefs_run env fuel wT Db.srcdb Db.destdb "index" tlT newT hinvT (by omega)
        have hnewIlen : newI.length ≤ (env.scan "index").1.length := by
          have := congrArg List.length hnewI
          simp at this
          omega
        have hlistlen : (newT ++ newI).length < fuel := by simp; omega
        have hsetupTI : ∀ x ∈ [Event.open_v2 Db.srcdb 0, Event.open_v2 Db.destdb 0] ++ evsT ++ evsI,
            Event.isSetup x = true := by
          intro x hx
          rcases List.mem_append.mp hx with h | h
          · rcases List.mem_append.mp h with h | h
            · exact hopens x h
            · exact Event.isDefLevel_setup x (htraceT.1 x h)
          · exact Event.isDefLevel_setup x (htraceI.1 x h)
        simp only [cT, not_true_eq_false, if_false, hI]
        by_cases cI : rcI = 0
        · have hcretsTI : ∀ r ∈ crets ([Event.open_v2 Db.srcdb 0, Event.open_v2 Db.destdb 0] ++
              evsT ++ evsI), r.2 = SQLITE_OK := by
            intro r hr
            rw [crets_append, crets_append] at hr
            rcases List.mem_append.mp hr with h | h
            · rcases List.mem_append.mp h with h | h
              · exact hopens0 r h
              · exact htraceT.okRets cT r h
            · exact htraceI.okRets cI r h
          simp only [cI, not_true_eq_false, if_false]
          by_cases he : tlI = 0
          · obtain ⟨w', evsC, hC, hlogC, hcl⟩ := mergeCleanup_run fuel wI 0 errstr
              (some Db.srcdb) (some Db.destdb) tlI (newT ++ newI) hinvI.list hlistlen
            simp only [he, not_true_eq_false, if_false]
            rw [he] at hC
            refine ⟨0, w', ([Event.open_v2 Db.srcdb 0, Event.open_v2 Db.destdb 0] ++ evsT ++ evsI)
              ++ evsC, hC, by rw [hlogC, hlogI, hlogT, hlog2]; simp, Or.inr ⟨?_, fun _ => Or.inl ?_⟩⟩
            · intro r hr
              rw [crets_append, crets_cleanup _ hcl, List.append_nil] at hr
              exact hcretsTI r hr
            · intro t
              apply not_mem_of_setup_cleanup
              intro x hx
              rcases List.mem_append.mp hx with h | h
              · exact Or.inl (hsetupTI x h)
              · exact Or.inr (hcl x h)
          · have hdescAll : ∀ a ∈ newT ++ newI, ∃ rt r,
                r ∈ (env.scan "table").1 ++ (env.scan "index").1 ∧
                descOf wI a = descOfRow Db.srcdb Db.destdb rt r := by
              intro a ha
              rcases List.mem_append.mp ha with h | h
              · obtain ⟨r, hr, hd⟩ := descOf_mem_rows wT newT _ _ hnewT a h
                exact ⟨"table", r, List.mem_append_left _ hr, by rw [hdescI a h, hd]⟩
              · obtain ⟨r, hr, hd⟩ := descOf_mem_rows wI newI _ _ hnewI a h
                exact ⟨"index", r, List.mem_append_right _ hr, hd⟩
            have hrowsI : ∀ a ∈ newT ++ newI, (srcRows env wI a).length < fuel := by
              intro a ha
              obtain ⟨rt, r, hr, hd⟩ := hdescAll a ha
              simp only [descOf, descOfRow, Prod.mk.injEq] at hd
              unfold srcRows
              rw [hd.2.2.1, hd.2.2.2.1]
              exact hrows r hr
            have hheadmem : tlI ∈ newT ++ newI := by
              have hl := hinvI.list
              cases hLL : newT ++ newI with
              | nil =>
                rw [hLL] at hl
                exact absurd hl he
              | cons a rest =>
                rw [hLL] at hl
                rw [hl.1]; exact List.mem_cons_self _ _
            have hdest : (wI.tabs tlI).dest.db = Db.destdb := by
              obtain ⟨rt, r, _, hd⟩ := hdescAll tlI hheadmem
              simp only [descOf, descOfRow, Prod.mk.injEq] at hd
              exact hd.2.2.2.2
            obtain ⟨rcC, wC, evsC, hC, hlogC, hcopy, hshape, hentry, hcommit⟩ :=
              md_cprels_total env fuel wI tlI (newT ++ newI) hinvI.list hlistlen hrowsI
            obtain ⟨w', evsF, hF, hlogF, hcl⟩ := mergeCleanup_run fuel wC rcC errstr
              (some Db.srcdb) (some Db.destdb) tlI (newT ++ newI)
              (IsList.congr (fun x => shape_next (hshape x)) _ _ hinvI.list) hlistlen
            simp only [he, not_false_eq_true, if_true, hC]
            refine ⟨rcC, w', ([Event.open_v2 Db.srcdb 0, Event.open_v2 Db.destdb 0] ++ evsT ++
              evsI) ++ evsC ++ evsF, hF, by rw [hlogF, hlogC, hlogI, hlogT, hlog2]; simp,
              Or.inr ⟨?_, fun hrc => Or.inr ?_⟩⟩
            · intro r hr
              rw [crets_append, crets_append, crets_cleanup _ hcl, crets_copyRun _ hcopy,
                List.append_nil, List.append_nil] at hr
              exact hcretsTI r hr
            · rw [hdest] at hcommit
              exact List.mem_append_left _ (List.mem_append_right _ (hcommit hrc))
        · obtain ⟨w', evsC, hC, hlogC, hcl⟩ := mergeCleanup_run fuel wI rcI errstr
            (some Db.srcdb) (some Db.destdb) tlI (newT ++ newI) hinvI.list hlistlen
          simp only [cI, not_false_eq_true, if_true]
          refine ⟨rcI, w', ([Event.open_v2 Db.srcdb 0, Event.open_v2 Db.destdb 0] ++ evsT)
            ++ evsI ++ evsC, hC, by rw [hlogC, hlogI, hlogT, hlog2]; simp, ?_⟩
          refine MergeOutcome.of_failed_defs rcI _ evsI evsC ?_ ?_ htraceI cI hcl
          · intro x hx
            rcases List.mem_append.mp hx with h | h
            · exact hopens x h
            · exact Event.isDefLevel_setup x (htraceT.1 x h)
          · intro r hr
            rw [crets_append] at hr
            rcases List.mem_append.mp hr with h | h
            · exact hopens0 r h
            · exact htraceT.okRets cT r h
      · obtain ⟨w', evsC, hC, hlogC, hcl⟩ := mergeCleanup_run fuel wT rcT errstr
          (some Db.srcdb) (some Db.destdb) tlT newT hinvT.list (by omega)
        simp only [cT, not_false_eq_true, if_true]
        refine ⟨rcT, w', [Event.open_v2 Db.srcdb 0, Event.open_v2 Db.destdb 0] ++ evsT ++ evsC,
          hC, by rw [hlogC, hlogT, hlog2]; simp, ?_⟩
        exact MergeOutcome.of_failed_defs rcT _ evsT evsC hopens hopens0 htraceT cT hcl
    · have ho2 : (sqlite3_open_v2 env (sqlite3_open_v2 env w Db.srcdb).2 Db.destdb).1 ≠ 0 := o2
      obtain ⟨w', evsC, hC, hlogC, hcl⟩ := mergeCleanup_run fuel
        (sqlite3_open_v2 env (sqlite3_open_v2 env w Db.srcdb).2 Db.destdb).2
        (sqlite3_open_v2 env (sqlite3_open_v2 env w Db.srcdb).2 Db.destdb).1 errstr
        (some Db.srcdb) (some Db.destdb) 0 [] rfl hf0
      simp only [ho1, ne_eq, not_true_eq_false, if_false, ho2, not_false_eq_true, if_true]
      refine ⟨_, w', [Event.open_v2 Db.srcdb 0, Event.open_v2 Db.destdb (env.rc (w.tick + 1))]
        ++ evsC, hC, ?_, hquiet _ _ ho2 ?_⟩
      · rw [hlogC]; simp [sqlite3_open_v2, World.call, o1]
      · rw [crets_append, crets_cleanup _ hcl]; simp [crets, cretOf]
  · have ho1 : (sqlite3_open_v2 env w Db.srcdb).1 ≠ 0 := o1
    obtain ⟨w', evsC, hC, hlogC, hcl⟩ := mergeCleanup_run fuel (sqlite3_open_v2 env w Db.srcdb).2
      (sqlite3_open_v2 env w Db.srcdb).1 errstr (some Db.srcdb) none 0 [] rfl hf0
    simp only [ne_eq, ho1, not_false_eq_true, if_true]
    refine ⟨_, w', [Event.open_v2 Db.srcdb (env.rc w.tick)] ++ evsC, hC, ?_, hquiet _ _ ho1 ?_⟩
    · rw [hlogC]; simp [sqlite3_open_v2, World.call]
    · rw [crets_append, crets_cleanup _ hcl]; simp [crets, cretOf]

theorem getElem_failed_last {α : Type} (xs : List (α × Int)) (y z : α × Int) (k : Nat)
    (hxs : ∀ r ∈ xs, r.2 = SQLITE_OK) (hk : (xs ++ [y])[k]? = some z) (hz : z.2 ≠ SQLITE_OK) :
    k = xs.length ∧ z = y := by
  by_cases hlt : k < xs.length
  · rw [List.getElem?_append_left hlt] at hk
    have hmem : z ∈ xs := List.getElem?_mem hk
    exact absurd (hxs z hmem) hz
  · have hge : xs.length ≤ k := Nat.le_of_not_lt hlt
    rw [List.getElem?_append_right hge] at hk
    by_cases h0 : k - xs.length = 0
    · rw [h0] at hk
      simp at hk
      exact ⟨by omega, hk.symm⟩
    · have : ([y] : List (α × Int))[k - xs.length]? = none := by
        apply List.getElem?_eq_none
        simp; omega
      rw [this] at hk
      exact absurd hk (by simp)

theorem rets_trans (evs : List Event) (h : ∀ e ∈ evs, Event.isTrans e = true) :
    rets evs = [] := by
  unfold rets
  rw [List.filterMap_eq_nil_iff]
  intro e he
  have := h e he
  cases e <;> first | rfl | (simp [Event.isTrans] at this)

/-- The order of copying: `md_cprels` runs `md_cprows` on the descriptors of the
list in list order, stopping at the first failure; when it returns `SQLITE_OK`
it ran it on all of them.  Either `md_beginTrans` failed, its result is returned
and nothing was copied; or the returns of `md_cprows` are those of a chain of
real runs, one per descriptor, up to the first failure.  When no transaction is
open and the engine grants every request, the result is `SQLITE_OK`. -/
theorem md_cprels_order (env : Engine) (fuel : Nat) (w : World) (tablist : Nat) (L : List Nat)
    (hL : IsList w.tabs tablist L) (hlen : L.length < fuel)
    (hrows : ∀ a ∈ L, (srcRows env w a).length < fuel) :
    ∃ rc w' evs, md_cprels env fuel w tablist = some (rc, w') ∧ w'.log = w.log ++ evs ∧
      (rets evs).map Prod.fst <+: L ∧
      (rc = SQLITE_OK → (rets evs).map Prod.fst = L) ∧
      (((md_beginTrans env w tablist).1 ≠ SQLITE_OK ∧ rc = (md_beginTrans env w tablist).1 ∧
          rets evs = []) ∨
       ((md_beginTrans env w tablist).1 = SQLITE_OK ∧ ∃ rcl wl, CopyRets L rcl (rets evs) ∧
          CopyChain env fuel (md_beginTrans env (w.emit (Event.md_cprels tablist)) tablist).2
            (rets evs) wl ∧
          rc = (if rcl = SQLITE_OK then env.rc (wl.tick + 1) else rcl))) ∧
      ((∀ k, env.rc k = SQLITE_OK) →
        w.inTrans (w.tabs tablist).src.db = TransState.TRANS_NONE →
        w.inTrans (w.tabs tablist).dest.db = TransState.TRANS_NONE →
        rc = SQLITE_OK ∧ rets evs = L.map (fun a => (a, SQLITE_OK))) := by
  by_cases hb : (md_beginTrans env w tablist).1 = SQLITE_OK
  · obtain ⟨rcl, evs, c0, c1, c2, w', hrun, hlog, hp, hcr, _, ⟨wl, hchain, _, _, hc1, _⟩, hall⟩ :=
      md_cprels_run env fuel w tablist L hL hb hlen hrows
    have hrets : rets ((Event.md_cprels tablist :: beginTransEvents w tablist) ++ (evs ++
        finishEvents (w.tabs tablist).src.db (w.tabs tablist).dest.db c0
          (decide (rcl = SQLITE_OK)) c1 c2)) = rets evs := by
      rw [rets_append, rets_append]
      have h1 : rets (Event.md_cprels tablist :: beginTransEvents w tablist) = [] := by
        simp [rets, beginTransEvents, retOf]
      have h3 : rets (finishEvents (w.tabs tablist).src.db (w.tabs tablist).dest.db c0
          (decide (rcl = SQLITE_OK)) c1 c2) = [] := by
        by_cases hc : rcl = 0 <;> by_cases hc1 : c1 = 0 <;>
          simp [rets, finishEvents, retOf, hc, hc1]
      rw [h1, h3]; simp
    refine ⟨_, w', _, hrun, by rw [hlog, List.append_assoc, List.append_assoc], ?_, ?_, ?_, ?_⟩
    · rw [hrets]
      rcases hcr with ⟨_, hrs⟩ | ⟨_, pre, t, post, hLe, hrs⟩
      · rw [hrs]; simp [Function.comp_def]
      · rw [hrs, hLe]
        simp [Function.comp_def]
    · intro hrc
      rw [hrets]
      rcases hcr with ⟨_, hrs⟩ | ⟨hne, _⟩
      · rw [hrs]; simp [Function.comp_def]
      · simp [hne] at hrc
    · right
      rw [hrets]
      exact ⟨hb, rcl, wl, hcr, hchain, by rw [hc1]⟩
    · intro hok _ _
      refine ⟨by rw [if_pos (hall hok), hc1]; exact hok _, ?_⟩
      rw [hrets]
      rcases hcr with ⟨_, hrs⟩ | ⟨hne, _⟩
      · exact hrs
      · exact absurd (hall hok) hne
  · have hb0 : (md_beginTrans env (w.emit (Event.md_cprels tablist)) tablist).1 ≠ SQLITE_OK := by
      rw [md_beginTrans_emit]; exact hb
    obtain ⟨evs, hlog, hp, _⟩ := md_beginTrans_step env (w.emit (Event.md_cprels tablist)) tablist
    have hr : rets (Event.md_cprels tablist :: evs) = [] := by
      apply rets_trans
      intro e he
      rcases List.mem_cons.mp he with h | h
      · subst h; rfl
      · exact hp e h
    refine ⟨(md_beginTrans env (w.emit (Event.md_cprels tablist)) tablist).1,
      (md_beginTrans env (w.emit (Event.md_cprels tablist)) tablist).2,
      Event.md_cprels tablist :: evs,
      by unfold md_cprels; simp only [ne_eq, hb0, not_false_eq_true, if_true], ?_, ?_,
      fun h => absurd h hb0, ?_, ?_⟩
    · rw [hlog]; simp [World.emit]
    · rw [hr]; simp
    · left
      exact ⟨hb, md_beginTrans_emit env w tablist _, hr⟩
    · intro hok hS hD
      exact absurd (md_beginTrans_granted env w tablist hS hD (hok _) (hok _)) hb

/-- C7: concurrent transactions fail fast.  If the source or the destination
B-tree already has a transaction, `md_beginTrans` returns `SQLITE_ERROR` and
leaves the world as it was (no mutex entered, no transaction begun); and
`md_cprels` returns that code having logged nothing but its own entry: no
cursor opened, no row inserted, no commit or rollback attempted, the
transaction and lock state of both contexts as they were. -/
theorem md_cprels_fails_fast (env : Engine) (fuel : Nat) (w : World) (tablist : Nat)
    (h : w.inTrans (w.tabs tablist).src.db ≠ TransState.TRANS_NONE ∨
         w.inTrans (w.tabs tablist).dest.db ≠ TransState.TRANS_NONE) :
    md_beginTrans env w tablist = (SQLITE_ERROR, w) ∧
    ∃ w', md_cprels env fuel w tablist = some (SQLITE_ERROR, w') ∧
      w'.log = w.log ++ [Event.md_cprels tablist] ∧
      w'.tick = w.tick ∧ w'.inTrans = w.inTrans ∧ w'.mutex = w.mutex ∧
      w'.content = w.content ∧ w'.curs = w.curs ∧ w'.tabs = w.tabs := by
  refine ⟨md_beginTrans_busy env w tablist h, w.emit (Event.md_cprels tablist), ?_, rfl, rfl, rfl, rfl, rfl, rfl, rfl⟩
  unfold md_cprels
  have hb := md_beginTrans_busy env (w.emit (Event.md_cprels tablist)) tablist h
  simp [hb]

/-- C2: atomicity of the copy phase.  For a non-empty descriptor list `L` on
which `md_beginTrans` succeeds, `md_cprels` returns and (a) a commit of the
destination is attempted exactly when `md_cprows` was run on every descriptor
of `L`, in order, and returned `SQLITE_OK` each time; (b) if the `k`-th call of
`md_cprows` returns a non-OK code `e`, it was made on the `k`-th descriptor, no
further `md_cprows` call follows, a rollback of the destination is attempted,
no commit of the destination is attempted, and `md_cprels` returns `e`;
(c) one of the two happens: either `md_cprows` returned `SQLITE_OK` on every
descriptor of `L`, in order, the destination commit is attempted (followed by a
rollback only when it fails) and its result is the result of `md_cprels`; or
`md_cprows` returned `SQLITE_OK` on the descriptors before some `t` of `L` and
a non-OK code `e` on `t`, nothing after `t` was tried, the only attempt on the
destination is a rollback, and `md_cprels` returns `e`; (d) the recorded
returns are those of real runs of `md_cprows`, each started in the world the
previous one left, the first in the world `md_beginTrans` left, and the final
world is the one `md_endTrans` leaves after the last of them, called with
`commit = 1` exactly when all succeeded; (e) on an engine that grants every
request, all descriptors are copied, the destination is committed and the
result is `SQLITE_OK`.  The source and the destination are two contexts
(`hdb`), as in every descriptor that `md_mergedbs` builds. -/
theorem md_cprels_atomic (env : Engine) (fuel : Nat) (w : World) (tablist : Nat) (L : List Nat)
    (hL : IsList w.tabs tablist L) (_hne : L ≠ [])
    (hdb : (w.tabs tablist).src.db ≠ (w.tabs tablist).dest.db)
    (hbegin : (md_beginTrans env w tablist).1 = SQLITE_OK)
    (hlen : L.length < fuel)
    (hrows : ∀ a ∈ L, (srcRows env w a).length < fuel) :
    ∃ rc w' evs, md_cprels env fuel w tablist = some (rc, w') ∧ w'.log = w.log ++ evs ∧
      ((∃ c, Event.commit (w.tabs tablist).dest.db c ∈ evs) ↔
        rets evs = L.map (fun a => (a, SQLITE_OK))) ∧
      (∀ k t e, (rets evs)[k]? = some (t, e) → e ≠ SQLITE_OK →
        L[k]? = some t ∧ (rets evs).length = k + 1 ∧
        (∃ c, Event.rollback (w.tabs tablist).dest.db c ∈ evs) ∧
        (∀ c, Event.commit (w.tabs tablist).dest.db c ∉ evs) ∧ rc = e) ∧
      ((rets evs = L.map (fun a => (a, SQLITE_OK)) ∧
          ∃ c2, finals (w.tabs tablist).dest.db evs =
            Event.commit (w.tabs tablist).dest.db rc ::
              (if rc ≠ SQLITE_OK then [Event.rollback (w.tabs tablist).dest.db c2] else [])) ∨
       (∃ pre t post e, L = pre ++ t :: post ∧ e ≠ SQLITE_OK ∧
          rets evs = pre.map (fun a => (a, SQLITE_OK)) ++ [(t, e)] ∧ rc = e ∧
          ∃ c, finals (w.tabs tablist).dest.db evs =
            [Event.rollback (w.tabs tablist).dest.db c])) ∧
      (∃ wl, CopyChain env fuel
          (md_beginTrans env (w.emit (Event.md_cprels tablist)) tablist).2 (rets evs) wl ∧
        w' = (md_endTrans env wl tablist
          (if rets evs = L.map (fun a => (a, SQLITE_OK)) then 1 else 0)).2) ∧
      ((∀ k, env.rc k = SQLITE_OK) →
        rc = SQLITE_OK ∧ rets evs = L.map (fun a => (a, SQLITE_OK)) ∧
        finals (w.tabs tablist).dest.db evs =
          [Event.commit (w.tabs tablist).dest.db SQLITE_OK]) := by
  obtain ⟨rcl, evs, c0, c1, c2, w', hrun, hlog, hp, hcr, _, ⟨wl, hchain, hw', _, hc1, _⟩,
      hall⟩ := md_cprels_run env fuel w tablist L hL hbegin hlen hrows
  have hfin := finals_run _ _ hdb w tablist evs hp c0 c1 c2 (decide (rcl = SQLITE_OK))
  have hrets : rets ((Event.md_cprels tablist :: beginTransEvents w tablist) ++ evs ++
      finishEvents (w.tabs tablist).src.db (w.tabs tablist).dest.db c0
        (decide (rcl = SQLITE_OK)) c1 c2) = rets evs := by
    rw [rets_append, rets_append]
    have h1 : rets (Event.md_cprels tablist :: beginTransEvents w tablist) = [] := by
      simp [rets, beginTransEvents, retOf]
    have h3 : rets (finishEvents (w.tabs tablist).src.db (w.tabs tablist).dest.db c0
        (decide (rcl = SQLITE_OK)) c1 c2) = [] := by
      by_cases hc : rcl = 0 <;> by_cases hc1 : c1 = 0 <;>
        simp [rets, finishEvents, retOf, hc, hc1]
    rw [h1, h3]; simp
  have hiff : rets evs = L.map (fun a => (a, SQLITE_OK)) ↔ rcl = SQLITE_OK := by
    constructor
    · intro hrs
      rcases hcr with ⟨h0, _⟩ | ⟨hne', pre, t, post, _, hrs2⟩
      · exact h0
      · exfalso
        rw [hrs2] at hrs
        have hmem : (t, rcl) ∈ L.map (fun a => (a, SQLITE_OK)) := by
          rw [← hrs]; simp
        rw [List.mem_map] at hmem
        obtain ⟨a, _, ha⟩ := hmem
        exact hne' (congrArg Prod.snd ha).symm
    · intro h0
      rcases hcr with ⟨_, hrs⟩ | ⟨hne', _⟩
      · exact hrs
      · exact absurd h0 hne'
  refine ⟨_, w', (Event.md_cprels tablist :: beginTransEvents w tablist) ++ evs ++
      finishEvents (w.tabs tablist).src.db (w.tabs tablist).dest.db c0
        (decide (rcl = SQLITE_OK)) c1 c2, hrun,
    by rw [hlog]; simp only [List.append_assoc], ?_, ?_, ?_, ?_, ?_⟩
  · rw [hrets]
    constructor
    · rintro ⟨c, hc⟩
      have hmem : Event.commit (w.tabs tablist).dest.db c ∈ finals (w.tabs tablist).dest.db
          ((Event.md_cprels tablist :: beginTransEvents w tablist) ++ evs ++
            finishEvents (w.tabs tablist).src.db (w.tabs tablist).dest.db c0
              (decide (rcl = SQLITE_OK)) c1 c2) :=
        (mem_finals _ _ _).mpr ⟨hc, by simp [Event.isFinal]⟩
      rw [hfin] at hmem
      rcases hcr with ⟨_, hrs⟩ | ⟨hne', _⟩
      · exact hrs
      · simp [hne'] at hmem
    · intro hrs
      have h0 := hiff.mp hrs
      refine ⟨c1, ?_⟩
      have : Event.commit (w.tabs tablist).dest.db c1 ∈ finals (w.tabs tablist).dest.db
          ((Event.md_cprels tablist :: beginTransEvents w tablist) ++ evs ++
            finishEvents (w.tabs tablist).src.db (w.tabs tablist).dest.db c0
              (decide (rcl = SQLITE_OK)) c1 c2) := by
        rw [hfin]; simp [h0]
      exact ((mem_finals _ _ _).mp this).1
  · intro k t e hk he
    rw [hrets] at hk ⊢
    rcases hcr with ⟨_, hrs⟩ | ⟨hne', pre, t', post, hLe, hrs⟩
    · exfalso
      rw [hrs, List.getElem?_map] at hk
      cases hLk : L[k]? with
      | none => simp [hLk] at hk
      | some a =>
        simp [hLk] at hk
        exact he hk.2.symm
    · have hklen : k = pre.length := by
        rw [hrs] at hk
        by_cases hlt : k < pre.length
        · rw [List.getElem?_append_left (by simpa using hlt)] at hk
          rw [List.getElem?_map] at hk
          cases hpk : pre[k]? with
          | none => simp [hpk] at hk
          | some a =>
            simp [hpk] at hk
            exact absurd hk.2.symm he
        · have hge : pre.length ≤ k := Nat.le_of_not_lt hlt
          by_contra hneq
          have hgt : pre.length < k := lt_of_le_of_ne hge (Ne.symm hneq)
          have : ((pre.map (fun a => (a, SQLITE_OK))) ++ [(t', rcl)])[k]? = none := by
            apply List.getElem?_eq_none
            simp; omega
          rw [this] at hk
          exact absurd hk (by simp)
      subst hklen
      have hval : (t', rcl) = (t, e) := by
        rw [hrs] at hk
        rw [List.getElem?_append_right (by simp)] at hk
        simpa using hk
      have ht : t' = t := congrArg Prod.fst hval
      have hre : rcl = e := congrArg Prod.snd hval
      subst ht hre
      refine ⟨by rw [hLe, List.getElem?_append_right (le_refl _)]; simp, by rw [hrs]; simp, ?_, ?_,
        by simp [hne']⟩
      · refine ⟨c1, ?_⟩
        have : Event.rollback (w.tabs tablist).dest.db c1 ∈ finals (w.tabs tablist).dest.db
            ((Event.md_cprels tablist :: beginTransEvents w tablist) ++ evs ++
              finishEvents (w.tabs tablist).src.db (w.tabs tablist).dest.db c0
                (decide (rcl = SQLITE_OK)) c1 c2) := by
          rw [hfin]; simp [hne']
        exact ((mem_finals _ _ _).mp this).1
      · intro c hc
        have hmem : Event.commit (w.tabs tablist).dest.db c ∈ finals (w.tabs tablist).dest.db
            ((Event.md_cprels tablist :: beginTransEvents w tablist) ++ evs ++
              finishEvents (w.tabs tablist).src.db (w.tabs tablist).dest.db c0
                (decide (rcl = SQLITE_OK)) c1 c2) :=
          (mem_finals _ _ _).mpr ⟨hc, by simp [Event.isFinal]⟩
        rw [hfin] at hmem
        simp [hne'] at hmem
  · rw [hrets, hfin]
    rcases hcr with ⟨h0, hrs⟩ | ⟨hne', pre, t, post, hLe, hrs⟩
    · left
      refine ⟨hrs, c2, ?_⟩
      simp [h0]
    · right
      refine ⟨pre, t, post, rcl, hLe, hne', hrs, by simp [hne'], c1, ?_⟩
      simp [hne']
  · rw [hrets]
    refine ⟨wl, hchain, ?_⟩
    rw [hw']
    by_cases h : rcl = SQLITE_OK
    · rw [if_pos h, if_pos (hiff.mpr h)]
    · rw [if_neg h, if_neg (fun x => h (hiff.mp x))]
  · intro hok
    have h0 : rcl = SQLITE_OK := hall hok
    have h1 : c1 = SQLITE_OK := by rw [hc1]; exact hok _
    refine ⟨by rw [if_pos h0]; exact h1, by rw [hrets]; exact hiff.mpr h0, ?_⟩
    rw [hfin]
    simp [h0, h1]

/-- C5 (counterexample): `md_beginTrans` succeeds, the copy succeeds, the
destination commit fails with code 5: both a commit and a rollback of the
destination are attempted. -/
theorem md_cprels_commit_then_rollback : (md_beginTrans commitFails oneTabWorld 1).1 = SQLITE_OK ∧
    (md_cprels commitFails 2 oneTabWorld 1).map (fun r => (r.1, finals Db.destdb r.2.log)) =
      some (5, [Event.commit Db.destdb 5, Event.rollback Db.destdb SQLITE_OK]) := by
  decide

/-- C5 (amended): in every run of `md_cprels` in which `md_beginTrans`
succeeded, the commit and rollback attempts on the destination B-tree are
exactly one of: one commit, which succeeds; one rollback and no commit; one
commit, which fails, followed by one rollback.  The source and the destination
are two contexts (`hdb`), as in every descriptor that `md_mergedbs` builds. -/
theorem md_cprels_finalises (env : Engine) (fuel : Nat) (w : World) (tablist : Nat) (L : List Nat)
    (hL : IsList w.tabs tablist L) (_hne : L ≠ [])
    (hdb : (w.tabs tablist).src.db ≠ (w.tabs tablist).dest.db)
    (hbegin : (md_beginTrans env w tablist).1 = SQLITE_OK)
    (hlen : L.length < fuel)
    (hrows : ∀ a ∈ L, (srcRows env w a).length < fuel) :
    ∃ rc w' evs, md_cprels env fuel w tablist = some (rc, w') ∧ w'.log = w.log ++ evs ∧
      (finals (w.tabs tablist).dest.db evs = [Event.commit (w.tabs tablist).dest.db SQLITE_OK] ∨
       (∃ r, finals (w.tabs tablist).dest.db evs = [Event.rollback (w.tabs tablist).dest.db r]) ∨
       (∃ c r, c ≠ SQLITE_OK ∧ finals (w.tabs tablist).dest.db evs =
          [Event.commit (w.tabs tablist).dest.db c, Event.rollback (w.tabs tablist).dest.db r])) := by
  obtain ⟨rcl, evs, c0, c1, c2, w', hrun, hlog, hp, _, _⟩ :=
    md_cprels_run env fuel w tablist L hL hbegin hlen hrows
  have hfin := finals_run _ _ hdb w tablist evs hp c0 c1 c2 (decide (rcl = SQLITE_OK))
  refine ⟨_, w', _, hrun, by rw [hlog, List.append_assoc, List.append_assoc], ?_⟩
  rw [← List.append_assoc, hfin]
  by_cases h : rcl = 0
  · by_cases h1 : c1 = 0
    · left; simp [h, h1]
    · right; right; exact ⟨c1, c2, h1, by simp [h, h1]⟩
  · right; left; exact ⟨c1, by simp [h]⟩

/-- C1: row copy preserves content and order.  Let `r1..rn` be the rows the
read cursor of the source relation of descriptor `tab` yields.  If opening both
cursors and every cursor operation succeed, `md_cprows` returns `SQLITE_OK`;
what it did is exactly `copyEvents`, in which the source cursor is opened with
key info `srcKeyInfo`; the insertions it performed are exactly `n`, all on the
destination cursor, the `i`-th carrying `md_fillPayload` of `ri` (index shape
exactly when the source cursor has key info); and the destination relation holds its former entries followed by
those `n` payloads, hence exactly those when it was empty.  The two shapes of
`md_fillPayload` are spelled out in the last two conjuncts. -/
theorem md_cprows_copies (env : Engine) (fuel : Nat) (w : World) (tab : Nat)
    (hok : ∀ k, w.tick ≤ k → k < w.tick + 3 + 3 * (srcRows env w tab).length →
      env.rc k = SQLITE_OK)
    (hfuel : (srcRows env w tab).length < fuel) :
    ∃ w', md_cprows env fuel w tab = some (SQLITE_OK, w') ∧
      w'.log = w.log ++ copyEvents env w tab ∧
      inserts (copyEvents env w tab) = (srcRows env w tab).map (fun r =>
        (w.brk + 2, md_fillPayload r (decide (srcKeyInfo env w tab ≠ 0)), SQLITE_OK)) ∧
      w'.content (w.tabs tab).dest.db (w.tabs tab).dest.rootpage =
        w.content (w.tabs tab).dest.db (w.tabs tab).dest.rootpage ++
          (srcRows env w tab).map (fun r =>
            md_fillPayload r (decide (srcKeyInfo env w tab ≠ 0))) ∧
      (w.content (w.tabs tab).dest.db (w.tabs tab).dest.rootpage = [] →
        w'.content (w.tabs tab).dest.db (w.tabs tab).dest.rootpage =
          (srcRows env w tab).map (fun r =>
            md_fillPayload r (decide (srcKeyInfo env w tab ≠ 0)))) ∧
      (∀ r, md_fillPayload r true = ⟨some r.pPayload, r.nPayload, none, 0⟩) ∧
      (∀ r, md_fillPayload r false = ⟨none, r.nKey, some r.pPayload, r.nPayload⟩) := by
  have h0 : env.rc w.tick = SQLITE_OK := hok _ (le_refl _) (by omega)
  have h1 : env.rc (w.tick + 1) = SQLITE_OK := hok _ (by omega) (by omega)
  have h2 : env.rc (w.tick + 2) = SQLITE_OK := hok _ (by omega) (by omega)
  have c0 := md_openCursors_rc env w tab h0 h1
  obtain ⟨_, _, osrc, odest, ocs, ocd, otick, ocont, _, olog⟩ := md_openCursors_ok env w tab c0
  have hne : w.brk + 2 ≠ w.brk + 1 := by omega
  obtain ⟨f1, flog, ftick, frest, fki, fdest, fcont, ftabs⟩ :=
    sqlite3BtreeFirst_ok env (md_openCursors env w tab).2 (w.brk + 1) (w.brk + 2) hne
      (by rw [otick]; exact h2)
  rw [ocs] at frest fki
  rw [ocd] at fdest
  obtain ⟨w3, hloop, llog, lcont, ltabs⟩ :=
    cprowsLoop_ok env (w.brk + 1) (w.brk + 2) (by omega) (srcRows env w tab) fuel
      (sqlite3BtreeFirst env (md_openCursors env w tab).2 (w.brk + 1)).2 frest hfuel
      (by intro k hk1 hk2; rw [ftick, otick] at hk1 hk2; exact hok k (by omega) (by omega))
  rw [fki] at llog lcont
  rw [fdest, fcont, ocont] at lcont
  simp only at llog lcont
  have hbody : cprowsBody env fuel w tab = some (SQLITE_OK, w3) := by
    unfold cprowsBody
    simp only [c0, ne_eq, not_true_eq_false, if_false, osrc, odest, f1, hloop]
  have hclose := md_closeCursors_log w3 tab (w.brk + 1) (w.brk + 2)
    (by rw [ltabs, ftabs, osrc]) (by rw [ltabs, ftabs, odest]) (by omega) (by omega)
  refine ⟨(md_closeCursors w3 tab).emit (Event.md_cprows tab SQLITE_OK), ?_, ?_, ?_, ?_,
    ?_, fun _ => rfl, fun _ => rfl⟩
  · unfold md_cprows
    rw [hbody]
  · show (md_closeCursors w3 tab).log ++ [Event.md_cprows tab SQLITE_OK] = _
    rw [hclose, llog, flog, olog]
    simp [copyEvents, srcKeyInfo, destKeyInfo]
  · have := inserts_moveEvents (w.brk + 1) (w.brk + 2)
      (decide (srcKeyInfo env w tab ≠ 0)) (srcRows env w tab)
    simp only [inserts] at this
    simp only [inserts, copyEvents, List.filterMap_append, List.filterMap_cons,
      List.filterMap_nil, insertOf, this]
    simp
  · show (md_closeCursors w3 tab).content _ _ = _
    rw [md_closeCursors_content, lcont]
    simp [srcKeyInfo]
  · intro hempty
    show (md_closeCursors w3 tab).content _ _ = _
    rw [md_closeCursors_content, lcont, hempty]
    simp [srcKeyInfo]

theorem md_cprows_some (env : Engine) (fuel : Nat) (w : World) (tab : Nat) (rc : Int)
    (w' : World) (h : md_cprows env fuel w tab = some (rc, w')) :
    ∃ b, w' = (md_closeCursors b tab).emit (Event.md_cprows tab rc) := by
  unfold md_cprows at h
  cases hb : cprowsBody env fuel w tab with
  | none => simp [hb] at h
  | some r =>
    simp only [hb, Option.some.injEq, Prod.mk.injEq] at h
    exact ⟨r.2, by rw [← h.2, h.1]⟩

/-- C9: cursors never outlive a copy step.  For a descriptor whose two cursor
fields are null on entry, `md_cprows` returns (whatever the engine answers:
either open failing, first/last/insert/next failing, or the source running
out) with both fields null; the cursors it closed are exactly the cursors it
handed to `sqlite3BtreeCursor`, each once; and `md_closeCursors` on the result
changes nothing. -/
theorem md_cprows_closes (env : Engine) (fuel : Nat) (w : World) (tab : Nat)
    (_hs : (w.tabs tab).src.cursor = 0) (hd : (w.tabs tab).dest.cursor = 0)
    (hfuel : (srcRows env w tab).length < fuel) :
    ∃ rc w' evs, md_cprows env fuel w tab = some (rc, w') ∧ w'.log = w.log ++ evs ∧
      (w'.tabs tab).src.cursor = 0 ∧ (w'.tabs tab).dest.cursor = 0 ∧
      closed evs = opened evs ∧ (opened evs).Nodup ∧ opened evs ≠ [] ∧
      md_closeCursors w' tab = w' := by
  obtain ⟨rc, mid, hrun, _⟩ := md_cprows_run env fuel w tab hfuel
  obtain ⟨b, hb⟩ := md_cprows_some env fuel w tab rc _ hrun
  have hnull := md_closeCursors_null b tab
  have hn1 : ((mid.emit (Event.md_cprows tab rc)).tabs tab).src.cursor = 0 := by
    rw [hb]; exact hnull.1
  have hn2 : ((mid.emit (Event.md_cprows tab rc)).tabs tab).dest.cursor = 0 := by
    rw [hb]; exact hnull.2
  have hlogs : ∃ evs, (mid.emit (Event.md_cprows tab rc)).log = w.log ++ evs ∧
      closed evs = opened evs ∧ (opened evs).Nodup ∧ opened evs ≠ [] := by
    by_cases c0 : env.rc w.tick = 0
    · by_cases c1 : env.rc (w.tick + 1) = 0
      · have hrc := md_openCursors_rc env w tab c0 c1
        obtain ⟨_, _, osrc, odest, ocs, _, _, _, _, olog⟩ := md_openCursors_ok env w tab hrc
        have hbody : ∃ rb wb mv, cprowsBody env fuel w tab = some (rb, wb) ∧
            wb.log = (md_openCursors env w tab).2.log ++ mv ∧
            (∀ e ∈ mv, Event.isMove e = true) ∧
            wb.tabs = (md_openCursors env w tab).2.tabs := by
          unfold cprowsBody
          simp only [hrc, ne_eq, not_true_eq_false, if_false, osrc, odest]
          have hf := sqlite3BtreeFirst_move env (md_openCursors env w tab).2 (w.brk + 1)
          by_cases c2 : (sqlite3BtreeFirst env (md_openCursors env w tab).2 (w.brk + 1)).1 = 0
          · have hrest := sqlite3BtreeFirst_rest env _ _ c2
            rw [ocs] at hrest
            obtain ⟨rc', wl, hl, hm⟩ := cprowsLoop_move env (w.brk + 1) (w.brk + 2) fuel
              (sqlite3BtreeFirst env (md_openCursors env w tab).2 (w.brk + 1)).2 0
              (by rw [hrest]; exact hfuel)
            obtain ⟨⟨mv, hlog, hp⟩, ht, _, _⟩ := hf.followedBy hm
            simp only [c2, if_false, hl]
            exact ⟨rc', wl, mv, rfl, hlog, hp, ht⟩
          · obtain ⟨⟨mv, hlog, hp⟩, ht, _, _⟩ := hf
            simp only [c2, if_true]
            exact ⟨_, _, mv, rfl, hlog, hp, ht⟩
        obtain ⟨rb, wb, mv, hbd, hblog, hmv, hbt⟩ := hbody
        have hclose := md_closeCursors_log wb tab (w.brk + 1) (w.brk + 2)
          (by rw [hbt, osrc]) (by rw [hbt, odest]) (by omega) (by omega)
        have hexp : md_cprows env fuel w tab =
            some (rb, (md_closeCursors wb tab).emit (Event.md_cprows tab rb)) := by
          unfold md_cprows; rw [hbd]
        rw [hrun] at hexp
        have hw := (Prod.mk.inj (Option.some.inj hexp)).2
        rw [hw]
        refine ⟨(md_openCursors env w tab).2.log.drop w.log.length ++ mv ++
            [Event.closeCursor (w.brk + 1), Event.free (w.brk + 1),
             Event.closeCursor (w.brk + 2), Event.free (w.brk + 2), Event.md_cprows tab rb],
          ?_, ?_, ?_, ?_⟩
        · show (md_closeCursors wb tab).log ++ [Event.md_cprows tab rb] = _
          rw [hclose, hblog, olog]
          simp
        · rw [olog]
          simp only [List.drop_left, closed, opened, List.filterMap_append]
          have h1 := opened_move mv hmv
          have h2 := closed_move mv hmv
          simp only [closed, opened] at h1 h2
          rw [h1, h2]
          simp [closedOf, openedOf]
        · rw [olog]
          simp only [List.drop_left, opened, List.filterMap_append]
          have h1 := opened_move mv hmv
          simp only [opened] at h1
          rw [h1]
          simp [openedOf]
        · rw [olog]
          simp [opened, openedOf]
      · have key : ∃ w', md_cprows env fuel w tab = some (env.rc (w.tick + 1), w') ∧
            w'.log = w.log ++ [Event.malloc (w.brk + 1),
              Event.cursor (w.tabs tab).src.db (w.tabs tab).src.rootpage 0
                (srcKeyInfo env w tab) (w.brk + 1) SQLITE_OK,
              Event.malloc (w.brk + 2),
              Event.cursor (w.tabs tab).dest.db (w.tabs tab).dest.rootpage BTREE_WRCSR
                (destKeyInfo env w tab) (w.brk + 2) (env.rc (w.tick + 1)),
              Event.closeCursor (w.brk + 1), Event.free (w.brk + 1),
              Event.closeCursor (w.brk + 2), Event.free (w.brk + 2),
              Event.md_cprows tab (env.rc (w.tick + 1))] := by
          simp [md_cprows, cprowsBody, md_openCursors, md_openCursor, sqlite3BtreeCursor,
            sqlite3BtreeCursorZero, sqlite3_malloc, World.call, MDTab.handle, MDTab.setCursor,
            md_closeCursors, md_closeCursor, sqlite3_free, sqlite3BtreeCloseCursor, World.emit,
            srcKeyInfo, destKeyInfo, c0, c1, hd, upd]
        obtain ⟨w', hr, hlog⟩ := key
        rw [hrun] at hr
        rw [(Prod.mk.inj (Option.some.inj hr)).2]
        exact ⟨_, hlog, by simp [closed, opened, closedOf, openedOf],
          by simp [opened, openedOf], by simp [opened, openedOf]⟩
    · have key : ∃ w', md_cprows env fuel w tab = some (env.rc w.tick, w') ∧
          w'.log = w.log ++ [Event.malloc (w.brk + 1),
            Event.cursor (w.tabs tab).src.db (w.tabs tab).src.rootpage 0
              (srcKeyInfo env w tab) (w.brk + 1) (env.rc w.tick),
            Event.closeCursor (w.brk + 1), Event.free (w.brk + 1),
            Event.md_cprows tab (env.rc w.tick)] := by
        simp [md_cprows, cprowsBody, md_openCursors, md_openCursor, sqlite3BtreeCursor,
          sqlite3BtreeCursorZero, sqlite3_malloc, World.call, MDTab.handle, MDTab.setCursor,
          md_closeCursors, md_closeCursor, sqlite3_free, sqlite3BtreeCloseCursor, World.emit,
          srcKeyInfo, destKeyInfo, c0, hd, upd]
      obtain ⟨w', hr, hlog⟩ := key
      rw [hrun] at hr
      rw [(Prod.mk.inj (Option.some.inj hr)).2]
      exact ⟨_, hlog, by simp [closed, opened, closedOf, openedOf],
        by simp [opened, openedOf], by simp [opened, openedOf]⟩
  obtain ⟨evs, hlog, hco, hnd, hne⟩ := hlogs
  exact ⟨rc, _, evs, hrun, hlog, hn1, hn2, hco, hnd, hne,
    md_closeCursors_of_null _ tab hn1 hn2⟩

/-- C3: a failed definition stops the merge before any transaction.
`md_createTable` returns a non-OK code exactly when the creation statement
fails, or the root-page lookup cannot be prepared, or it finds no row (first
conjunct).  Every run of `md_mergedbs` returns, and if the `k`-th return of
`md_createTable` in it carries a non-OK code `e`, then `md_mergedbs` returns
`e`; that return is the last one of `md_createTable` (no later relation is
replicated); every earlier one carried `SQLITE_OK`; after it only statement
finalisation, the error text, closing the contexts and freeing happen; and
the whole run contains no copy-phase event: `md_cprels` is not entered, no
mutex is entered, no transaction is begun, no cursor is opened, no row is
inserted. -/
theorem md_mergedbs_stops_on_failed_definition (env : Engine) (fuel : Nat) (w : World)
    (errstr : Bool)
    (hscan : (env.scan "table").1.length + (env.scan "index").1.length < fuel)
    (hrows : ∀ r ∈ (env.scan "table").1 ++ (env.scan "index").1,
      (env.rows Db.srcdb r.rootpage).length < fuel) :
    (∀ (v : World) (sql : String) (tab : Nat),
      ((md_createTable env v sql tab).1 ≠ SQLITE_OK ↔
        (env.rc v.tick ≠ SQLITE_OK ∨ env.rc (v.tick + 1) ≠ SQLITE_OK ∨
          env.step (v.tick + 2) ≠ SQLITE_ROW))) ∧
    ∃ rc w' evs, md_mergedbs env fuel w errstr = some (rc, w') ∧ w'.log = w.log ++ evs ∧
      ∀ k t e, (crets evs)[k]? = some (t, e) → e ≠ SQLITE_OK →
        rc = e ∧ (crets evs).length = k + 1 ∧
        (∃ pre post, evs = pre ++ Event.md_createTable t e :: post ∧
          (∀ r ∈ crets pre, r.2 = SQLITE_OK) ∧ (∀ x ∈ post, Event.isCleanup x = true)) ∧
        (∀ x ∈ evs, Event.isCopyPhase x = false) := by
  constructor
  · intro v sql tab
    rw [md_createTable_rc]
    by_cases c0 : env.rc v.tick = 0
    · by_cases c1 : env.rc (v.tick + 1) = 0
      · by_cases c2 : env.step (v.tick + 2) = 100 <;> simp [c0, c1, c2]
      · simp [c0, c1]
    · simp [c0]
  · obtain ⟨rc, w', evs, hrun, hlog, hout⟩ := md_mergedbs_run env fuel w errstr hscan hrows
    refine ⟨rc, w', evs, hrun, hlog, ?_⟩
    intro k t e hk he
    rcases hout with ⟨_, pre, t', post, hevs, hpre, hsetup, hpost⟩ | ⟨hall, _⟩
    · have hcr : crets evs = crets pre ++ [(t', rc)] := by
        rw [hevs, crets_append]
        have : crets (Event.md_createTable t' rc :: post) = (t', rc) :: crets post := by
          simp [crets, cretOf]
        rw [this, crets_cleanup _ hpost]
      rw [hcr] at hk
      obtain ⟨hkl, hz⟩ := getElem_failed_last (crets pre) (t', rc) (t, e) k hpre hk he
      have ht : t = t' := congrArg Prod.fst hz
      have hrc : e = rc := congrArg Prod.snd hz
      subst ht hrc
      refine ⟨rfl, by rw [hcr, hkl]; simp, ⟨pre, post, hevs, hpre, hpost⟩, ?_⟩
      intro x hx
      rw [hevs] at hx
      rcases List.mem_append.mp hx with h | h
      · exact Event.isSetup_not_copyPhase x (hsetup x h)
      · rcases List.mem_cons.mp h with h | h
        · subst h; rfl
        · exact Event.isCleanup_not_copyPhase x (hpost x h)
    · exact absurd (hall (t, e) (List.getElem?_mem hk)) he

/-- C6 (counterexample): on an empty source `md_mergedbs` returns `SQLITE_OK`
although no commit was attempted at all. -/
theorem md_mergedbs_ok_without_commit :
    (md_mergedbs Engine.quiet 1 World.init false).map (fun r => (r.1, r.2.log)) =
      some (SQLITE_OK,
        [Event.open_v2 Db.srcdb 0, Event.open_v2 Db.destdb 0,
         Event.prepare Db.srcdb 0, Event.step Db.srcdb SQLITE_DONE, Event.finalize Db.srcdb,
         Event.prepare Db.srcdb 0, Event.step Db.srcdb SQLITE_DONE, Event.finalize Db.srcdb,
         Event.close_v2 Db.srcdb, Event.close_v2 Db.destdb]) := by
  decide

/-- C6 (amended): a failed commit is reported and rolled back.  (1) When
`md_endTrans` is called with `commit != 0` and the destination commit returns a
non-OK code `e`, it goes on to attempt a rollback of the destination and
returns `e`, whatever the rollback returns.  (2) `md_cprels` returns
`SQLITE_OK` only if the destination commit succeeded.  (3) `md_mergedbs`
returns `SQLITE_OK` only if `md_cprels` was never entered (the descriptor list
was empty) or the destination commit succeeded. -/
theorem failed_commit_is_reported (env : Engine) (fuel : Nat) (w : World) (errstr : Bool)
    (hscan : (env.scan "table").1.length + (env.scan "index").1.length < fuel)
    (hrows : ∀ r ∈ (env.scan "table").1 ++ (env.scan "index").1,
      (env.rows Db.srcdb r.rootpage).length < fuel) :
    (∀ (v : World) (tab : Nat) (commit : Int), commit ≠ 0 →
      env.rc (v.tick + 1) ≠ SQLITE_OK →
      (md_endTrans env v tab commit).1 = env.rc (v.tick + 1) ∧
      (md_endTrans env v tab commit).2.log = v.log ++
        [Event.mutex_leave (v.tabs tab).src.db, Event.mutex_leave (v.tabs tab).dest.db,
         Event.commit (v.tabs tab).src.db (env.rc v.tick),
         Event.commit (v.tabs tab).dest.db (env.rc (v.tick + 1)),
         Event.rollback (v.tabs tab).dest.db (env.rc (v.tick + 2))]) ∧
    (∀ (v : World) (tablist : Nat) (L : List Nat), IsList v.tabs tablist L →
      L.length < fuel → (∀ a ∈ L, (srcRows env v a).length < fuel) →
      ∃ rc v' evs, md_cprels env fuel v tablist = some (rc, v') ∧ v'.log = v.log ++ evs ∧
        (rc = SQLITE_OK → Event.commit (v.tabs tablist).dest.db SQLITE_OK ∈ evs)) ∧
    (∃ rc w' evs, md_mergedbs env fuel w errstr = some (rc, w') ∧ w'.log = w.log ++ evs ∧
      (rc = SQLITE_OK → (∀ t, Event.md_cprels t ∉ evs) ∨
        Event.commit Db.destdb SQLITE_OK ∈ evs)) := by
  refine ⟨?_, ?_, ?_⟩
  · intro v tab commit hc he
    refine ⟨md_endTrans_rc env v tab commit, ?_⟩
    rw [md_endTrans_log]
    simp [endTransEvents, hc, he]
  · intro v tablist L hL hlen hr
    obtain ⟨rc, v', evs, hrun, hlog, _, _, _, hcommit⟩ :=
      md_cprels_total env fuel v tablist L hL hlen hr
    exact ⟨rc, v', evs, hrun, hlog, hcommit⟩
  · obtain ⟨rc, w', evs, hrun, hlog, hout⟩ := md_mergedbs_run env fuel w errstr hscan hrows
    refine ⟨rc, w', evs, hrun, hlog, ?_⟩
    intro hrc
    rcases hout with ⟨hne, _⟩ | ⟨_, h⟩
    · exact absurd hrc hne
    · exact h hrc

/-- C8: descriptors are kept in discovery order.  (1) On a list `L` (possibly
empty) starting at `head` and a new descriptor with a null link, `md_insertTab`
returns and leaves the list `L` followed by the new descriptor; no descriptor
is written except in its link, and no name is touched.  (2) From an empty
list, `md_cpdefs` for "table" returns with the list of the descriptors of the
table rows it replicated, in scan order (all rows if it returned `SQLITE_OK`);
`md_cpdefs` for "index" then returns with that list followed by the descriptors
of the index rows it replicated, in scan order.  In each pass the descriptors
added are exactly those on which `md_createTable` returned `SQLITE_OK`, in the
order of the calls, and the pass returns `SQLITE_OK` unless preparing the scan
failed (then nothing was added) or a `md_createTable` failed (then the pass
stopped there, short of the full scan, with that result).  (3) `md_cprels` on
the resulting list runs `md_cprows` on its descriptors in list order, on all of
them when it returns `SQLITE_OK`: either `md_beginTrans` failed and nothing was
copied, or the recorded returns are those of real runs of `md_cprows`, one per
descriptor in list order up to the first failure.  (4) On an engine that
grants every request, with no transaction open at the start, all three return
`SQLITE_OK`, every scanned row has its descriptor, and every descriptor was
copied, tables first, in scan order. -/
theorem descriptors_in_discovery_order (env : Engine) (fuel : Nat) (w : World)
    (head newelement : Nat) (L : List Nat)
    (hL : IsList w.tabs head L) (he0 : newelement ≠ 0) (heL : newelement ∉ L)
    (hen : (w.tabs newelement).next = 0) (hfuel : L.length ≤ fuel)
    (hscan : (env.scan "table").1.length + (env.scan "index").1.length < fuel)
    (hrows : ∀ r ∈ (env.scan "table").1 ++ (env.scan "index").1,
      (env.rows Db.srcdb r.rootpage).length < fuel) :
    (∃ w' head', md_insertTab fuel w head newelement = some (w', head') ∧
      IsList w'.tabs head' (L ++ [newelement]) ∧
      (∀ x, ({ w'.tabs x with next := 0 } : MDTab) = { w.tabs x with next := 0 }) ∧
      w'.strs = w.strs) ∧
    (∀ w0 : World, ∃ rcT wT tlT LT evsT,
      md_cpdefs env fuel w0 Db.srcdb Db.destdb "table" 0 = some (rcT, wT, tlT) ∧
      wT.log = w0.log ++ evsT ∧
      IsList wT.tabs tlT LT ∧
      LT.map (descOf wT) =
        ((env.scan "table").1.take LT.length).map (descOfRow Db.srcdb Db.destdb "table") ∧
      (rcT = SQLITE_OK → LT.length = (env.scan "table").1.length) ∧
      ((rcT = SQLITE_OK ∧ crets evsT = LT.map (fun a => (a, SQLITE_OK))) ∨
       (rcT ≠ SQLITE_OK ∧ LT.length < (env.scan "table").1.length ∧
         ∃ t, crets evsT = LT.map (fun a => (a, SQLITE_OK)) ++ [(t, rcT)]) ∨
       (rcT ≠ SQLITE_OK ∧ rcT = env.rc w0.tick ∧ LT = [] ∧ crets evsT = [])) ∧
      ∃ rcI wI tlI LI evsI,
        md_cpdefs env fuel wT Db.srcdb Db.destdb "index" tlT = some (rcI, wI, tlI) ∧
        wI.log = wT.log ++ evsI ∧
        IsList wI.tabs tlI (LT ++ LI) ∧
        (LT ++ LI).map (descOf wI) =
          ((env.scan "table").1.take LT.length).map (descOfRow Db.srcdb Db.destdb "table") ++
          ((env.scan "index").1.take LI.length).map (descOfRow Db.srcdb Db.destdb "index") ∧
        (rcI = SQLITE_OK → LI.length = (env.scan "index").1.length) ∧
        ((rcI = SQLITE_OK ∧ crets evsI = LI.map (fun a => (a, SQLITE_OK))) ∨
         (rcI ≠ SQLITE_OK ∧ LI.length < (env.scan "index").1.length ∧
           ∃ t, crets evsI = LI.map (fun a => (a, SQLITE_OK)) ++ [(t, rcI)]) ∨
         (rcI ≠ SQLITE_OK ∧ rcI = env.rc wT.tick ∧ LI = [] ∧ crets evsI = [])) ∧
        ∃ rc w' evs, md_cprels env fuel wI tlI = some (rc, w') ∧ w'.log = wI.log ++ evs ∧
          (rets evs).map Prod.fst <+: LT ++ LI ∧
          (rc = SQLITE_OK → (rets evs).map Prod.fst = LT ++ LI) ∧
          (((md_beginTrans env wI tlI).1 ≠ SQLITE_OK ∧ rc = (md_beginTrans env wI tlI).1 ∧
              rets evs = []) ∨
           ((md_beginTrans env wI tlI).1 = SQLITE_OK ∧ ∃ rcl wl,
              CopyRets (LT ++ LI) rcl (rets evs) ∧
              CopyChain env fuel (md_beginTrans env (wI.emit (Event.md_cprels tlI)) tlI).2
                (rets evs) wl ∧
              rc = (if rcl = SQLITE_OK then env.rc (wl.tick + 1) else rcl))) ∧
          ((∀ k, env.rc k = SQLITE_OK) → (∀ k, env.step k = SQLITE_ROW) →
            (∀ d, w0.inTrans d = TransState.TRANS_NONE) →
            rcT = SQLITE_OK ∧ rcI = SQLITE_OK ∧ rc = SQLITE_OK ∧
            (LT ++ LI).map (descOf wI) =
              (env.scan "table").1.map (descOfRow Db.srcdb Db.destdb "table") ++
              (env.scan "index").1.map (descOfRow Db.srcdb Db.destdb "index") ∧
            rets evs = (LT ++ LI).map (fun a => (a, SQLITE_OK)))) := by
  constructor
  · obtain ⟨w', head', hins, hlist, hframe, hw'⟩ :=
      md_insertTab_spec fuel w head newelement L hL he0 heL hen hfuel
    exact ⟨w', head', hins, hlist, hframe, by rw [hw']⟩
  · intro w0
    obtain ⟨rcT, wT, tlT, evsT, newT, hT, hlogT, hinvT, _, hnewT, _, hlenT, hinT, hcrT, hokT⟩ :=
      md_cpdefs_run env fuel w0 Db.srcdb Db.destdb "table" 0 [] ⟨rfl, by simp, by simp⟩
        (by simp; omega)
    rw [List.nil_append] at hinvT
    have hnewTlen : newT.length ≤ (env.scan "table").1.length := by
      have := congrArg List.length hnewT
      simp at this
      omega
    obtain ⟨rcI, wI, tlI, evsI, newI, hI, hlogI, hinvI, hdescI, hnewI, _, hlenI, hinI, hcrI,
        hokI⟩ :=
      md_cpdefs_run env fuel wT Db.srcdb Db.destdb "index" tlT newT hinvT (by omega)
    have hnewIlen : newI.length ≤ (env.scan "index").1.length := by
      have := congrArg List.length hnewI
      simp at this
      omega
    have hmapT : newT.map (descOf wI) = newT.map (descOf wT) :=
      List.map_congr_left (fun a ha => hdescI a ha)
    have hdescAll : ∀ a ∈ newT ++ newI, ∃ rt r,
        r ∈ (env.scan "table").1 ++ (env.scan "index").1 ∧
        descOf wI a = descOfRow Db.srcdb Db.destdb rt r := by
      intro a ha
      rcases List.mem_append.mp ha with h | h
      · obtain ⟨r, hr, hd⟩ := descOf_mem_rows wT newT _ _ hnewT a h
        exact ⟨"table", r, List.mem_append_left _ hr, by rw [hdescI a h, hd]⟩
      · obtain ⟨r, hr, hd⟩ := descOf_mem_rows wI newI _ _ hnewI a h
        exact ⟨"index", r, List.mem_append_right _ hr, hd⟩
    have hrowsI : ∀ a ∈ newT ++ newI, (srcRows env wI a).length < fuel := by
      intro a ha
      obtain ⟨rt, r, hr, hd⟩ := hdescAll a ha
      simp only [descOf, descOfRow, Prod.mk.injEq] at hd
      unfold srcRows
      rw [hd.2.2.1, hd.2.2.2.1]
      exact hrows r hr
    have hmapAll : (newT ++ newI).map (descOf wI) =
        ((env.scan "table").1.take newT.length).map (descOfRow Db.srcdb Db.destdb "table") ++
        ((env.scan "index").1.take newI.length).map (descOfRow Db.srcdb Db.destdb "index") := by
      rw [List.map_append, hmapT, hnewT, hnewI]
    obtain ⟨rc, w', evs, hrun, hlog, hpre, hall, hcases, hok⟩ :=
      md_cprels_order env fuel wI tlI (newT ++ newI) hinvI.list (by simp; omega) hrowsI
    refine ⟨rcT, wT, tlT, newT, evsT, hT, hlogT, hinvT.list, hnewT, hlenT, hcrT, rcI, wI, tlI,
      newI, evsI, hI, hlogI, hinvI.list, hmapAll, hlenI, hcrI, rc, w', evs, hrun, hlog,
      hpre, hall, hcases, ?_⟩
    intro hrc hstep hnone
    have hT0 := hokT hrc hstep
    have hI0 := hokI hrc hstep
    have hinAll : ∀ d, wI.inTrans d = TransState.TRANS_NONE := by
      intro d
      rw [hinI, hinT]
      exact hnone d
    obtain ⟨hrc0, hrets⟩ := hok hrc (hinAll _) (hinAll _)
    refine ⟨hT0, hI0, hrc0, ?_, hrets⟩
    rw [hmapAll, hlenT hT0, hlenI hI0, List.take_length, List.take_length]

/-- C4 (code at the failing input): a catalog scan whose first step fails with
code 5 makes `md_cpdefs` return `SQLITE_OK`; so does a scan that fails with
code 11 after one relation was replicated. -/
theorem md_cpdefs_hides_step_error :
    (md_cpdefs scanBreaks 1 World.init Db.srcdb Db.destdb "table" 0).map
        (fun r => (r.1, r.2.1.log)) =
      some (SQLITE_OK,
        [Event.prepare Db.srcdb 0, Event.step Db.srcdb 5, Event.finalize Db.srcdb]) ∧
    (md_cpdefs scanBreaksLate 1 World.init Db.srcdb Db.destdb "table" 0).map
        (fun r => (r.1, r.2.1.log)) =
      some (SQLITE_OK,
        [Event.prepare Db.srcdb 0, Event.step Db.srcdb SQLITE_ROW,
         Event.malloc 1, Event.malloc 2,
         Event.execSql Db.destdb "create table t(a)" 0, Event.malloc 3,
         Event.prepare Db.destdb 0, Event.step Db.destdb SQLITE_ROW,
         Event.finalize Db.destdb, Event.free 3, Event.md_createTable 1 0,
         Event.step Db.srcdb 11, Event.finalize Db.srcdb]) := by
  decide

/-- C10 (code at the failing input): when `md_createTable` fails for the
descriptor just created, `md_mergedbs` returns without ever freeing that
descriptor (block 1) or its name (block 2). -/
theorem md_mergedbs_leaks_descriptor :
    (md_mergedbs tableExists 2 World.init false).map (fun r => (r.1, r.2.log)) =
      some (SQLITE_ERROR,
        [Event.open_v2 Db.srcdb 0, Event.open_v2 Db.destdb 0,
         Event.prepare Db.srcdb 0, Event.step Db.srcdb SQLITE_ROW,
         Event.malloc 1, Event.malloc 2,
         Event.execSql Db.destdb "create table t(a)" SQLITE_ERROR,
         Event.md_createTable 1 SQLITE_ERROR, Event.finalize Db.srcdb,
         Event.close_v2 Db.srcdb, Event.close_v2 Db.destdb]) := by
  decide

/-- C7 (witness): the destination of `busyWorld` has a write transaction. -/
theorem md_cprels_fails_fast_witness :
    md_beginTrans Engine.quiet busyWorld 1 = (SQLITE_ERROR, busyWorld) ∧
    ∃ w', md_cprels Engine.quiet 2 busyWorld 1 = some (SQLITE_ERROR, w') ∧
      w'.log = busyWorld.log ++ [Event.md_cprels 1] ∧
      w'.tick = busyWorld.tick ∧ w'.inTrans = busyWorld.inTrans ∧
      w'.mutex = busyWorld.mutex ∧ w'.content = busyWorld.content ∧
      w'.curs = busyWorld.curs ∧ w'.tabs = busyWorld.tabs :=
  md_cprels_fails_fast Engine.quiet 2 busyWorld 1 (Or.inr (by decide))

/-- C1 (witness): copying the two rows of table `t`. -/
theorem md_cprows_copies_witness :
    (srcRows copyEngine oneTabWorld 1).length < 3 ∧
    ∃ w', md_cprows copyEngine 3 oneTabWorld 1 = some (SQLITE_OK, w') ∧
      w'.log = oneTabWorld.log ++ copyEvents copyEngine oneTabWorld 1 ∧
      inserts (copyEvents copyEngine oneTabWorld 1) =
        (srcRows copyEngine oneTabWorld 1).map (fun r =>
          (oneTabWorld.brk + 2,
           md_fillPayload r (decide (srcKeyInfo copyEngine oneTabWorld 1 ≠ 0)), SQLITE_OK)) ∧
      w'.content (oneTabWorld.tabs 1).dest.db (oneTabWorld.tabs 1).dest.rootpage =
        oneTabWorld.content (oneTabWorld.tabs 1).dest.db (oneTabWorld.tabs 1).dest.rootpage ++
          (srcRows copyEngine oneTabWorld 1).map (fun r =>
            md_fillPayload r (decide (srcKeyInfo copyEngine oneTabWorld 1 ≠ 0))) ∧
      (oneTabWorld.content (oneTabWorld.tabs 1).dest.db (oneTabWorld.tabs 1).dest.rootpage = [] →
        w'.content (oneTabWorld.tabs 1).dest.db (oneTabWorld.tabs 1).dest.rootpage =
          (srcRows copyEngine oneTabWorld 1).map (fun r =>
            md_fillPayload r (decide (srcKeyInfo copyEngine oneTabWorld 1 ≠ 0)))) ∧
      (∀ r, md_fillPayload r true = ⟨some r.pPayload, r.nPayload, none, 0⟩) ∧
      (∀ r, md_fillPayload r false = ⟨none, r.nKey, some r.pPayload, r.nPayload⟩) :=
  ⟨by decide, md_cprows_copies copyEngine 3 oneTabWorld 1 (fun _ _ _ => rfl) (by decide)⟩

/-- C9 (witness): a descriptor with null cursors, copied. -/
theorem md_cprows_closes_witness :
    (oneTabWorld.tabs 1).src.cursor = 0 ∧ (oneTabWorld.tabs 1).dest.cursor = 0 ∧
    ∃ rc w' evs, md_cprows copyEngine 3 oneTabWorld 1 = some (rc, w') ∧
      w'.log = oneTabWorld.log ++ evs ∧
      (w'.tabs 1).src.cursor = 0 ∧ (w'.tabs 1).dest.cursor = 0 ∧
      closed evs = opened evs ∧ (opened evs).Nodup ∧ opened evs ≠ [] ∧
      md_closeCursors w' 1 = w' :=
  ⟨rfl, rfl, md_cprows_closes copyEngine 3 oneTabWorld 1 rfl rfl (by decide)⟩

/-- The two descriptors of `twoTabWorld` form the list `[1, 3]`. -/
theorem twoTabWorld_list : IsList twoTabWorld.tabs 1 [1, 3] :=
  ⟨rfl, by decide, rfl, by decide, rfl⟩

/-- On an engine without rows any fuel covers the relations of `twoTabWorld`. -/
theorem twoTabWorld_rows (env : Engine) (h : ∀ d r, env.rows d r = []) :
    ∀ a ∈ [1, 3], (srcRows env twoTabWorld a).length < 3 := by
  intro a _
  unfold srcRows
  rw [h]
  decide

/-- C2 (witness): two descriptors, the copy of the second one fails: the first
copy returned `SQLITE_OK`, the second 7, the destination was rolled back and 7
is the result.  On the engine that grants every request both copies return
`SQLITE_OK`, the destination is committed and the result is `SQLITE_OK`. -/
theorem md_cprels_atomic_witness :
    IsList twoTabWorld.tabs 1 [1, 3] ∧
    (md_beginTrans secondCopyFails twoTabWorld 1).1 = SQLITE_OK ∧
    (∃ rc w' evs, md_cprels secondCopyFails 3 twoTabWorld 1 = some (rc, w') ∧
      w'.log = twoTabWorld.log ++ evs ∧
      ((∃ c, Event.commit (twoTabWorld.tabs 1).dest.db c ∈ evs) ↔
        rets evs = [1, 3].map (fun a => (a, SQLITE_OK))) ∧
      (∀ k t e, (rets evs)[k]? = some (t, e) → e ≠ SQLITE_OK →
        [1, 3][k]? = some t ∧ (rets evs).length = k + 1 ∧
        (∃ c, Event.rollback (twoTabWorld.tabs 1).dest.db c ∈ evs) ∧
        (∀ c, Event.commit (twoTabWorld.tabs 1).dest.db c ∉ evs) ∧ rc = e) ∧
      ((rets evs = [1, 3].map (fun a => (a, SQLITE_OK)) ∧
          ∃ c2, finals (twoTabWorld.tabs 1).dest.db evs =
            Event.commit (twoTabWorld.tabs 1).dest.db rc ::
              (if rc ≠ SQLITE_OK then [Event.rollback (twoTabWorld.tabs 1).dest.db c2]
               else [])) ∨
       (∃ pre t post e, [1, 3] = pre ++ t :: post ∧ e ≠ SQLITE_OK ∧
          rets evs = pre.map (fun a => (a, SQLITE_OK)) ++ [(t, e)] ∧ rc = e ∧
          ∃ c, finals (twoTabWorld.tabs 1).dest.db evs =
            [Event.rollback (twoTabWorld.tabs 1).dest.db c])) ∧
      (∃ wl, CopyChain secondCopyFails 3
          (md_beginTrans secondCopyFails (twoTabWorld.emit (Event.md_cprels 1)) 1).2
          (rets evs) wl ∧
        w' = (md_endTrans secondCopyFails wl 1
          (if rets evs = [1, 3].map (fun a => (a, SQLITE_OK)) then 1 else 0)).2) ∧
      ((∀ k, secondCopyFails.rc k = SQLITE_OK) →
        rc = SQLITE_OK ∧ rets evs = [1, 3].map (fun a => (a, SQLITE_OK)) ∧
        finals (twoTabWorld.tabs 1).dest.db evs =
          [Event.commit (twoTabWorld.tabs 1).dest.db SQLITE_OK])) ∧
    (md_cprels secondCopyFails 3 twoTabWorld 1).map
        (fun r => (r.1, rets r.2.log, finals Db.destdb r.2.log)) =
      some (7, [(1, SQLITE_OK), (3, 7)], [Event.rollback Db.destdb SQLITE_OK]) ∧
    (md_cprels Engine.quiet 3 twoTabWorld 1).map
        (fun r => (r.1, rets r.2.log, finals Db.destdb r.2.log)) =
      some (SQLITE_OK, [(1, SQLITE_OK), (3, SQLITE_OK)],
        [Event.commit Db.destdb SQLITE_OK]) :=
  ⟨twoTabWorld_list, by decide,
   md_cprels_atomic secondCopyFails 3 twoTabWorld 1 [1, 3] twoTabWorld_list (by decide)
     (by decide) (by decide) (by decide) (twoTabWorld_rows secondCopyFails (fun _ _ => rfl)),
   by decide, by decide⟩

/-- C5 (witness of the amended claim): two descriptors, the copy of the second
one fails. -/
theorem md_cprels_finalises_witness :
    IsList twoTabWorld.tabs 1 [1, 3] ∧
    (md_beginTrans secondCopyFails twoTabWorld 1).1 = SQLITE_OK ∧
    ∃ rc w' evs, md_cprels secondCopyFails 3 twoTabWorld 1 = some (rc, w') ∧
      w'.log = twoTabWorld.log ++ evs ∧
      (finals (twoTabWorld.tabs 1).dest.db evs =
          [Event.commit (twoTabWorld.tabs 1).dest.db SQLITE_OK] ∨
       (∃ r, finals (twoTabWorld.tabs 1).dest.db evs =
          [Event.rollback (twoTabWorld.tabs 1).dest.db r]) ∨
       (∃ c r, c ≠ SQLITE_OK ∧ finals (twoTabWorld.tabs 1).dest.db evs =
          [Event.commit (twoTabWorld.tabs 1).dest.db c,
           Event.rollback (twoTabWorld.tabs 1).dest.db r])) :=
  ⟨twoTabWorld_list, by decide,
   md_cprels_finalises secondCopyFails 3 twoTabWorld 1 [1, 3] twoTabWorld_list (by decide)
     (by decide) (by decide) (by decide) (twoTabWorld_rows secondCopyFails (fun _ _ => rfl))⟩

/-- Fuel 5 covers every relation of `smallSource`. -/
theorem smallSource_rows :
    ∀ r ∈ (smallSource.scan "table").1 ++ (smallSource.scan "index").1,
      (smallSource.rows Db.srcdb r.rootpage).length < 5 := by
  intro r hr
  have h : r = ⟨"t", 2, "create table t(a)"⟩ ∨ r = ⟨"i", 3, "create index i on t(a)"⟩ := by
    simpa [smallSource] using hr
  rcases h with rfl | rfl <;> decide

/-- C3 (witness): the destination already has a relation `t`. -/
theorem md_mergedbs_stops_on_failed_definition_witness :
    (tableExists.scan "table").1.length + (tableExists.scan "index").1.length < 2 ∧
    (∀ (v : World) (sql : String) (tab : Nat),
      ((md_createTable tableExists v sql tab).1 ≠ SQLITE_OK ↔
        (tableExists.rc v.tick ≠ SQLITE_OK ∨ tableExists.rc (v.tick + 1) ≠ SQLITE_OK ∨
          tableExists.step (v.tick + 2) ≠ SQLITE_ROW))) ∧
    ∃ rc w' evs, md_mergedbs tableExists 2 World.init false = some (rc, w') ∧
      w'.log = World.init.log ++ evs ∧
      ∀ k t e, (crets evs)[k]? = some (t, e) → e ≠ SQLITE_OK →
        rc = e ∧ (crets evs).length = k + 1 ∧
        (∃ pre post, evs = pre ++ Event.md_createTable t e :: post ∧
          (∀ r ∈ crets pre, r.2 = SQLITE_OK) ∧ (∀ x ∈ post, Event.isCleanup x = true)) ∧
        (∀ x ∈ evs, Event.isCopyPhase x = false) :=
  ⟨by decide,
   md_mergedbs_stops_on_failed_definition tableExists 2 World.init false (by decide)
     (fun _ _ => Nat.zero_lt_two)⟩

/-- C6 (witness of the amended claim): a source with one table and one index. -/
theorem failed_commit_is_reported_witness :
    (smallSource.scan "table").1.length + (smallSource.scan "index").1.length < 5 ∧
    (∀ (v : World) (tab : Nat) (commit : Int), commit ≠ 0 →
      smallSource.rc (v.tick + 1) ≠ SQLITE_OK →
      (md_endTrans smallSource v tab commit).1 = smallSource.rc (v.tick + 1) ∧
      (md_endTrans smallSource v tab commit).2.log = v.log ++
        [Event.mutex_leave (v.tabs tab).src.db, Event.mutex_leave (v.tabs tab).dest.db,
         Event.commit (v.tabs tab).src.db (smallSource.rc v.tick),
         Event.commit (v.tabs tab).dest.db (smallSource.rc (v.tick + 1)),
         Event.rollback (v.tabs tab).dest.db (smallSource.rc (v.tick + 2))]) ∧
    (∀ (v : World) (tablist : Nat) (L : List Nat), IsList v.tabs tablist L →
      L.length < 5 → (∀ a ∈ L, (srcRows smallSource v a).length < 5) →
      ∃ rc v' evs, md_cprels smallSource 5 v tablist = some (rc, v') ∧
        v'.log = v.log ++ evs ∧
        (rc = SQLITE_OK → Event.commit (v.tabs tablist).dest.db SQLITE_OK ∈ evs)) ∧
    (∃ rc w' evs, md_mergedbs smallSource 5 World.init false = some (rc, w') ∧
      w'.log = World.init.log ++ evs ∧
      (rc = SQLITE_OK → (∀ t, Event.md_cprels t ∉ evs) ∨
        Event.commit Db.destdb SQLITE_OK ∈ evs)) :=
  ⟨by decide,
   failed_commit_is_reported smallSource 5 World.init false (by decide) smallSource_rows⟩

/-- C8 (witness): appending a descriptor at address 5 to the one-element list
of `oneTabWorld`; scanning a source with one table and one index.  Run from
the empty world, the two passes and the copy return `SQLITE_OK`; the list is
the table descriptor (address 1) followed by the index descriptor (address 4);
`md_createTable` and then `md_cprows` returned `SQLITE_OK` on them in that
order. -/
theorem descriptors_in_discovery_order_witness :
    IsList oneTabWorld.tabs 1 [1] ∧ (5 : Nat) ∉ [1] ∧ (oneTabWorld.tabs 5).next = 0 ∧
    ((∃ w' head', md_insertTab 5 oneTabWorld 1 5 = some (w', head') ∧
      IsList w'.tabs head' ([1] ++ [5]) ∧
      (∀ x, ({ w'.tabs x with next := 0 } : MDTab) = { oneTabWorld.tabs x with next := 0 }) ∧
      w'.strs = oneTabWorld.strs) ∧
    (∀ w0 : World, ∃ rcT wT tlT LT evsT,
      md_cpdefs smallSource 5 w0 Db.srcdb Db.destdb "table" 0 = some (rcT, wT, tlT) ∧
      wT.log = w0.log ++ evsT ∧
      IsList wT.tabs tlT LT ∧
      LT.map (descOf wT) =
        ((smallSource.scan "table").1.take LT.length).map
          (descOfRow Db.srcdb Db.destdb "table") ∧
      (rcT = SQLITE_OK → LT.length = (smallSource.scan "table").1.length) ∧
      ((rcT = SQLITE_OK ∧ crets evsT = LT.map (fun a => (a, SQLITE_OK))) ∨
       (rcT ≠ SQLITE_OK ∧ LT.length < (smallSource.scan "table").1.length ∧
         ∃ t, crets evsT = LT.map (fun a => (a, SQLITE_OK)) ++ [(t, rcT)]) ∨
       (rcT ≠ SQLITE_OK ∧ rcT = smallSource.rc w0.tick ∧ LT = [] ∧ crets evsT = [])) ∧
      ∃ rcI wI tlI LI evsI,
        md_cpdefs smallSource 5 wT Db.srcdb Db.destdb "index" tlT = some (rcI, wI, tlI) ∧
        wI.log = wT.log ++ evsI ∧
        IsList wI.tabs tlI (LT ++ LI) ∧
        (LT ++ LI).map (descOf wI) =
          ((smallSource.scan "table").1.take LT.length).map
            (descOfRow Db.srcdb Db.destdb "table") ++
          ((smallSource.scan "index").1.take LI.length).map
            (descOfRow Db.srcdb Db.destdb "index") ∧
        (rcI = SQLITE_OK → LI.length = (smallSource.scan "index").1.length) ∧
        ((rcI = SQLITE_OK ∧ crets evsI = LI.map (fun a => (a, SQLITE_OK))) ∨
         (rcI ≠ SQLITE_OK ∧ LI.length < (smallSource.scan "index").1.length ∧
           ∃ t, crets evsI = LI.map (fun a => (a, SQLITE_OK)) ++ [(t, rcI)]) ∨
         (rcI ≠ SQLITE_OK ∧ rcI = smallSource.rc wT.tick ∧ LI = [] ∧ crets evsI = [])) ∧
        ∃ rc w' evs, md_cprels smallSource 5 wI tlI = some (rc, w') ∧
          w'.log = wI.log ++ evs ∧
          (rets evs).map Prod.fst <+: LT ++ LI ∧
          (rc = SQLITE_OK → (rets evs).map Prod.fst = LT ++ LI) ∧
          (((md_beginTrans smallSource wI tlI).1 ≠ SQLITE_OK ∧
              rc = (md_beginTrans smallSource wI tlI).1 ∧ rets evs = []) ∨
           ((md_beginTrans smallSource wI tlI).1 = SQLITE_OK ∧ ∃ rcl wl,
              CopyRets (LT ++ LI) rcl (rets evs) ∧
              CopyChain smallSource 5
                (md_beginTrans smallSource (wI.emit (Event.md_cprels tlI)) tlI).2
                (rets evs) wl ∧
              rc = (if rcl = SQLITE_OK then smallSource.rc (wl.tick + 1) else rcl))) ∧
          ((∀ k, smallSource.rc k = SQLITE_OK) → (∀ k, smallSource.step k = SQLITE_ROW) →
            (∀ d, w0.inTrans d = TransState.TRANS_NONE) →
            rcT = SQLITE_OK ∧ rcI = SQLITE_OK ∧ rc = SQLITE_OK ∧
            (LT ++ LI).map (descOf wI) =
              (smallSource.scan "table").1.map (descOfRow Db.srcdb Db.destdb "table") ++
              (smallSource.scan "index").1.map (descOfRow Db.srcdb Db.destdb "index") ∧
            rets evs = (LT ++ LI).map (fun a => (a, SQLITE_OK))))) ∧
    (∀ k, smallSource.rc k = SQLITE_OK) ∧ (∀ k, smallSource.step k = SQLITE_ROW) ∧
    (∀ d, World.init.inTrans d = TransState.TRANS_NONE) ∧
    (md_cpdefs smallSource 5 World.init Db.srcdb Db.destdb "table" 0).bind (fun t =>
      (md_cpdefs smallSource 5 t.2.1 Db.srcdb Db.destdb "index" t.2.2).bind (fun i =>
        (md_cprels smallSource 5 i.2.1 i.2.2).map (fun c =>
          ([t.1, i.1, c.1], i.2.2, crets i.2.1.log, rets c.2.log)))) =
      some ([SQLITE_OK, SQLITE_OK, SQLITE_OK], 1,
        [(1, SQLITE_OK), (4, SQLITE_OK)], [(1, SQLITE_OK), (4, SQLITE_OK)]) ∧
    (md_cpdefs smallSource 5 World.init Db.srcdb Db.destdb "table" 0).bind (fun t =>
      (md_cpdefs smallSource 5 t.2.1 Db.srcdb Db.destdb "index" t.2.2).map (fun i =>
        [1, 4].map (descOf i.2.1))) =
      some [("table", "t", Db.srcdb, 2, Db.destdb), ("index", "i", Db.srcdb, 3, Db.destdb)] :=
  ⟨⟨rfl, by decide, rfl⟩, by decide, rfl,
   descriptors_in_discovery_order smallSource 5 oneTabWorld 1 5 [1] ⟨rfl, by decide, rfl⟩
     (by decide) (by decide) rfl (by decide) (by decide) smallSource_rows,
   fun _ => rfl, fun _ => rfl, fun _ => rfl, by decide, by decide⟩

end MergeDbs
